import Mathlib

/-!
# assisted-service: network utilities, connectivity groups, orchestrator, host monitor

A shallow embedding of

* `internal/network/cidr_validations.go`
* `internal/network/connectivity_groups.go`
* `internal/bminventory/inventory.go` (`ipAsUint`, `applyLimit`, `PostStepReply` and its
  helpers, `GenerateClusterISO`, `setBootstrapHost`, `install`, `checkFileForDownload`,
  `updateClusterData`, `updateHostsData`, `UpdateCluster`, `SetDebugStep`, `GetNextSteps`,
  `refreshAllHosts`, `InstallCluster`)
* `internal/host/monitor.go` (`SkipMonitoring`, `HostMonitoring`)

together with the parts of Go's `net`, `strings` and `strconv` packages these
functions call.  A handler of the orchestrator is a function of the answers of its
collaborators (the database, the host and cluster state machines, the object store, the
clock), and returns its result together with the calls it made that write.  A Go
function that may panic returns a `GoResult`.  Go byte slices are lists of naturals
below 256, Go `int` is `Int`, a `nil` slice is the empty list, and a parser that returns
`nil` returns `none`.
Go strings are compared and scanned as lists of characters; the parsers only ever accept
ASCII, on which bytes and characters coincide.

The `net` functions follow the standard library the service was built with (the
parsers of `net/ip.go` before the `netip` rewrite; an IPv4 octet may carry leading zeros).
-/

set_option autoImplicit false

/-! ## Go's `net` package: addresses, masks and parsing -/

namespace GoNet

/-- Go `net.IP`: a byte slice of length 4 or 16 (`nil` is the empty list). -/
abbrev IP := List Nat

/-- Go `net.IPMask`. -/
abbrev IPMask := List Nat

/-- Go `net.IPNet`. -/
structure IPNet where
  IP : IP
  Mask : IPMask
  deriving DecidableEq, Repr

def IPv4len : Nat := 4

def IPv6len : Nat := 16

def v4InV6Prefix : List Nat := [0, 0, 0, 0, 0, 0, 0, 0, 0, 0, 0xff, 0xff]

/-- Go `net.IPv4`: the 16-byte form of the address `a.b.c.d`. -/
def IPv4 (a b c d : Nat) : IP := v4InV6Prefix ++ [a, b, c, d]

def IPv4zero : IP := IPv4 0 0 0 0

def IPv6unspecified : IP := List.replicate 16 0

/-- Bigger than we need, not too big to worry about overflow. -/
def big : Nat := 0xFFFFFF

/-- Loop of `dtoi`: `n` is the number read so far, `i` the characters consumed. -/
def dtoiLoop : List Char → Nat → Nat → Nat × Nat × Bool
  | [], n, i => if i = 0 then (0, 0, false) else (n, i, true)
  | c :: cs, n, i =>
    if '0' ≤ c ∧ c ≤ '9' then
      let n1 := n * 10 + (c.toNat - '0'.toNat)
      if n1 ≥ big then (big, i, false) else dtoiLoop cs n1 (i + 1)
    else if i = 0 then (0, 0, false) else (n, i, true)

/-- Decimal to integer: returns number, characters consumed, success. -/
def dtoi (s : List Char) : Nat × Nat × Bool := dtoiLoop s 0 0

/-- Loop of `xtoi`. -/
def xtoiLoop : List Char → Nat → Nat → Nat × Nat × Bool
  | [], n, i => if i = 0 then (0, i, false) else (n, i, true)
  | c :: cs, n, i =>
    if '0' ≤ c ∧ c ≤ '9' then
      let n1 := n * 16 + (c.toNat - '0'.toNat)
      if n1 ≥ big then (0, i, false) else xtoiLoop cs n1 (i + 1)
    else if 'a' ≤ c ∧ c ≤ 'f' then
      let n1 := n * 16 + (c.toNat - 'a'.toNat) + 10
      if n1 ≥ big then (0, i, false) else xtoiLoop cs n1 (i + 1)
    else if 'A' ≤ c ∧ c ≤ 'F' then
      let n1 := n * 16 + (c.toNat - 'A'.toNat) + 10
      if n1 ≥ big then (0, i, false) else xtoiLoop cs n1 (i + 1)
    else if i = 0 then (0, i, false) else (n, i, true)

/-- Hexadecimal to integer: returns number, characters consumed, success. -/
def xtoi (s : List Char) : Nat × Nat × Bool := xtoiLoop s 0 0

/-- The loop of `parseIPv4`: `k` octets are still to be read, `i` have been read into `p`. -/
def parseIPv4Loop : Nat → Nat → List Char → List Nat → Option (List Char × List Nat)
  | 0, _, s, p => some (s, p)
  | k + 1, i, s, p =>
    if s.length = 0 then none
    else if i > 0 ∧ s.head? ≠ some '.' then none
    else
      let s1 := if i > 0 then s.drop 1 else s
      match dtoi s1 with
      | (n, c, ok) =>
        if !ok || n > 0xFF then none
        else parseIPv4Loop k (i + 1) (s1.drop c) (p.set i n)

/-- Parse IPv4 address (d.d.d.d). -/
def parseIPv4 (s : List Char) : Option IP :=
  match parseIPv4Loop IPv4len 0 s [0, 0, 0, 0] with
  | none => none
  | some (rest, p) =>
    if rest.length ≠ 0 then none
    else some (IPv4 (p.getD 0 0) (p.getD 1 0) (p.getD 2 0) (p.getD 3 0))

/-- State of the main loop of `parseIPv6`. -/
structure V6State where
  s : List Char
  ip : List Nat
  i : Nat
  ellipsis : Int
  deriving Repr

/-- The loop `for i < IPv6len` of `parseIPv6`; `none` is the `return nil` exits.  Every
round adds at least 2 to `i`, so eight rounds of fuel are never exhausted. -/
def parseIPv6Loop : Nat → V6State → Option V6State
  | 0, st => some st
  | fuel + 1, st =>
    if ¬ st.i < IPv6len then some st
    else
      match xtoi st.s with
      | (n, c, ok) =>
        if !ok || n > 0xFFFF then none
        else if c < st.s.length ∧ st.s.get? c = some '.' then
          if st.ellipsis < 0 ∧ st.i ≠ IPv6len - IPv4len then none
          else if st.i + IPv4len > IPv6len then none
          else
            match parseIPv4 st.s with
            | none => none
            | some ip4 =>
              let ip := (((st.ip.set st.i (ip4.getD 12 0)).set (st.i + 1) (ip4.getD 13 0)).set
                (st.i + 2) (ip4.getD 14 0)).set (st.i + 3) (ip4.getD 15 0)
              some { s := [], ip := ip, i := st.i + IPv4len, ellipsis := st.ellipsis }
        else
          let ip := (st.ip.set st.i ((n >>> 8) % 256)).set (st.i + 1) (n % 256)
          let i := st.i + 2
          let s := st.s.drop c
          if s.length = 0 then some { s := s, ip := ip, i := i, ellipsis := st.ellipsis }
          else if s.head? ≠ some ':' ∨ s.length = 1 then none
          else
            let s := s.drop 1
            if s.head? = some ':' then
              if st.ellipsis ≥ 0 then none
              else
                let s := s.drop 1
                if s.length = 0 then some { s := s, ip := ip, i := i, ellipsis := (i : Int) }
                else parseIPv6Loop fuel { s := s, ip := ip, i := i, ellipsis := (i : Int) }
            else parseIPv6Loop fuel { s := s, ip := ip, i := i, ellipsis := st.ellipsis }

/-- The loop `for j := i - 1; j >= ellipsis; j-- { ip[j+n] = ip[j] }`, with `cnt` rounds left. -/
def shiftUp (n : Nat) : Nat → Nat → List Nat → List Nat
  | 0, _, ip => ip
  | cnt + 1, j, ip => shiftUp n cnt (j - 1) (ip.set (j + n) (ip.getD j 0))

/-- The loop `for j := ellipsis + n - 1; j >= ellipsis; j-- { ip[j] = 0 }`. -/
def zeroFill : Nat → Nat → List Nat → List Nat
  | 0, _, ip => ip
  | cnt + 1, j, ip => zeroFill cnt (j - 1) (ip.set j 0)

/-- The end of `parseIPv6`, after the main loop: the whole string must have been used,
and an ellipsis is expanded to the zero groups it stands for. -/
def parseIPv6Finish (st : V6State) : Option IP :=
  if st.s.length ≠ 0 then none
  else if st.i < IPv6len then
    if st.ellipsis < 0 then none
    else
      let e := st.ellipsis.toNat
      let n := IPv6len - st.i
      some (zeroFill n (e + n - 1) (shiftUp n (st.i - e) (st.i - 1) st.ip))
  else if st.ellipsis ≥ 0 then none
  else some st.ip

/-- Parse a literal IPv6 address (RFC 4291, RFC 5952), without zone. -/
def parseIPv6 (s : List Char) : Option IP :=
  let ip0 : List Nat := List.replicate IPv6len 0
  let lead : Bool := s.length ≥ 2 ∧ s.get? 0 = some ':' ∧ s.get? 1 = some ':'
  let s1 := if lead then s.drop 2 else s
  let ellipsis0 : Int := if lead then 0 else -1
  if lead ∧ s1.length = 0 then some ip0
  else
    match parseIPv6Loop 8 { s := s1, ip := ip0, i := 0, ellipsis := ellipsis0 } with
    | none => none
    | some st => parseIPv6Finish st

/-- Go `net.ParseIP`. -/
def ParseIP (s : String) : Option IP :=
  match s.toList.find? (fun c => c = '.' ∨ c = ':') with
  | some '.' => parseIPv4 s.toList
  | some _ => parseIPv6 s.toList
  | none => none

/-- The loop of `CIDRMask`: `l` bytes still to write, `n` ones still to place. -/
def cidrMaskLoop : Nat → Nat → List Nat
  | 0, _ => []
  | l + 1, n =>
    if n ≥ 8 then 0xff :: cidrMaskLoop l (n - 8)
    else (0xff - (0xff >>> n)) :: cidrMaskLoop l 0

/-- Go `net.CIDRMask`: `ones` 1 bits followed by 0s up to `bits` bits. -/
def CIDRMask (ones bits : Int) : IPMask :=
  if bits ≠ 8 * IPv4len ∧ bits ≠ 8 * IPv6len then []
  else if ones < 0 ∨ ones > bits then []
  else cidrMaskLoop (bits.toNat / 8) ones.toNat

def allFF (b : List Nat) : Bool := b.all (fun c => c = 0xff)

/-- Go `IP.Mask`: the result of masking `ip` with `mask`. -/
def Mask (ip : IP) (mask : IPMask) : IP :=
  let mask1 := if mask.length = IPv6len ∧ ip.length = IPv4len ∧ allFF (mask.take 12)
    then mask.drop 12 else mask
  let ip1 := if mask1.length = IPv4len ∧ ip.length = IPv6len ∧ ip.take 12 = v4InV6Prefix
    then ip.drop 12 else ip
  if ip1.length ≠ mask1.length then []
  else List.zipWith (fun a b => a &&& b) ip1 mask1

/-- Count the leading 1 bits of a byte that is not 0xff; returns the count and what is
left of the byte after shifting them out. -/
def leadingOnes : Nat → Nat → Nat → Nat × Nat
  | 0, v, n => (n, v)
  | fuel + 1, v, n => if v &&& 0x80 ≠ 0 then leadingOnes fuel ((v <<< 1) % 256) (n + 1) else (n, v)

/-- Go `simpleMaskLength`: the number of leading ones if the mask is ones followed by
zeros, otherwise -1. -/
def simpleMaskLength : IPMask → Int → Int
  | [], n => n
  | v :: rest, n =>
    if v = 0xff then simpleMaskLength rest (n + 8)
    else
      match leadingOnes 8 v 0 with
      | (k, v1) =>
        if v1 ≠ 0 then -1
        else if rest.any (fun b => b ≠ 0) then -1
        else n + k

/-- Go `IPMask.Size`: number of leading ones and total bits of the mask. -/
def Size (m : IPMask) : Int × Int :=
  let ones := simpleMaskLength m 0
  if ones = -1 then (0, 0) else (ones, (m.length : Int) * 8)

def isZeros (p : List Nat) : Bool := p.all (fun b => b = 0)

/-- Go `IP.To4`; `nil` is the empty list. -/
def To4 (ip : IP) : IP :=
  if ip.length = IPv4len then ip
  else if ip.length = IPv6len ∧ isZeros (ip.take 10) ∧ ip.getD 10 0 = 0xff ∧ ip.getD 11 0 = 0xff
  then (ip.drop 12).take 4
  else []

/-- Go `IP.Equal`: an IPv4 address and that same address in IPv6 form are equal. -/
def Equal (ip x : IP) : Bool :=
  if ip.length = x.length then ip = x
  else if ip.length = IPv4len ∧ x.length = IPv6len then
    x.take 12 = v4InV6Prefix ∧ ip = x.drop 12
  else if ip.length = IPv6len ∧ x.length = IPv4len then
    ip.take 12 = v4InV6Prefix ∧ ip.drop 12 = x
  else false

/-- Go `IP.IsUnspecified`: either 0.0.0.0 or ::. -/
def IsUnspecified (ip : IP) : Bool := Equal ip IPv4zero || Equal ip IPv6unspecified

/-- Go `networkNumberAndMask`. -/
def networkNumberAndMask (n : IPNet) : IP × IPMask :=
  let ip4 := To4 n.IP
  if ip4.length = 0 ∧ n.IP.length ≠ IPv6len then ([], [])
  else
    let ip := if ip4.length = 0 then n.IP else ip4
    if n.Mask.length = IPv4len then
      if ip.length ≠ IPv4len then ([], []) else (ip, n.Mask)
    else if n.Mask.length = IPv6len then
      if ip.length = IPv4len then (ip, n.Mask.drop 12) else (ip, n.Mask)
    else ([], [])

/-- Go `IPNet.Contains`: whether the network includes `ip`. -/
def Contains (n : IPNet) (ip : IP) : Bool :=
  match networkNumberAndMask n with
  | (nn, m) =>
    let x := To4 ip
    let ip1 := if x.length ≠ 0 then x else ip
    if ip1.length ≠ nn.length then false
    else (List.range ip1.length).all
      (fun i => nn.getD i 0 &&& m.getD i 0 = ip1.getD i 0 &&& m.getD i 0)

/-- Go `net.ParseCIDR`: the address and the network of a string such as "192.0.2.0/24"
or "2001:db8::/32"; `none` is a parse error. -/
def ParseCIDR (s : String) : Option (IP × IPNet) :=
  let cs := s.toList
  match cs.indexOf? '/' with
  | none => none
  | some i =>
    let addr := cs.take i
    let mask := cs.drop (i + 1)
    let v4 := parseIPv4 addr
    let iplen := if v4.isSome then IPv4len else IPv6len
    let ip := if v4.isSome then v4 else parseIPv6 addr
    match dtoi mask with
    | (n, j, ok) =>
      match ip with
      | none => none
      | some ip =>
        if !ok || j ≠ mask.length || n > 8 * iplen then none
        else
          let m := CIDRMask n (8 * iplen)
          some (ip, { IP := Mask ip m, Mask := m })

end GoNet

/-! ## `internal/network/cidr_validations.go` -/

namespace Network

open GoNet

/-- Go `error` results: `.ok ()` is `nil`, `.error msg` is a non-nil error. -/
abbrev Result := Except String Unit

instance exceptDecidableEq {ε α : Type} [DecidableEq ε] [DecidableEq α] :
    DecidableEq (Except ε α) := fun a b =>
  match a, b with
  | .ok x, .ok y =>
    if h : x = y then isTrue (by rw [h]) else isFalse (fun e => h (Except.ok.inj e))
  | .error x, .error y =>
    if h : x = y then isTrue (by rw [h]) else isFalse (fun e => h (Except.error.inj e))
  | .ok _, .error _ => isFalse (fun e => Except.noConfusion e)
  | .error _, .ok _ => isFalse (fun e => Except.noConfusion e)

/-- The Go test `err != nil`. -/
def failed (r : Result) : Bool :=
  match r with
  | .ok _ => false
  | .error _ => true

/-- Go `errors.Wrap(err, msg)`. -/
def wrap (msg : String) (r : Result) : Result :=
  match r with
  | .ok u => .ok u
  | .error e => .error (msg ++ ": " ++ e)

/-- Two's-complement wrap-around of a Go `int` (64 bits). -/
def wrapInt (x : Int) : Int := (x + 2 ^ 63) % 2 ^ 64 - 2 ^ 63

/-- Go `uint64(1) << k` for a non-negative shift count: bits shifted past position 63
are lost. -/
def shl1 (k : Int) : Nat := (1 <<< k.toNat) % 2 ^ 64

/-- Go `uint64(x)` of an `int`. -/
def toUint64 (x : Int) : Nat := (x % 2 ^ 64).toNat

/-- Returns an error if one of the CIDRs contains the network address of the other. -/
def verifyCIDRsNotOverlap (acidr bcidr : IPNet) : Result :=
  if Contains acidr bcidr.IP || Contains bcidr acidr.IP then
    .error "CIDRS overlap"
  else .ok ()

def VerifyCIDRsNotOverlap (aCidrStr bCidrStr : String) : Result :=
  if aCidrStr = "" ∨ bCidrStr = "" then .ok ()
  else
    match ParseCIDR aCidrStr with
    | none => .error ("invalid CIDR address: " ++ aCidrStr)
    | some (_, acidr) =>
      match ParseCIDR bCidrStr with
      | none => .error ("invalid CIDR address: " ++ bCidrStr)
      | some (_, bcidr) => verifyCIDRsNotOverlap acidr bcidr

/-- Checks if the given IP net is a valid CIDR. -/
def VerifySubnetCIDR (cidrStr : String) : Result :=
  match ParseCIDR cidrStr with
  | none => .error ("invalid CIDR address: " ++ cidrStr)
  | some (ip, cidr) =>
    match Size cidr.Mask with
    | (ones, bits) =>
      if ones < 1 ∨ ones > bits - 7 then
        .error "Address mask size must include at least 128 addresses"
      else if IsUnspecified cidr.IP then
        .error "address must not be unspecified"
      else if !Equal ip cidr.IP then
        .error "not a valid network CIDR"
      else .ok ()

def max (x y : Int) : Int := if x > y then x else y

def VerifyClusterCidrSize (hostNetworkPrefix : Int) (clusterNetworkCIDR : String)
    (numberOfHosts : Int) : Result :=
  match ParseCIDR clusterNetworkCIDR with
  | none => .error ("invalid CIDR address: " ++ clusterNetworkCIDR)
  | some (_, cidr) =>
    match Size cidr.Mask with
    | (clusterNetworkPrefix, bits) =>
      if hostNetworkPrefix > bits - 7 then
        .error "Host prefix must allow at least 128 addresses"
      else
        let requestedNumHosts := max 4 numberOfHosts
        let possibleNumHosts := shl1 (max (wrapInt (hostNetworkPrefix - clusterNetworkPrefix)) 0)
        if toUint64 requestedNumHosts > possibleNumHosts then
          .error "Cluster network CIDR prefix does not contain enough addresses"
        else .ok ()

def VerifyClusterCIDRsNotOverlap (machineNetworkCidr clusterNetworkCidr
    serviceNetworkCidr : String) : Result :=
  match VerifyCIDRsNotOverlap machineNetworkCidr serviceNetworkCidr with
  | .error e => wrap "MachineNetworkCIDR and ServiceNetworkCIDR" (.error e)
  | .ok _ =>
    match VerifyCIDRsNotOverlap machineNetworkCidr clusterNetworkCidr with
    | .error e => wrap "MachineNetworkCIDR and ClusterNetworkCidr" (.error e)
    | .ok _ =>
      match VerifyCIDRsNotOverlap serviceNetworkCidr clusterNetworkCidr with
      | .error e => wrap "ServiceNetworkCidr and ClusterNetworkCidr" (.error e)
      | .ok _ => .ok ()

end Network

/-! ## `internal/network/connectivity_groups.go` -/

namespace Network

open GoNet

/-- Go `strfmt.UUID`: a string, compared bytewise. -/
abbrev UUID := String

/-- One entry of `models.L2Connectivity` (the fields the engine reads). -/
structure L2Connectivity where
  OutgoingIPAddress : String
  Successful : Bool
  deriving DecidableEq, Repr

/-- Go `models.ConnectivityRemoteHost` (the fields the engine reads). -/
structure ConnectivityRemoteHost where
  HostID : UUID
  L2Connectivity : List L2Connectivity
  deriving DecidableEq, Repr

/-- Go `models.ConnectivityReport`. -/
structure ConnectivityReport where
  RemoteHosts : List ConnectivityRemoteHost
  deriving DecidableEq, Repr

/-- The text stored in `Host.Connectivity`, by what the engine can observe of it: the
empty string, a text `json.Unmarshal` rejects, or a text it decodes to a report. -/
inductive ConnectivityText where
  | empty
  | malformed
  | report (r : ConnectivityReport)
  deriving DecidableEq, Repr

/-- Go `models.Host` (the fields the engine reads). -/
structure Host where
  ID : UUID
  Connectivity : ConnectivityText
  deriving DecidableEq, Repr

structure connectivityKey where
  first : UUID
  second : UUID
  deriving DecidableEq, Repr

structure connectivityValue where
  first2second : Bool
  second2first : Bool
  deriving DecidableEq, Repr

/-- Map for indicating if there is mutual connectivity between 2 hosts: a Go map is the
lookup function of its keys, `none` for an absent key. -/
structure connectivityMap where
  get : connectivityKey → Option connectivityValue

def makeKey (from_ to_ : UUID) : connectivityKey :=
  if from_.toList < to_.toList then { first := from_, second := to_ }
  else { first := to_, second := from_ }

def connectivityMap.add (c : connectivityMap) (from_ to_ : UUID) (connected : Bool) :
    connectivityMap :=
  let key := makeKey from_ to_
  let value : connectivityValue :=
    match c.get key with
    | some v => v
    | none => { first2second := false, second2first := false }
  let value1 : connectivityValue :=
    if from_ = key.first then { value with first2second := connected }
    else { value with second2first := connected }
  { get := fun k => if k = key then some value1 else c.get k }

def connectivityMap.isConnected (c : connectivityMap) (from_ to_ : UUID) : Bool :=
  match c.get (makeKey from_ to_) with
  | some value => value.first2second && value.second2first
  | none => false

/-- Go `map[strfmt.UUID]bool` used as a set: the finite set of its keys. -/
abbrev connectivitySet := Finset UUID

def connectivitySet.add (c : connectivitySet) (item : UUID) : connectivitySet :=
  insert item c

def connectivitySet.intersect (c other : connectivitySet) : connectivitySet :=
  let first := if c.card < other.card then c else other
  let second := if c.card < other.card then other else c
  first.filter (fun k => k ∈ second)

def connectivitySet.containsElement (c : connectivitySet) (id : UUID) : Bool :=
  id ∈ c

def connectivitySet.equals (c other : connectivitySet) : Bool :=
  if c.card ≠ other.card then false
  else (c.intersect other).card = c.card

def connectivitySet.isSupersetOf (c other : connectivitySet) : Bool :=
  (c.intersect other).card = other.card

abbrev groupId := List UUID

/-- The scan of `isLess` over two ids of the same length: skip the common front, then
compare the first pair that differs. -/
def groupId.isLessFrom : groupId → groupId → Bool
  | a :: g, b :: other => if a = b then groupId.isLessFrom g other else a.toList < b.toList
  | _, _ => false

def groupId.isLess (g other : groupId) : Bool :=
  if g.length ≠ other.length then g.length < other.length
  else groupId.isLessFrom g other

/-- Go `a <= b` on strings: bytewise lexicographic order. -/
def idLe (a b : UUID) : Prop := a.toList ≤ b.toList

instance idLe.decidable : DecidableRel idLe :=
  fun a b => inferInstanceAs (Decidable (a.toList ≤ b.toList))

instance idLe.isTotal : IsTotal UUID idLe :=
  ⟨fun a b => by
    simpa only [idLe, ← String.le_iff_toList_le] using le_total a b⟩

instance idLe.isTrans : IsTrans UUID idLe :=
  ⟨fun a b c => by
    simpa only [idLe, ← String.le_iff_toList_le] using le_trans⟩

instance idLe.isAntisymm : IsAntisymm UUID idLe :=
  ⟨fun a b => by
    simpa only [idLe, ← String.le_iff_toList_le] using le_antisymm⟩

/-- The members in ascending order: the keys of the map, sorted by `ret[i] < ret[j]`
(the keys of a map are distinct, so the sorted slice does not depend on the order in
which `range` delivered them). -/
def connectivitySet.id (c : connectivitySet) : groupId :=
  Quot.liftOn c.val (fun l => l.insertionSort idLe) (fun _ _ h =>
    List.eq_of_perm_of_sorted
      (((List.perm_insertionSort _ _).trans h).trans (List.perm_insertionSort _ _).symm)
      (List.sorted_insertionSort _ _) (List.sorted_insertionSort _ _))

/-- Go leaves the order in which `range` visits the keys of a map unspecified.  A
`RangeOrder` is one way the runtime may enumerate each set: every key once. -/
structure RangeOrder where
  keys : connectivitySet → List UUID
  nodup : ∀ s, (keys s).Nodup
  mem : ∀ s x, x ∈ keys s ↔ x ∈ s

/-- The keys in the order the `range` loop visits them. -/
def connectivitySet.toList (order : RangeOrder) (c : connectivitySet) : List UUID :=
  order.keys c

structure connectivityGroup where
  set : connectivitySet
  count : Nat

/-- Unique list of connectivity group elements.  The uniqueness is by the set elements. -/
abbrev connectivityGroupList := List connectivityGroup

def connectivityGroupList.containsSet (c : connectivityGroupList) (cs : connectivitySet) :
    Bool :=
  c.any (fun group => group.set.equals cs)

def connectivityGroupList.addSet (c : connectivityGroupList) (cs : connectivitySet) :
    connectivityGroupList :=
  if !c.containsSet cs then c ++ [{ set := cs, count := 0 }] else c

structure groupCandidate where
  set : connectivitySet
  me : UUID

/-- Body of the first loop of `createConnectivityGroups` for one candidate: its set and
its intersections of size at least 3 with the groups gathered so far are added. -/
def gatherCandidate (groupList : connectivityGroupList) (candidate : groupCandidate) :
    connectivityGroupList :=
  let pendingSets : List connectivitySet :=
    candidate.set :: groupList.filterMap (fun group =>
      let set := candidate.set.intersect group.set
      if set.card ≥ 3 then some set else none)
  pendingSets.foldl connectivityGroupList.addSet groupList

/-- Body of the second loop of `createConnectivityGroups` for one candidate. -/
def countCandidate (groupList : connectivityGroupList) (candidate : groupCandidate) :
    connectivityGroupList :=
  groupList.map (fun cs =>
    if candidate.set.isSupersetOf cs.set && cs.set.containsElement candidate.me then
      { cs with count := cs.count + 1 }
    else cs)

/-- The comparison handed to `sort.Slice`: larger sets first, sets of one size by id. -/
def groupLess (a b : connectivitySet) : Bool :=
  if a.card ≠ b.card then a.card > b.card
  else a.id.isLess b.id

/-- Go `sort.Slice` with `groupLess`.  The sets sorted are pairwise different, on which
`groupLess` is a strict total order, so the sorted slice is the one insertion sort builds. -/
def sortGroups (ret : List connectivitySet) : List connectivitySet :=
  ret.insertionSort (fun a b => groupLess a b = true)

/-- Create sorted list of connectivity sets.  The sort is by set size (descending). -/
def createConnectivityGroups (groupCandidates : List groupCandidate) : List connectivitySet :=
  let gathered := groupCandidates.foldl gatherCandidate []
  let counted := groupCandidates.foldl countCandidate gathered
  let ret := counted.filterMap (fun r => if r.set.card = r.count then some r.set else none)
  sortGroups ret

/-- Create group candidate for a specific host.  The group candidate contains a set with
all the hosts it has connectivity to. -/
def createHostGroupCandidate (host : Host) (hosts : List Host) (cMap : connectivityMap) :
    groupCandidate :=
  let set := hosts.foldl (fun (set : connectivitySet) h =>
    if cMap.isConnected host.ID h.ID then set.add h.ID else set)
    ((∅ : connectivitySet).add host.ID)
  { set := set, me := host.ID }

/-- The loop over the L2 entries of one remote host: the first successful entry whose
outgoing address lies in the CIDR records the edge and ends the loop. -/
def addFirstSuccessful (parsedCidr : IPNet) (from_ to_ : UUID) :
    List L2Connectivity → connectivityMap → connectivityMap
  | [], ret => ret
  | l2 :: rest, ret =>
    match ParseIP l2.OutgoingIPAddress with
    | some ip =>
      if Contains parsedCidr ip && l2.Successful then ret.add from_ to_ true
      else addFirstSuccessful parsedCidr from_ to_ rest ret
    | none => addFirstSuccessful parsedCidr from_ to_ rest ret

/-- The loop over the hosts of `createMachineCidrConnectivityMap`. -/
def addHostReports (parsedCidr : IPNet) : List Host → connectivityMap →
    Except String connectivityMap
  | [], ret => .ok ret
  | h :: rest, ret =>
    match h.Connectivity with
    | .empty => addHostReports parsedCidr rest ret
    | .malformed => .error "invalid connectivity report"
    | .report connectivityReport =>
      addHostReports parsedCidr rest
        (connectivityReport.RemoteHosts.foldl
          (fun m r => addFirstSuccessful parsedCidr h.ID r.HostID r.L2Connectivity m) ret)

/-- Create connectivity map from host list.  It is the information if a host has
connectivity to other host on specific CIDR (network). -/
def createMachineCidrConnectivityMap (cidr : String) (hosts : List Host) :
    Except String connectivityMap :=
  match ParseCIDR cidr with
  | none => .error ("invalid CIDR address: " ++ cidr)
  | some (_, parsedCidr) => addHostReports parsedCidr hosts { get := fun _ => none }

/-- Create majority for a cidr.  A majority group is the largest group of hosts in a
cluster that all of them have full mesh to the other group members. -/
def CreateMajorityGroup (order : RangeOrder) (cidr : String) (hosts : List Host) :
    Except String (List UUID) :=
  match createMachineCidrConnectivityMap cidr hosts with
  | .error err => .error err
  | .ok cMap =>
    let candidates := hosts.filterMap (fun h =>
      let candidate := createHostGroupCandidate h hosts cMap
      if candidate.set.card ≥ 3 then some (createHostGroupCandidate h hosts cMap) else none)
    let groups := createConnectivityGroups candidates
    match groups with
    | g :: _ => .ok (g.toList order)
    | [] => .ok []

/-! ### Notions used to state the properties of the engine -/

/-- Whether the map records the direction `from_ → to_`: the bit of the pair's entry
that `add from_ to_` writes. -/
def connectivityMap.directed (c : connectivityMap) (from_ to_ : UUID) : Bool :=
  match c.get (makeKey from_ to_) with
  | some value =>
    if from_ = (makeKey from_ to_).first then value.first2second else value.second2first
  | none => false

/-- An L2 entry that counts on the network: its outgoing address parses, lies inside the
network, and the entry is marked successful. -/
def l2OnCidr (parsedCidr : IPNet) (l2 : L2Connectivity) : Bool :=
  match ParseIP l2.OutgoingIPAddress with
  | some ip => Contains parsedCidr ip && l2.Successful
  | none => false

/-- Directed adjacency of the specification: the report of host `h` has, toward the id
`v`, a successful L2 entry whose outgoing address lies inside the network. -/
def reportsEdge (parsedCidr : IPNet) (h : Host) (v : UUID) : Bool :=
  match h.Connectivity with
  | .report r =>
    r.RemoteHosts.any (fun rh => rh.HostID = v && rh.L2Connectivity.any (l2OnCidr parsedCidr))
  | _ => false

/-- Some host of the list with id `u` reports an edge toward `v`. -/
def edge (parsedCidr : IPNet) (hosts : List Host) (u v : UUID) : Bool :=
  hosts.any (fun h => h.ID = u && reportsEdge parsedCidr h v)

/-- Mutual adjacency of the specification: both `u → v` and `v → u` exist. -/
def mutualEdge (parsedCidr : IPNet) (hosts : List Host) (u v : UUID) : Bool :=
  edge parsedCidr hosts u v && edge parsedCidr hosts v u

/-- The candidates `CreateMajorityGroup` hands to `createConnectivityGroups`: those of
the hosts whose set has at least 3 members, in the order of the hosts. -/
def majorityCandidates (hosts : List Host) (cMap : connectivityMap) : List groupCandidate :=
  hosts.filterMap (fun h =>
    let candidate := createHostGroupCandidate h hosts cMap
    if candidate.set.card ≥ 3 then some (createHostGroupCandidate h hosts cMap) else none)

/-- A host whose connectivity is empty: no text at all, or a report that names no
remote host. -/
def emptyConnectivity (h : Host) : Bool :=
  match h.Connectivity with
  | .empty => true
  | .malformed => false
  | .report r => r.RemoteHosts.isEmpty

/-- Every connectivity text of the list is empty or decodes. -/
def reportsParse (hosts : List Host) : Bool :=
  hosts.all (fun h => h.Connectivity ≠ .malformed)

/-- The range order that delivers the keys in ascending order. -/
def ascendingOrder : RangeOrder where
  keys s := s.id
  nodup := fun s => by
    cases s with
    | mk m hm =>
      induction m using Quotient.inductionOn with
      | _ l => exact (List.perm_insertionSort idLe l).nodup_iff.mpr hm
  mem := fun s x => by
    cases s with
    | mk m hm =>
      induction m using Quotient.inductionOn with
      | _ l => exact (List.perm_insertionSort idLe l).mem_iff

/-- A range order that starts at the second smallest key and wraps around: an order in
which a `range` over a small map may deliver the keys. -/
def rotatedOrder : RangeOrder where
  keys s := s.id.rotate 1
  nodup := fun s => List.nodup_rotate.mpr (ascendingOrder.nodup s)
  mem := fun s x => List.mem_rotate.trans (ascendingOrder.mem s x)

/-! ### Sample clusters -/

/-- A successful L2 entry sent from the address `ip`. -/
def l2From (ip : String) : L2Connectivity :=
  { OutgoingIPAddress := ip, Successful := true }

/-- A host `id` whose report has one successful L2 entry, sent from `ip`, toward each of
`peers`. -/
def reportingHost (id : UUID) (ip : String) (peers : List UUID) : Host :=
  { ID := id,
    Connectivity := .report
      { RemoteHosts := peers.map (fun p => { HostID := p, L2Connectivity := [l2From ip] }) } }

/-- Five hosts: h1, h2 and h3 reach each other on 192.168.1.0/24 (h3 also lists an
address of another network first); h4 has no connectivity text; h5 reports a failed
attempt toward h1. -/
def fiveHosts : List Host :=
  [ reportingHost "h1" "192.168.1.10" ["h2", "h3"],
    reportingHost "h2" "192.168.1.11" ["h1", "h3"],
    { ID := "h3",
      Connectivity := .report { RemoteHosts := [
        { HostID := "h1", L2Connectivity := [l2From "10.0.0.3", l2From "192.168.1.12"] },
        { HostID := "h2", L2Connectivity := [l2From "192.168.1.12"] }] } },
    { ID := "h4", Connectivity := .empty },
    { ID := "h5",
      Connectivity := .report { RemoteHosts := [
        { HostID := "h1",
          L2Connectivity := [{ OutgoingIPAddress := "192.168.1.14", Successful := false }] }] } } ]

/-- Hosts h1, h2 and h3 reach each other on 192.168.1.0/24; the connectivity text of h6
is not valid JSON. -/
def hostsWithMalformedReport : List Host :=
  [ reportingHost "h1" "192.168.1.10" ["h2", "h3"],
    reportingHost "h2" "192.168.1.11" ["h1", "h3"],
    reportingHost "h3" "192.168.1.12" ["h1", "h2"],
    { ID := "h6", Connectivity := .malformed } ]

/-- A host list in which the id h1 occurs three times, twice with no connectivity text;
h2 and h3 each reach h1 and are reached by it, but do not reach each other. -/
def hostsWithRepeatedId : List Host :=
  [ { ID := "h1", Connectivity := .empty },
    { ID := "h1", Connectivity := .empty },
    reportingHost "h1" "192.168.1.10" ["h2", "h3"],
    reportingHost "h2" "192.168.1.11" ["h1"],
    reportingHost "h3" "192.168.1.12" ["h1"] ]

/-- The network 192.168.1.0/24 as `ParseCIDR` returns it. -/
def sampleNet : IPNet := { IP := [192, 168, 1, 0], Mask := [255, 255, 255, 0] }

end Network

/-! ## `internal/bminventory/inventory.go`: `ipAsUint` -/

namespace Bminventory

/-- Go `strings.Split(s, ".")`: the pieces between the dots; one piece more than dots. -/
def splitDots : List Char → List (List Char)
  | [] => [[]]
  | c :: cs =>
    if c = '.' then [] :: splitDots cs
    else
      match splitDots cs with
      | [] => [[c]]
      | p :: ps => (c :: p) :: ps

/-- Loop of `strconv.ParseUint(s, 10, 64)` over the bytes; `none` is an error (a byte
that is not a decimal digit, or a value that does not fit in 64 bits). -/
def parseUintLoop : List Char → Nat → Option Nat
  | [], n => some n
  | c :: cs, n =>
    if '0' ≤ c ∧ c ≤ '9' then
      if n ≥ (2 ^ 64 - 1) / 10 + 1 then none
      else
        let n1 := n * 10 + (c.toNat - '0'.toNat)
        if n1 > 2 ^ 64 - 1 then none else parseUintLoop cs n1
    else none

/-- Go `strconv.ParseUint(s, 10, 64)`. -/
def ParseUint (s : List Char) : Option Nat :=
  if s.length = 0 then none else parseUintLoop s 0

/-- The loop over the parts in `ipAsUint`; a part that does not convert returns 0. -/
def ipAsUintLoop : List (List Char) → Nat → Nat
  | [], result => result
  | p :: parts, result =>
    let result1 := (result <<< 8) % 2 ^ 64
    match ParseUint p with
    | none => 0
    | some converted => ipAsUintLoop parts ((result1 + converted) % 2 ^ 64)

def ipAsUint (ipStr : String) : Nat :=
  let parts := splitDots ipStr.toList
  if parts.length ≠ 4 then 0
  else ipAsUintLoop parts 0

/-- The number a string of decimal digits denotes. -/
def digitsValue (p : List Char) : Nat :=
  p.foldl (fun n c => n * 10 + (c.toNat - '0'.toNat)) 0

/-- A decimal octet: a non-empty string of decimal digits that denotes a number in
0..255 (leading zeros allowed). -/
def isOctetText (p : List Char) : Bool :=
  p.length ≠ 0 && p.all (fun c => '0' ≤ c ∧ c ≤ '9') && digitsValue p ≤ 255

/-- Four pieces of text joined by dots. -/
def joinDots (p1 p2 p3 p4 : List Char) : String :=
  String.mk (p1 ++ ('.' :: (p2 ++ ('.' :: (p3 ++ ('.' :: p4))))))

/-- The dotted-quad text of the IPv4 address with octets `a`, `b`, `c`, `d`, as Go's
`net.IP.String` prints it: every octet in decimal without leading zeros. -/
def dottedQuad (a b c d : Nat) : String :=
  joinDots (Nat.toDigits 10 a) (Nat.toDigits 10 b) (Nat.toDigits 10 c) (Nat.toDigits 10 d)

end Bminventory

/-! ## `internal/bminventory/inventory.go`: the orchestrator

The handlers talk to collaborators that are not part of this file: the database, the
host and cluster state machines, the object store, `encoding/json`.  A handler is
embedded as a function of what those collaborators answer (an environment of answers)
that returns its own result together with the list of the mutating calls it made, in
order. -/

namespace Bminventory

/-- Go `strfmt.UUID`. -/
abbrev UUID := String

/-- Go `error`: `none` is `nil`, `some msg` an error. -/
abbrev GoError := Option String

/-- Go `net/http` status codes used by the handlers. -/
def StatusCreated : Nat := 201

def StatusNoContent : Nat := 204

def StatusBadRequest : Nat := 400

def StatusNotFound : Nat := 404

def StatusConflict : Nat := 409

def StatusInternalServerError : Nat := 500

/-- An error as the handlers return it: a `common.ApiErrorResponse` built by
`common.NewApiError(status, err)`, or any other Go error. -/
inductive HandlerError where
  | api (status : Nat) (msg : String)
  | plain (msg : String)
  deriving DecidableEq, Repr

/-- Go `common.GenerateErrorResponder`: the status of an API error, 500 for any other
error. -/
def HandlerError.status : HandlerError → Nat
  | .api status _ => status
  | .plain _ => StatusInternalServerError

/-- Go `models.Host` (the fields the orchestrator reads). -/
structure Host where
  ID : UUID
  ClusterID : UUID
  Role : String
  Bootstrap : Bool
  Status : String
  deriving DecidableEq, Repr

/-- Go `models.ImageInfo`; times are in nanoseconds since the epoch. -/
structure ImageInfo where
  CreatedAt : Int
  ExpiresAt : Int
  SSHPublicKey : String
  GeneratorVersion : String
  DownloadURL : String
  SizeBytes : Option Int
  deriving DecidableEq, Repr

/-- Go `common.Cluster` (the fields the orchestrator reads). -/
structure Cluster where
  ID : UUID
  Name : String
  Hosts : List Host
  VipDhcpAllocation : Option Bool
  MachineNetworkCidr : String
  APIVip : String
  IngressVip : String
  PullSecret : String
  PullSecretSet : Bool
  ImageInfo : ImageInfo
  deriving DecidableEq, Repr

/-- A value stored under a column name in the `updates` map handed to the database. -/
inductive Value where
  | str (s : String)
  | bool (b : Bool)
  | int (n : Int)
  deriving DecidableEq, Repr

/-- Go `map[string]interface{}` of column updates: the entries, each key once. -/
abbrev Updates := List (String × Value)

/-- Go `updates[key] = value`. -/
def Updates.set (updates : Updates) (key : String) (value : Value) : Updates :=
  updates.filter (fun kv => kv.1 ≠ key) ++ [(key, value)]

/-- A mutating call on a collaborator, as it appears in the list of calls of a handler. -/
inductive Call where
  | HandleInstallationFailure (hostID : UUID)
  | UpdateInventory (hostID : UUID) (inventory : String)
  | UpdateConnectivityReport (hostID : UUID) (report : String)
  | UpdateFreeAddresses (hostID : UUID) (report : String)
  | SetVips (clusterID : UUID) (apiVip ingressVip : String)
  | SetBootstrap (hostID : UUID) (isbootstrap : Bool)
  | UpdateCluster (clusterID : UUID) (updates : Updates)
  | CreateDNSRecordSets (clusterID : UUID)
  | InstallCluster (clusterID : UUID)
  | InstallHost (hostID : UUID)
  deriving DecidableEq, Repr

/-! ### `applyLimit` -/

/-- Go `applyLimit`: `limitParam` is the `*int64` of the request, `none` for `nil`. -/
def applyLimit {α : Type} (ret : List α) (limitParam : Option Int) : List α :=
  match limitParam with
  | some limit => if limit ≥ 0 ∧ limit < (ret.length : Int) then ret.take limit.toNat else ret
  | none => ret

/-! ### Step replies -/

/-- Go `models.StepType`: a string. -/
abbrev StepType := String

/-- Modelled from the spec: the values of `models.StepType`, declared outside src/; the
spec names the step types inventory, connectivity-check, free-network-addresses,
dhcp-lease-allocate and install. -/
def StepTypeInventory : StepType := "inventory"

/-- Modelled from the spec: see `StepTypeInventory`. -/
def StepTypeConnectivityCheck : StepType := "connectivity-check"

/-- Modelled from the spec: see `StepTypeInventory`. -/
def StepTypeFreeNetworkAddresses : StepType := "free-network-addresses"

/-- Modelled from the spec: see `StepTypeInventory`. -/
def StepTypeDhcpLeaseAllocate : StepType := "dhcp-lease-allocate"

/-- Modelled from the spec: see `StepTypeInventory`. -/
def StepTypeInstall : StepType := "install"

/-- Go `models.StepReply`. -/
structure StepReply where
  StepID : String
  StepType : StepType
  ExitCode : Int
  Output : String
  Error : String
  deriving DecidableEq, Repr

/-- Go `installer.PostStepReplyParams`. -/
structure PostStepReplyParams where
  ClusterID : UUID
  HostID : UUID
  Reply : StepReply
  deriving DecidableEq, Repr

/-- The swagger model a reply is decoded into: the `expected` argument of `filterReply`. -/
inductive ReplyModel where
  | Inventory
  | ConnectivityReport
  | FreeNetworksAddresses
  | DhcpAllocationResponse
  deriving DecidableEq, Repr

/-- What the collaborators answer while a step reply is handled.  `V` is the type of
the decoded swagger models. -/
structure StepEnv (V : Type) where
  /-- `b.db.First(&host, "id = ? and cluster_id = ?", hostID, clusterID)`. -/
  findHost : UUID → UUID → Except String Host
  /-- `json.Unmarshal([]byte(input), expected)`. -/
  Unmarshal : ReplyModel → String → Except String V
  /-- `json.Marshal(expected)`. -/
  Marshal : V → Except String String
  HandleInstallationFailure : Host → GoError
  UpdateInventory : Host → String → GoError
  UpdateConnectivityReport : Host → String → GoError
  /-- `json.Unmarshal` of a free-addresses report: the number of networks decoded. -/
  decodeFreeAddresses : String → Except String Nat
  /-- The database update of the column `free_addresses`. -/
  updateFreeAddresses : Host → String → GoError
  /-- `b.db.Take(&cluster, "id = ?", host.ClusterID)`. -/
  takeCluster : UUID → Except String Cluster
  /-- `json.Unmarshal` of a DHCP allocation response: the API VIP and the Ingress VIP. -/
  decodeDhcpAllocation : String → Except String (String × String)
  SetVips : Cluster → String → String → GoError

/-- Go `swag.BoolValue`: the value of a `*bool`, false for `nil`. -/
def BoolValue (b : Option Bool) : Bool :=
  match b with
  | some v => v
  | none => false

/-- Go `swag.StringValue`: the value of a `*string`, empty for `nil`. -/
def StringValue (s : Option String) : String :=
  match s with
  | some v => v
  | none => ""

/-- Modelled from the spec: `network.IpInCidr`, which is not under src/.  The spec:
"returns true iff `ip` is parseable and `cidr.Contains(ip)`"; a CIDR or an address that
does not parse is reported as an error. -/
def IpInCidr (ipAddr cidr : String) : Except String Bool :=
  match GoNet.ParseCIDR cidr with
  | none => .error ("invalid CIDR address: " ++ cidr)
  | some (_, ipnet) =>
    match GoNet.ParseIP ipAddr with
    | none => .error ("IP is not valid: " ++ ipAddr)
    | some ip => .ok (GoNet.Contains ipnet ip)

/-- Return only the expected parameters from the input: the result string and the
error. -/
def filterReply {V : Type} (env : StepEnv V) (expected : ReplyModel) (input : String) :
    String × GoError :=
  match env.Unmarshal expected input with
  | .error err => ("", some err)
  | .ok v =>
    match env.Marshal v with
    | .error err => ("", some err)
    | .ok reply => (reply, none)

def filterReplyByType {V : Type} (env : StepEnv V) (params : PostStepReplyParams) :
    String × GoError :=
  if params.Reply.StepType = StepTypeInventory then
    filterReply env .Inventory params.Reply.Output
  else if params.Reply.StepType = StepTypeConnectivityCheck then
    filterReply env .ConnectivityReport params.Reply.Output
  else if params.Reply.StepType = StepTypeFreeNetworkAddresses then
    filterReply env .FreeNetworksAddresses params.Reply.Output
  else if params.Reply.StepType = StepTypeDhcpLeaseAllocate then
    filterReply env .DhcpAllocationResponse params.Reply.Output
  else ("", none)

def handleReplyError {V : Type} (env : StepEnv V) (params : PostStepReplyParams) (h : Host) :
    List Call × GoError :=
  if params.Reply.StepType = StepTypeInstall then
    ([Call.HandleInstallationFailure h.ID], env.HandleInstallationFailure h)
  else ([], none)

def updateFreeAddressesReport {V : Type} (env : StepEnv V) (host : Host)
    (freeAddressesReport : String) : List Call × GoError :=
  match env.decodeFreeAddresses freeAddressesReport with
  | .error err => ([], some err)
  | .ok len =>
    if len = 0 then ([], some "Free addresses for host is empty")
    else
      ([Call.UpdateFreeAddresses host.ID freeAddressesReport],
        env.updateFreeAddresses host freeAddressesReport)

def processDhcpAllocationResponse {V : Type} (env : StepEnv V) (host : Host)
    (dhcpAllocationResponseStr : String) : List Call × GoError :=
  match env.takeCluster host.ClusterID with
  | .error err => ([], some err)
  | .ok cluster =>
    if !BoolValue cluster.VipDhcpAllocation then ([], none)
    else
      match env.decodeDhcpAllocation dhcpAllocationResponseStr with
      | .error err => ([], some err)
      | .ok (apiVip, ingressVip) =>
        match IpInCidr apiVip cluster.MachineNetworkCidr with
        | .error err => ([], some err)
        | .ok isApiVipInMachineCIDR =>
          match IpInCidr ingressVip cluster.MachineNetworkCidr with
          | .error err => ([], some err)
          | .ok isIngressVipInMachineCIDR =>
            if !(isApiVipInMachineCIDR && isIngressVipInMachineCIDR) then
              ([], some "At least of the IPs is not in machine CIDR")
            else
              ([Call.SetVips cluster.ID apiVip ingressVip],
                env.SetVips cluster apiVip ingressVip)

def handleReplyByType {V : Type} (env : StepEnv V) (params : PostStepReplyParams)
    (host : Host) (stepReply : String) : List Call × GoError :=
  if params.Reply.StepType = StepTypeInventory then
    ([Call.UpdateInventory host.ID stepReply], env.UpdateInventory host stepReply)
  else if params.Reply.StepType = StepTypeConnectivityCheck then
    ([Call.UpdateConnectivityReport host.ID stepReply],
      env.UpdateConnectivityReport host stepReply)
  else if params.Reply.StepType = StepTypeFreeNetworkAddresses then
    updateFreeAddressesReport env host stepReply
  else if params.Reply.StepType = StepTypeDhcpLeaseAllocate then
    processDhcpAllocationResponse env host stepReply
  else ([], none)

/-- Go `PostStepReply`: the mutating calls made and the HTTP status of the responder. -/
def PostStepReply {V : Type} (env : StepEnv V) (params : PostStepReplyParams) :
    List Call × Nat :=
  match env.findHost params.HostID params.ClusterID with
  | .error _ => ([], StatusNotFound)
  | .ok host =>
    if params.Reply.ExitCode ≠ 0 then
      ((handleReplyError env params host).1, StatusBadRequest)
    else
      match filterReplyByType env params with
      | (_, some _) => ([], StatusBadRequest)
      | (stepReply, none) =>
        match handleReplyByType env params host stepReply with
        | (calls, some _) => (calls, StatusInternalServerError)
        | (calls, none) => (calls, StatusNoContent)

/-! ### `GenerateClusterISO` -/

/-- Go `time.Second`, in nanoseconds. -/
def Second : Int := 1000000000

/-- The fields of `Config` the image handler reads; the expiration time is a duration in
nanoseconds. -/
structure Config where
  ImageBuilder : String
  ImageExpirationTime : Int
  deriving DecidableEq, Repr

/-- Go `installer.GenerateClusterISOParams`. -/
structure GenerateClusterISOParams where
  ClusterID : UUID
  SSHPublicKey : String
  deriving DecidableEq, Repr

/-- What the collaborators answer while an image is requested. -/
structure IsoEnv where
  /-- `tx.Error != nil` after `b.db.Begin()`. -/
  txError : Bool
  /-- `tx.First(&cluster, "id = ?", params.ClusterID)`. -/
  findCluster : UUID → Except String Cluster
  /-- `time.Now()`. -/
  now : Int
  UpdateObjectTag : String → Bool × GoError
  /-- The error of `tx.Model(..).Updates(updates)`. -/
  updatesError : GoError
  /-- The error of `tx.Commit()`. -/
  commitError : GoError
  /-- The error of reloading the cluster after the commit. -/
  reloadError : GoError
  GetObjectSizeBytes : String → Except String Int
  IsAwsS3 : Bool
  GeneratePresignedDownloadURL : String → Except String String
  /-- The error of the database update in `updateImageInfoPostUpload`. -/
  postUploadUpdateError : GoError
  formatIgnitionFile : Cluster → Except String String
  GenerateISO : Cluster → GoError

/-- What `GenerateClusterISO` leaves behind: the HTTP status of its responder, whether
its transaction was committed, and the image metadata stored for the cluster when it
returns (`none` when the cluster row was never read). -/
structure IsoResult where
  status : Nat
  committed : Bool
  stored : Option ImageInfo
  deriving DecidableEq, Repr

def getImageName (clusterID : UUID) : String := "discovery-image-" ++ clusterID

/-- Go `updateImageInfoPostUpload`: the error, and the image metadata stored afterwards. -/
def updateImageInfoPostUpload (env : IsoEnv) (cluster : Cluster) : GoError × ImageInfo :=
  let imgName := getImageName cluster.ID
  match env.GetObjectSizeBytes imgName with
  | .error _ => (some "Failed to generate image: error fetching size", cluster.ImageInfo)
  | .ok imgSize =>
    let withSize : ImageInfo := { cluster.ImageInfo with SizeBytes := some imgSize }
    if env.IsAwsS3 then
      match env.GeneratePresignedDownloadURL imgName with
      | .error _ => (some "Failed to generate image: error generating URL", cluster.ImageInfo)
      | .ok signedURL =>
        match env.postUploadUpdateError with
        | some _ => (some "Failed to generate image: error updating image record",
            cluster.ImageInfo)
        | none => (none, { withSize with DownloadURL := signedURL })
    else
      match env.postUploadUpdateError with
      | some _ => (some "Failed to generate image: error updating image record",
          cluster.ImageInfo)
      | none => (none, withSize)

def GenerateClusterISO (cfg : Config) (env : IsoEnv) (params : GenerateClusterISOParams) :
    IsoResult :=
  if env.txError then
    { status := StatusInternalServerError, committed := false, stored := none }
  else
    match env.findCluster params.ClusterID with
    | .error _ => { status := StatusNotFound, committed := false, stored := none }
    | .ok cluster =>
      let now := env.now
      let previousCreatedAt := cluster.ImageInfo.CreatedAt
      if previousCreatedAt + 10 * Second > now then
        { status := StatusConflict, committed := false, stored := some cluster.ImageInfo }
      else if !cluster.PullSecretSet then
        { status := StatusBadRequest, committed := false, stored := some cluster.ImageInfo }
      else
        let tagged : Bool × GoError :=
          if cluster.ImageInfo.SSHPublicKey = params.SSHPublicKey ∧
              cluster.ImageInfo.GeneratorVersion = cfg.ImageBuilder then
            env.UpdateObjectTag (getImageName params.ClusterID)
          else (false, none)
        match tagged with
        | (_, some _) =>
          { status := StatusInternalServerError, committed := false,
            stored := some cluster.ImageInfo }
        | (imageExists, none) =>
          let updated : ImageInfo :=
            { cluster.ImageInfo with
              SSHPublicKey := params.SSHPublicKey
              CreatedAt := now
              ExpiresAt := now + cfg.ImageExpirationTime
              GeneratorVersion := cfg.ImageBuilder
              DownloadURL := "" }
          match env.updatesError with
          | some _ =>
            { status := StatusInternalServerError, committed := false,
              stored := some cluster.ImageInfo }
          | none =>
            match env.commitError with
            | some _ =>
              { status := StatusInternalServerError, committed := false,
                stored := some cluster.ImageInfo }
            | none =>
              match env.reloadError with
              | some _ =>
                { status := StatusInternalServerError, committed := true,
                  stored := some updated }
              | none =>
                let reloaded : Cluster := { cluster with ImageInfo := updated }
                if imageExists then
                  match updateImageInfoPostUpload env reloaded with
                  | (some _, image) =>
                    { status := StatusInternalServerError, committed := true,
                      stored := some image }
                  | (none, image) =>
                    { status := StatusCreated, committed := true, stored := some image }
                else
                  match env.formatIgnitionFile reloaded with
                  | .error _ =>
                    { status := StatusInternalServerError, committed := true,
                      stored := some updated }
                  | .ok _ =>
                    match env.GenerateISO reloaded with
                    | some _ =>
                      { status := StatusInternalServerError, committed := true,
                        stored := some updated }
                    | none =>
                      match updateImageInfoPostUpload env reloaded with
                      | (some _, image) =>
                        { status := StatusInternalServerError, committed := true,
                          stored := some image }
                      | (none, image) =>
                        { status := StatusCreated, committed := true, stored := some image }

/-! ### `setBootstrapHost` and `clusterInstaller.install` -/

/-- What the collaborators answer while a cluster is installed. -/
structure InstallEnv where
  /-- `tx.Preload("Hosts").First(&cluster, "id = ?", c.params.ClusterID)`. -/
  findCluster : UUID → Except String Cluster
  createDNSRecordSets : Cluster → GoError
  /-- `clusterApi.Install`. -/
  InstallCluster : Cluster → GoError
  GetMasterNodesIds : Cluster → Except String (List UUID)
  SetBootstrap : Host → Bool → GoError
  /-- `hostApi.Install`. -/
  InstallHost : Host → GoError

/-- The loop of `setBootstrapHost` over `cluster.Hosts`: every host with the bootstrap id
is handed to `SetBootstrap`; the first error ends the loop. -/
def setBootstrapLoop (env : InstallEnv) (bootstrapId : UUID) : List Host → List Call × GoError
  | [] => ([], none)
  | h :: rest =>
    if h.ID = bootstrapId then
      match env.SetBootstrap h true with
      | some err =>
        ([Call.SetBootstrap h.ID true], some ("Failed to update bootstrap host: " ++ err))
      | none =>
        match setBootstrapLoop env bootstrapId rest with
        | (calls, err) => (Call.SetBootstrap h.ID true :: calls, err)
    else setBootstrapLoop env bootstrapId rest

def setBootstrapHost (env : InstallEnv) (cluster : Cluster) : List Call × GoError :=
  if cluster.Hosts.any (fun h => h.Bootstrap) then ([], none)
  else
    match env.GetMasterNodesIds cluster with
    | .error err => ([], some ("Failed to get cluster master node ids: " ++ err))
    | .ok masterNodesIds =>
      if masterNodesIds.length = 0 then
        ([], some "Cluster have no master hosts that can operate as bootstrap")
      else
        let bootstrapId := masterNodesIds.getD (masterNodesIds.length - 1) ""
        setBootstrapLoop env bootstrapId cluster.Hosts

/-- Go `installHosts`: every host is installed; the errors are collected. -/
def installHosts (env : InstallEnv) (cluster : Cluster) : List Call × GoError :=
  (cluster.Hosts.map (fun h => Call.InstallHost h.ID),
    if cluster.Hosts.all (fun h => env.InstallHost h = none) then none
    else some "Failed to install cluster")

/-- Go `clusterInstaller.install`. -/
def install (env : InstallEnv) (clusterID : UUID) : List Call × GoError :=
  match env.findCluster clusterID with
  | .error err => ([], some ("failed to find cluster: " ++ err))
  | .ok cluster =>
    match env.createDNSRecordSets cluster with
    | some err =>
      ([Call.CreateDNSRecordSets cluster.ID], some ("failed to create DNS record sets: " ++ err))
    | none =>
      match env.InstallCluster cluster with
      | some err =>
        ([Call.CreateDNSRecordSets cluster.ID, Call.InstallCluster cluster.ID],
          some ("failed to install cluster: " ++ err))
      | none =>
        match setBootstrapHost env cluster with
        | (calls, some err) =>
          (Call.CreateDNSRecordSets cluster.ID :: Call.InstallCluster cluster.ID :: calls,
            some err)
        | (calls, none) =>
          match installHosts env cluster with
          | (calls2, err) =>
            (Call.CreateDNSRecordSets cluster.ID :: Call.InstallCluster cluster.ID ::
              (calls ++ calls2), err)

/-- Go `models.HostRoleMaster`. -/
def HostRoleMaster : String := "master"

/-- Modelled from the spec: `clusterApi.GetMasterNodesIds`, which is not under src/.
The spec: "take the master node IDs in deterministic sort order": the ids of the hosts
of the cluster whose role is master, in ascending order. -/
def masterNodesIds (cluster : Cluster) : List UUID :=
  ((cluster.Hosts.filter (fun h => h.Role = HostRoleMaster)).map (fun h => h.ID)).insertionSort
    Network.idLe

/-- Modelled from the spec: the effect of `hostApi.SetBootstrap`, which is not under
src/, on the hosts stored for the cluster: the spec's "mark bootstrap = true" on the
host with that id.  No other call writes the bootstrap marker. -/
def applyCall (hosts : List Host) (call : Call) : List Host :=
  match call with
  | .SetBootstrap hostID isbootstrap =>
    hosts.map (fun h => if h.ID = hostID then { h with Bootstrap := isbootstrap } else h)
  | _ => hosts

/-- The hosts stored for the cluster after the calls of a handler, when every call
succeeded. -/
def applyCalls (hosts : List Host) (calls : List Call) : List Host :=
  calls.foldl applyCall hosts

/-- Modelled from the spec: the collaborators of the install step as the spec describes
them (`masterNodesIds`), each of which may also fail: `getMasterError`, `setBootstrapError`
and the other answers are arbitrary. -/
def specInstallEnv (findCluster : UUID → Except String Cluster)
    (createDNSRecordSets InstallCluster : Cluster → GoError) (getMasterError : GoError)
    (SetBootstrap : Host → Bool → GoError) (InstallHost : Host → GoError) : InstallEnv :=
  { findCluster := findCluster
    createDNSRecordSets := createDNSRecordSets
    InstallCluster := InstallCluster
    GetMasterNodesIds := fun cluster =>
      match getMasterError with
      | some err => .error err
      | none => .ok (masterNodesIds cluster)
    SetBootstrap := SetBootstrap
    InstallHost := InstallHost }

/-- The number of hosts that carry the bootstrap marker. -/
def bootstrapCount (hosts : List Host) : Nat :=
  (hosts.filter (fun h => h.Bootstrap)).length

/-! ### `checkFileForDownload` -/

def kubeconfig : String := "kubeconfig"

def clusterFileNames : List String :=
  [ "kubeconfig",
    "bootstrap.ign",
    "master.ign",
    "worker.ign",
    "metadata.json",
    "kubeadmin-password",
    "kubeconfig-noingress",
    "install-config.yaml" ]

/-- An error of a database lookup: `gorm.IsRecordNotFoundError` tells the two apart. -/
inductive DbError where
  | recordNotFound
  | other (msg : String)
  deriving DecidableEq, Repr

/-- What the collaborators answer while a file download is checked. -/
structure DownloadEnv where
  /-- `b.db.First(&cluster, "id = ?", clusterID)`. -/
  findCluster : UUID → Except DbError Cluster
  DownloadKubeconfig : Cluster → GoError
  DownloadFiles : Cluster → GoError

/-- The gate of the cluster state machine a download is checked against. -/
inductive DownloadGate where
  | DownloadKubeconfig
  | DownloadFiles
  deriving DecidableEq, Repr

/-- What `checkFileForDownload` did: whether it looked the cluster up, which gate it
asked, and the error it returns. -/
structure DownloadCheck where
  lookedUp : Bool
  gate : Option DownloadGate
  err : Option HandlerError
  deriving DecidableEq, Repr

def checkFileForDownload (env : DownloadEnv) (clusterID : UUID) (fileName : String) :
    DownloadCheck :=
  if !clusterFileNames.contains fileName then
    { lookedUp := false, gate := none,
      err := some (.api StatusBadRequest ("invalid cluster file " ++ fileName)) }
  else
    match env.findCluster clusterID with
    | .error .recordNotFound =>
      { lookedUp := true, gate := none, err := some (.api StatusNotFound "record not found") }
    | .error (.other msg) =>
      { lookedUp := true, gate := none, err := some (.api StatusInternalServerError msg) }
    | .ok cluster =>
      if fileName = kubeconfig then
        match env.DownloadKubeconfig cluster with
        | some err =>
          { lookedUp := true, gate := some .DownloadKubeconfig,
            err := some (.api StatusConflict err) }
        | none => { lookedUp := true, gate := some .DownloadKubeconfig, err := none }
      else
        match env.DownloadFiles cluster with
        | some err =>
          { lookedUp := true, gate := some .DownloadFiles, err := some (.api StatusConflict err) }
        | none => { lookedUp := true, gate := some .DownloadFiles, err := none }

/-! ### `updateClusterData` -/

/-- Go `models.ClusterUpdateParams` (the fields `updateClusterData` reads); every field
is a pointer, `none` when the request does not supply it. -/
structure ClusterUpdateParams where
  Name : Option String
  BaseDNSDomain : Option String
  ClusterNetworkCidr : Option String
  ClusterNetworkHostPrefix : Option Int
  ServiceNetworkCidr : Option String
  HTTPProxy : Option String
  HTTPSProxy : Option String
  NoProxy : Option String
  VipDhcpAllocation : Option Bool
  APIVip : Option String
  IngressVip : Option String
  MachineNetworkCidr : Option String
  SSHPublicKey : Option String
  PullSecret : Option String
  deriving DecidableEq, Repr

/-- What the collaborators answer while the cluster row is updated. -/
structure UpdateEnv where
  /-- `network.CalculateMachineNetworkCIDR(apiVip, ingressVip, cluster.Hosts)`. -/
  CalculateMachineNetworkCIDR : String → String → List Host → Except String String
  /-- `network.VerifyVips(cluster.Hosts, machineCidr, apiVip, ingressVip, false, log)`. -/
  VerifyVips : List Host → String → String → String → Bool → GoError
  /-- `network.VerifyMachineCIDR(machineCidr, cluster.Hosts, log)`. -/
  VerifyMachineCIDR : String → List Host → Option HandlerError
  /-- The error of `db.Model(..).Updates(updates)`. -/
  updateClusterError : Updates → GoError

/-- Go `updateNonDhcpNetworkParams`: the `updates` map as the function leaves it, and
the error. -/
def updateNonDhcpNetworkParams (env : UpdateEnv) (updates : Updates) (cluster : Cluster)
    (params : ClusterUpdateParams) : Updates × Option HandlerError :=
  let updates1 :=
    match params.APIVip with
    | some v => updates.set "api_vip" (.str v)
    | none => updates
  let apiVip :=
    match params.APIVip with
    | some v => v
    | none => cluster.APIVip
  let updates2 :=
    match params.IngressVip with
    | some v => updates1.set "ingress_vip" (.str v)
    | none => updates1
  let ingressVip :=
    match params.IngressVip with
    | some v => v
    | none => cluster.IngressVip
  if params.MachineNetworkCidr ≠ none then
    (updates2, some (.api StatusBadRequest
      "Setting Machine network CIDR is forbidden when cluster is not in vip-dhcp-allocation mode"))
  else
    match env.CalculateMachineNetworkCIDR apiVip ingressVip cluster.Hosts with
    | .error err => (updates2, some (.api StatusBadRequest err))
    | .ok machineCidr =>
      let updates3 := updates2.set "machine_network_cidr" (.str machineCidr)
      match env.VerifyVips cluster.Hosts machineCidr apiVip ingressVip false with
      | some err => (updates3, some (.api StatusBadRequest err))
      | none => (updates3, none)

/-- Go `updateDhcpNetworkParams`. -/
def updateDhcpNetworkParams (env : UpdateEnv) (updates : Updates) (cluster : Cluster)
    (params : ClusterUpdateParams) : Updates × Option HandlerError :=
  if params.APIVip ≠ none then
    (updates, some (.api StatusBadRequest
      "Setting API VIP is forbidden when cluster is in vip-dhcp-allocation mode"))
  else if params.IngressVip ≠ none then
    (updates, some (.api StatusBadRequest
      "Setting Ingress VIP is forbidden when cluster is in vip-dhcp-allocation mode"))
  else
    match params.MachineNetworkCidr with
    | some _ =>
      (updates.set "machine_network_cidr" (.str (StringValue params.MachineNetworkCidr)),
        env.VerifyMachineCIDR (StringValue params.MachineNetworkCidr) cluster.Hosts)
    | none => (updates, none)

/-- The entry `updates[key] = *field` made when the request supplies the field. -/
def setIfGiven (updates : Updates) (key : String) (field : Option String) : Updates :=
  match field with
  | some v => updates.set key (.str v)
  | none => updates

/-- The value of VIP-DHCP allocation in effect for an update: the stored one, unless the
request supplies a different one. -/
def vipDhcpInEffect (cluster : Cluster) (params : ClusterUpdateParams) : Bool :=
  if params.VipDhcpAllocation ≠ none ∧
      BoolValue params.VipDhcpAllocation ≠ BoolValue cluster.VipDhcpAllocation then
    BoolValue params.VipDhcpAllocation
  else BoolValue cluster.VipDhcpAllocation

/-- The `updates` map of `updateClusterData` when it reaches the network parameters. -/
def updatesBeforeNetwork (cluster : Cluster) (params : ClusterUpdateParams) : Updates :=
  let u1 := setIfGiven [] "name" params.Name
  let u2 := setIfGiven u1 "base_dns_domain" params.BaseDNSDomain
  let u3 := setIfGiven u2 "cluster_network_cidr" params.ClusterNetworkCidr
  let u4 :=
    match params.ClusterNetworkHostPrefix with
    | some v => u3.set "cluster_network_host_prefix" (.int v)
    | none => u3
  let u5 := setIfGiven u4 "service_network_cidr" params.ServiceNetworkCidr
  let u6 := setIfGiven u5 "http_proxy" params.HTTPProxy
  let u7 := setIfGiven u6 "https_proxy" params.HTTPSProxy
  let u8 := setIfGiven u7 "no_proxy" params.NoProxy
  if params.VipDhcpAllocation ≠ none ∧
      BoolValue params.VipDhcpAllocation ≠ BoolValue cluster.VipDhcpAllocation then
    let u9 := u8.set "vip_dhcp_allocation" (.bool (BoolValue params.VipDhcpAllocation))
    if BoolValue params.VipDhcpAllocation then
      (u9.set "api_vip" (.str "")).set "ingress_vip" (.str "")
    else u9.set "machine_network_cidr" (.str "")
  else u8

/-- Go `updateClusterData`: the database writes made and the error.  (The assignment to
the in-memory `cluster.PullSecret` is not a write to the database and is left out.) -/
def updateClusterData (env : UpdateEnv) (cluster : Cluster) (params : ClusterUpdateParams) :
    List Call × Option HandlerError :=
  let updates := updatesBeforeNetwork cluster params
  let vipDhcpAllocation := vipDhcpInEffect cluster params
  let network :=
    if vipDhcpAllocation then updateDhcpNetworkParams env updates cluster params
    else updateNonDhcpNetworkParams env updates cluster params
  match network with
  | (_, some err) => ([], some err)
  | (updates1, none) =>
    let updates2 := setIfGiven updates1 "ssh_public_key" params.SSHPublicKey
    let updates3 :=
      match params.PullSecret with
      | some v =>
        (updates2.set "pull_secret" (.str v)).set "pull_secret_set" (.bool (v ≠ ""))
      | none => updates2
    match env.updateClusterError updates3 with
    | some err => ([Call.UpdateCluster cluster.ID updates3],
        some (.api StatusInternalServerError err))
    | none => ([Call.UpdateCluster cluster.ID updates3], none)

/-! ### Notions used to state the properties of the orchestrator -/

/-- The address lies inside the CIDR: both texts parse and the network contains the
address. -/
def liesInside (ipAddr cidr : String) : Bool :=
  match GoNet.ParseCIDR cidr, GoNet.ParseIP ipAddr with
  | some (_, ipnet), some ip => GoNet.Contains ipnet ip
  | _, _ => false

/-! ### Sample data -/

/-- Image metadata of a cluster whose image was created at second 100. -/
def sampleImage : ImageInfo :=
  { CreatedAt := 100 * Second, ExpiresAt := 3700 * Second, SSHPublicKey := "ssh-rsa AAAA",
    GeneratorVersion := "image-build:latest", DownloadURL := "", SizeBytes := none }

/-- Three master hosts, none of them bootstrap. -/
def sampleHosts : List Host :=
  [ { ID := "h1", ClusterID := "c1", Role := "master", Bootstrap := false, Status := "known" },
    { ID := "h2", ClusterID := "c1", Role := "master", Bootstrap := false, Status := "known" },
    { ID := "h3", ClusterID := "c1", Role := "master", Bootstrap := false, Status := "known" } ]

/-- A cluster in VIP-DHCP-allocation mode with machine network 10.0.0.0/24. -/
def sampleCluster : Cluster :=
  { ID := "c1", Name := "demo", Hosts := sampleHosts, VipDhcpAllocation := some true,
    MachineNetworkCidr := "10.0.0.0/24", APIVip := "", IngressVip := "", PullSecret := "",
    PullSecretSet := true, ImageInfo := sampleImage }

/-- An update request that supplies nothing. -/
def emptyUpdate : ClusterUpdateParams :=
  { Name := none, BaseDNSDomain := none, ClusterNetworkCidr := none,
    ClusterNetworkHostPrefix := none, ServiceNetworkCidr := none, HTTPProxy := none,
    HTTPSProxy := none, NoProxy := none, VipDhcpAllocation := none, APIVip := none,
    IngressVip := none, MachineNetworkCidr := none, SSHPublicKey := none, PullSecret := none }

/-- Collaborators of a step reply that find the host h1 and the sample cluster, decode a
DHCP response "a,b" into its two addresses, and never fail. -/
def sampleStepEnv : StepEnv String :=
  { findHost := fun hostID clusterID =>
      .ok { ID := hostID, ClusterID := clusterID, Role := "master", Bootstrap := false,
            Status := "known" }
    Unmarshal := fun _ input => .ok input
    Marshal := fun v => .ok v
    HandleInstallationFailure := fun _ => none
    UpdateInventory := fun _ _ => none
    UpdateConnectivityReport := fun _ _ => none
    decodeFreeAddresses := fun _ => .ok 1
    updateFreeAddresses := fun _ _ => none
    takeCluster := fun _ => .ok sampleCluster
    decodeDhcpAllocation := fun s =>
      match s.toList.span (fun c => c ≠ ',') with
      | (a, ',' :: b) => .ok (String.mk a, String.mk b)
      | _ => .error "malformed"
    SetVips := fun _ _ _ => none }

/-- Collaborators of the image handler that never fail, at the time `now`. -/
def sampleIsoEnv (now : Int) : IsoEnv :=
  { txError := false
    findCluster := fun _ => .ok sampleCluster
    now := now
    UpdateObjectTag := fun _ => (true, none)
    updatesError := none
    commitError := none
    reloadError := none
    GetObjectSizeBytes := fun _ => .ok 1000
    IsAwsS3 := false
    GeneratePresignedDownloadURL := fun _ => .ok "https://example/image"
    postUploadUpdateError := none
    formatIgnitionFile := fun _ => .ok "ignition"
    GenerateISO := fun _ => none }

def sampleConfig : Config :=
  { ImageBuilder := "image-build:latest", ImageExpirationTime := 3600 * Second }

/-- Collaborators of the install step as the spec describes them, none of which fails. -/
def sampleInstallEnv : InstallEnv :=
  specInstallEnv (fun _ => .ok sampleCluster) (fun _ => none) (fun _ => none) none
    (fun _ _ => none) (fun _ => none)

/-- Collaborators of a download check that find the sample cluster; the state machine
refuses the kubeconfig and allows the other files. -/
def sampleDownloadEnv : DownloadEnv :=
  { findCluster := fun _ => .ok sampleCluster
    DownloadKubeconfig := fun _ => some "cluster is not installed"
    DownloadFiles := fun _ => none }

/-- Collaborators of a cluster update that never fail. -/
def sampleUpdateEnv : UpdateEnv :=
  { CalculateMachineNetworkCIDR := fun _ _ _ => .ok "10.0.0.0/24"
    VerifyVips := fun _ _ _ _ _ => none
    VerifyMachineCIDR := fun _ _ => none
    updateClusterError := fun _ => none }

end Bminventory

namespace Bminventory

/-! ### Notions used to state the properties of `updateClusterData` -/

/-- Go `updates[key]`: the value written for the column, `none` when the map has no
entry for it. -/
def Updates.get (updates : Updates) (key : String) : Option Value :=
  (updates.find? (fun kv => kv.1 = key)).map (fun kv => kv.2)

/-- The API VIP of an update: the value of the request where given, the stored one
otherwise. -/
def effectiveApiVip (cluster : Cluster) (params : ClusterUpdateParams) : String :=
  match params.APIVip with
  | some v => v
  | none => cluster.APIVip

/-- The Ingress VIP of an update: the value of the request where given, the stored one
otherwise. -/
def effectiveIngressVip (cluster : Cluster) (params : ClusterUpdateParams) : String :=
  match params.IngressVip with
  | some v => v
  | none => cluster.IngressVip

end Bminventory

/-! ## `internal/host/monitor.go` -/

namespace Monitor

abbrev UUID := String

/-- Modelled from the spec: the values of `models.HostStatus*`, declared outside src/;
the spec lists the host statuses discovering, known, disconnected, insufficient,
pending-for-input, preparing-for-installation, preparing-successful, installing,
installing-in-progress, installed, installing-pending-user-action,
resetting-pending-user-action, cancelled, error and disabled. -/
def HostStatusDiscovering : String := "discovering"

/-- Modelled from the spec: see `HostStatusDiscovering`. -/
def HostStatusKnown : String := "known"

/-- Modelled from the spec: see `HostStatusDiscovering`. -/
def HostStatusDisconnected : String := "disconnected"

/-- Modelled from the spec: see `HostStatusDiscovering`. -/
def HostStatusInsufficient : String := "insufficient"

/-- Modelled from the spec: see `HostStatusDiscovering`. -/
def HostStatusPendingForInput : String := "pending-for-input"

/-- Modelled from the spec: see `HostStatusDiscovering`. -/
def HostStatusPreparingForInstallation : String := "preparing-for-installation"

/-- Modelled from the spec: see `HostStatusDiscovering`. -/
def HostStatusPreparingSuccessful : String := "preparing-successful"

/-- Modelled from the spec: see `HostStatusDiscovering`. -/
def HostStatusInstalling : String := "installing"

/-- Modelled from the spec: see `HostStatusDiscovering`. -/
def HostStatusInstallingInProgress : String := "installing-in-progress"

/-- Modelled from the spec: see `HostStatusDiscovering`. -/
def HostStatusInstalled : String := "installed"

/-- Modelled from the spec: see `HostStatusDiscovering`. -/
def HostStatusInstallingPendingUserAction : String := "installing-pending-user-action"

/-- Modelled from the spec: see `HostStatusDiscovering`. -/
def HostStatusResettingPendingUserAction : String := "resetting-pending-user-action"

/-- Modelled from the spec: see `HostStatusDiscovering`. -/
def HostStatusCancelled : String := "cancelled"

/-- Modelled from the spec: see `HostStatusDiscovering`. -/
def HostStatusError : String := "error"

/-- Modelled from the spec: see `HostStatusDiscovering`. -/
def HostStatusDisabled : String := "disabled"

/-- Modelled from the spec: the values of `models.LogsState`, declared outside src/; the
log collection of a host has completed or timed out. -/
def LogsStateCompleted : String := "completed"

/-- Modelled from the spec: see `LogsStateCompleted`. -/
def LogsStateTimeout : String := "timeout"

/-- A Go value of a string kind as `reflect` sees it: the name of its type and its
text.  `models.Host` is declared outside src/, so the type of its field `LogsInfo` is
carried by the value: `goType` is `"string"` for a plain string and the name of the type
(`"models.LogsState"`) for a value of a named type. -/
structure TypedString where
  goType : String
  text : String
  deriving DecidableEq, Repr

/-- The type `models.LogsState` of the constants `models.LogsStateCompleted` and
`models.LogsStateTimeout`, which `SkipMonitoring` converts with `string(...)`. -/
def LogsStateType : String := "models.LogsState"

/-- Go `models.Host` (the fields the monitor reads): `Status` is
`swag.StringValue(h.Status)`, `LogsInfo` the logs state with its Go type. -/
structure Host where
  ID : UUID
  Status : String
  LogsInfo : TypedString
  deriving DecidableEq, Repr

/-- Go `common.Cluster` with its hosts. -/
structure Cluster where
  ID : UUID
  Hosts : List Host
  deriving DecidableEq, Repr

/-- go-funk `Contains(in, elem)` for a `[]string` (the library is outside src/): it walks
the slice and compares each element with `elem` by `reflect.DeepEqual` on the two
interface values, which holds only for values of the same type; so an element, a
`string`, equals `elem` when `elem` is a `string` with the same text, and a value of a
named type is never found. -/
def funkContains (slice : List String) (elem : TypedString) : Bool :=
  slice.any (fun s => elem.goType = "string" && s = elem.text)

/-- Go `Manager.SkipMonitoring`: `h.LogsInfo` is passed to `funk.Contains` as it is,
without a conversion to `string`. -/
def SkipMonitoring (h : Host) : Bool :=
  let skipMonitoringStates : List String := [LogsStateCompleted, LogsStateTimeout, ""]
  (h.Status = HostStatusError || h.Status = HostStatusCancelled) &&
    funkContains skipMonitoringStates h.LogsInfo

/-- The statuses of the hosts that `HostMonitoring` loads. -/
def monitorStates : List String :=
  [ HostStatusDiscovering,
    HostStatusKnown,
    HostStatusDisconnected,
    HostStatusInsufficient,
    HostStatusPendingForInput,
    HostStatusPreparingForInstallation,
    HostStatusPreparingSuccessful,
    HostStatusInstalling,
    HostStatusInstallingInProgress,
    HostStatusInstalled,
    HostStatusInstallingPendingUserAction,
    HostStatusResettingPendingUserAction,
    HostStatusCancelled,
    HostStatusError ]

/-- What the collaborators answer during one tick of the monitor. -/
structure MonitorEnv where
  /-- The answer of `m.leaderElector.IsLeader()` at its n-th call of the tick. -/
  IsLeader : Nat → Bool
  /-- `m.Config.MonitorBatchSize`, a positive page size. -/
  MonitorBatchSize : Nat
  /-- The clusters of the database with all their hosts, ordered by id. -/
  clusters : List Cluster
  /-- Whether the query at this offset fails. -/
  queryError : Nat → Bool

/-- The query of `HostMonitoring`: the clusters that have a host, from `offset` on, at
most `limit` of them, each with its hosts whose status is in `monitorStates`
(`Preload("Hosts", "status in (?)", monitorStates)`). -/
def findClusters (env : MonitorEnv) (offset limit : Nat) : List Cluster :=
  (((env.clusters.filter (fun c => c.Hosts.length ≠ 0)).drop offset).take limit).map
    (fun c => { c with Hosts := c.Hosts.filter (fun h => monitorStates.contains h.Status) })

/-- The two inner loops of `HostMonitoring` over the hosts of a page: the hosts handed to
`refreshStatusInternal`, the number of `IsLeader` calls made so far, and whether the
loop ran to its end (`false`: leadership was lost and the tick returns). -/
def refreshHosts (env : MonitorEnv) : List Host → Nat → List Host × Nat × Bool
  | [], calls => ([], calls, true)
  | host :: rest, calls =>
    if !env.IsLeader calls then ([], calls + 1, false)
    else
      match refreshHosts env rest (calls + 1) with
      | (refreshed, calls1, done) =>
        (if !SkipMonitoring host then host :: refreshed else refreshed, calls1, done)

/-- What a tick did: the hosts handed to the refresh, in order, and whether the model
ran out of rounds before the tick ended. -/
structure MonitorRun where
  refreshed : List Host
  exhausted : Bool
  deriving DecidableEq, Repr

/-- The outer `for` loop of `HostMonitoring`, for at most `fuel` pages. -/
def HostMonitoringLoop (env : MonitorEnv) : Nat → Nat → Nat → MonitorRun
  | 0, _, _ => { refreshed := [], exhausted := true }
  | fuel + 1, offset, calls =>
    if env.queryError offset then { refreshed := [], exhausted := false }
    else
      let clusters := findClusters env offset env.MonitorBatchSize
      if clusters.length = 0 then { refreshed := [], exhausted := false }
      else
        match refreshHosts env (clusters.flatMap (fun c => c.Hosts)) calls with
        | (refreshed, _, false) => { refreshed := refreshed, exhausted := false }
        | (refreshed, calls1, true) =>
          let next := HostMonitoringLoop env fuel (offset + env.MonitorBatchSize) calls1
          { refreshed := refreshed ++ next.refreshed, exhausted := next.exhausted }

/-- Go `Manager.HostMonitoring`: one tick.  Every page but the last holds a cluster, so
the loop needs at most one round more than there are clusters. -/
def HostMonitoring (env : MonitorEnv) : MonitorRun :=
  if !env.IsLeader 0 then { refreshed := [], exhausted := false }
  else HostMonitoringLoop env (env.clusters.length + 1) 0 1

/-- The terminal host statuses of the spec: installed, error, disabled, cancelled. -/
def terminalStates : List String :=
  [HostStatusInstalled, HostStatusError, HostStatusDisabled, HostStatusCancelled]

/-- A database with one cluster: an installed host, a host in error whose logs are
still collected, a host in error whose logs are complete, a disabled host and a known
host; `logsType` is the Go type of the field `LogsInfo`. -/
def sampleMonitorEnv (logsType : String) : MonitorEnv :=
  { IsLeader := fun _ => true
    MonitorBatchSize := 10
    clusters :=
      [ { ID := "c1",
          Hosts :=
            [ { ID := "h1", Status := "installed", LogsInfo := ⟨logsType, "completed"⟩ },
              { ID := "h2", Status := "error", LogsInfo := ⟨logsType, "collecting"⟩ },
              { ID := "h3", Status := "error", LogsInfo := ⟨logsType, "completed"⟩ },
              { ID := "h4", Status := "disabled", LogsInfo := ⟨logsType, ""⟩ },
              { ID := "h5", Status := "known", LogsInfo := ⟨logsType, ""⟩ } ] } ]
    queryError := fun _ => false }

end Monitor

/-! ## `internal/bminventory/inventory.go`: the debug step -/

namespace Bminventory

/-- Go `debugCmd`. -/
structure debugCmd where
  cmd : String
  stepID : String
  deriving DecidableEq, Repr

/-- Go `models.Step`. -/
structure Step where
  StepType : StepType
  StepID : String
  Command : String
  Args : List String
  deriving DecidableEq, Repr

/-- Modelled from the spec: the value of `models.StepTypeExecute`, declared outside src/;
the spec calls the step "execute". -/
def StepTypeExecute : StepType := "execute"

/-- Go `map[strfmt.UUID]debugCmd`: the lookup function of its keys, `none` for an absent
key. -/
abbrev DebugCmdMap := UUID → Option debugCmd

/-- Go `m[key] = value`. -/
def DebugCmdMap.set (m : DebugCmdMap) (key : UUID) (value : debugCmd) : DebugCmdMap :=
  fun k => if k = key then some value else m k

/-- Go `delete(m, key)`. -/
def DebugCmdMap.delete (m : DebugCmdMap) (key : UUID) : DebugCmdMap :=
  fun k => if k = key then none else m k

/-- Go `createStepID`; `uuidPrefix` is the text `uuid.New().String()[:8]`. -/
def createStepID (stepType : StepType) (uuidPrefix : String) : String :=
  stepType ++ "-" ++ uuidPrefix

structure SetDebugStepParams where
  ClusterID : UUID
  HostID : UUID
  /-- `params.Step.Command`, a pointer. -/
  Command : Option String

/-- Go `SetDebugStep`: the map it leaves and the status of its response; `uuidPrefix` is
the random part of the step id. -/
def SetDebugStep (debugCmdMap : DebugCmdMap) (uuidPrefix : String)
    (params : SetDebugStepParams) : DebugCmdMap × Nat :=
  let stepID := createStepID StepTypeExecute uuidPrefix
  (debugCmdMap.set params.HostID { cmd := StringValue params.Command, stepID := stepID },
    StatusNoContent)

structure GetNextStepsParams where
  ClusterID : UUID
  HostID : UUID

/-- What the collaborators answer while the next steps of a host are fetched. -/
structure NextStepsEnv where
  /-- `tx.Error != nil` after `b.db.Begin()`. -/
  txError : Bool
  /-- `tx.First(&host, "id = ? and cluster_id = ?", ..)`. -/
  findHost : UUID → UUID → Except String Host
  /-- The error of the update of `checked_in_at`. -/
  updateError : GoError
  /-- The error of `tx.Commit()`. -/
  commitError : GoError
  /-- `b.hostApi.GetNextSteps(ctx, &host)`: the instructions and the error. -/
  GetNextSteps : Host → List Step × GoError

def StatusOK : Nat := 200

/-- What `GetNextSteps` did: the map it leaves, the status of its response, and the
instructions of the payload of an OK response. -/
structure NextStepsResult where
  debugCmdMap : DebugCmdMap
  status : Nat
  Instructions : List Step

/-- Go `GetNextSteps`. -/
def GetNextSteps (env : NextStepsEnv) (debugCmdMap : DebugCmdMap)
    (params : GetNextStepsParams) : NextStepsResult :=
  if env.txError then
    { debugCmdMap := debugCmdMap, status := StatusInternalServerError, Instructions := [] }
  else
    match env.findHost params.HostID params.ClusterID with
    | .error _ => { debugCmdMap := debugCmdMap, status := StatusNotFound, Instructions := [] }
    | .ok host =>
      match env.updateError with
      | some _ =>
        { debugCmdMap := debugCmdMap, status := StatusInternalServerError, Instructions := [] }
      | none =>
        match env.commitError with
        | some _ =>
          { debugCmdMap := debugCmdMap, status := StatusInternalServerError,
            Instructions := [] }
        | none =>
          let steps := (env.GetNextSteps host).1
          match debugCmdMap params.HostID with
          | some cmd =>
            let step : Step :=
              { StepType := StepTypeExecute, StepID := cmd.stepID, Command := "bash",
                Args := ["-c", cmd.cmd] }
            { debugCmdMap := debugCmdMap.delete params.HostID, status := StatusOK,
              Instructions := steps ++ [step] }
          | none => { debugCmdMap := debugCmdMap, status := StatusOK, Instructions := steps }

/-- Collaborators of a poll that find every host and plan one inventory step. -/
def sampleNextStepsEnv : NextStepsEnv :=
  { txError := false
    findHost := fun hostID clusterID =>
      .ok { ID := hostID, ClusterID := clusterID, Role := "master", Bootstrap := false,
            Status := "known" }
    updateError := none
    commitError := none
    GetNextSteps := fun _ =>
      ([{ StepType := "inventory", StepID := "inventory-1", Command := "inventory",
          Args := [] }], none) }

end Bminventory

/-! ## `internal/bminventory/inventory.go`: `InstallCluster` -/

namespace Bminventory

def StatusAccepted : Nat := 202

/-- A call of `InstallCluster` on the state machines of the cluster and of its hosts. -/
inductive InstallCall where
  | RefreshHostStatus (hostID : UUID)
  | RefreshClusterStatus (clusterID : UUID)
  | PrepareClusterForInstallation (clusterID : UUID)
  | PrepareHostForInstallation (hostID : UUID)
  deriving DecidableEq, Repr

/-- Whether the call is a `PrepareForInstallation` transition. -/
def InstallCall.isPrepare : InstallCall → Bool
  | .PrepareClusterForInstallation _ => true
  | .PrepareHostForInstallation _ => true
  | _ => false

/-- What the collaborators answer while `InstallCluster` runs. -/
structure InstallClusterEnv where
  /-- The cluster as the first `b.db...First(&cluster, "id = ?", ..)` finds it, with all
  its hosts. -/
  findCluster : UUID → Except String Cluster
  /-- The error of `b.hostApi.RefreshStatus`. -/
  RefreshHostStatus : Host → Option HandlerError
  /-- The error of `b.clusterApi.RefreshStatus`. -/
  RefreshClusterStatus : Cluster → Option HandlerError
  /-- The cluster as the reload after the refresh finds it, with all its hosts. -/
  reloadCluster : UUID → Except String Cluster
  /-- `b.clusterApi.IsReadyForInstallation(&cluster)`. -/
  IsReadyForInstallation : Cluster → Bool × String
  /-- The error of `b.clusterApi.PrepareForInstallation`. -/
  PrepareClusterForInstallation : Cluster → Option HandlerError
  /-- The error of `b.hostApi.PrepareForInstallation`. -/
  PrepareHostForInstallation : Host → Option HandlerError
  /-- The error of the last load of the cluster. -/
  finalLoadError : Option HandlerError

/-- `Preload("Hosts", "status <> ?", host.HostStatusDisabled)`: the cluster with its
hosts that are not disabled. -/
def preloadEnabledHosts (cluster : Cluster) : Cluster :=
  { cluster with Hosts := cluster.Hosts.filter (fun h => h.Status ≠ Monitor.HostStatusDisabled) }

/-- Go `refreshAllHosts`: the calls made and the error. -/
def refreshAllHosts (env : InstallClusterEnv) : List Host → List InstallCall × Option HandlerError
  | [] => ([], none)
  | chost :: rest =>
    if chost.Status ≠ Monitor.HostStatusKnown then
      ([], some (.api StatusBadRequest
        ("Host " ++ chost.ID ++ " is in status " ++ chost.Status ++
          " and not ready for install")))
    else
      match env.RefreshHostStatus chost with
      | some err => ([InstallCall.RefreshHostStatus chost.ID], some err)
      | none =>
        match refreshAllHosts env rest with
        | (calls, err) => (InstallCall.RefreshHostStatus chost.ID :: calls, err)

/-- The loop over the hosts inside the transaction of `InstallCluster`. -/
def prepareHosts (env : InstallClusterEnv) : List Host → List InstallCall × Option HandlerError
  | [] => ([], none)
  | h :: rest =>
    match env.PrepareHostForInstallation h with
    | some err => ([InstallCall.PrepareHostForInstallation h.ID], some err)
    | none =>
      match prepareHosts env rest with
      | (calls, err) => (InstallCall.PrepareHostForInstallation h.ID :: calls, err)

/-- Go `InstallCluster`, up to its response (the installation itself runs afterwards, in
a goroutine of its own): the calls made and the status of the response. -/
def InstallCluster (env : InstallClusterEnv) (clusterID : UUID) : List InstallCall × Nat :=
  match env.findCluster clusterID with
  | .error _ => ([], StatusNotFound)
  | .ok found =>
    let cluster := preloadEnabledHosts found
    match refreshAllHosts env cluster.Hosts with
    | (calls, some err) => (calls, err.status)
    | (calls, none) =>
      match env.RefreshClusterStatus cluster with
      | some err => (calls ++ [InstallCall.RefreshClusterStatus cluster.ID], err.status)
      | none =>
        let calls1 := calls ++ [InstallCall.RefreshClusterStatus cluster.ID]
        match env.reloadCluster clusterID with
        | .error _ => (calls1, StatusNotFound)
        | .ok reloaded =>
          let cluster1 := preloadEnabledHosts reloaded
          if !(env.IsReadyForInstallation cluster1).1 then (calls1, StatusConflict)
          else
            match env.PrepareClusterForInstallation cluster1 with
            | some err =>
              (calls1 ++ [InstallCall.PrepareClusterForInstallation cluster1.ID], err.status)
            | none =>
              let calls2 := calls1 ++ [InstallCall.PrepareClusterForInstallation cluster1.ID]
              match prepareHosts env cluster1.Hosts with
              | (calls3, some err) => (calls2 ++ calls3, err.status)
              | (calls3, none) =>
                match env.finalLoadError with
                | some err => (calls2 ++ calls3, err.status)
                | none => (calls2 ++ calls3, StatusAccepted)

/-- Collaborators of `InstallCluster` that never fail: the cluster `found` is ready
exactly when `ready`. -/
def sampleInstallClusterEnv (found : Cluster) (ready : Bool) : InstallClusterEnv :=
  { findCluster := fun _ => .ok found
    RefreshHostStatus := fun _ => none
    RefreshClusterStatus := fun _ => none
    reloadCluster := fun _ => .ok found
    IsReadyForInstallation := fun _ => (ready, "insufficient masters")
    PrepareClusterForInstallation := fun _ => none
    PrepareHostForInstallation := fun _ => none
    finalLoadError := none }

/-- The sample cluster, whose hosts are h1, h2 and h3, with h2 still discovering and a
disabled host h4. -/
def clusterWithDiscoveringHost : Cluster :=
  { sampleCluster with
    Hosts :=
      [ { ID := "h1", ClusterID := "c1", Role := "master", Bootstrap := false,
          Status := "known" },
        { ID := "h2", ClusterID := "c1", Role := "master", Bootstrap := false,
          Status := "discovering" },
        { ID := "h3", ClusterID := "c1", Role := "master", Bootstrap := false,
          Status := "known" },
        { ID := "h4", ClusterID := "c1", Role := "worker", Bootstrap := false,
          Status := "disabled" } ] }

end Bminventory

/-! ## `internal/bminventory/inventory.go`: `updateHostsData` and `UpdateCluster` -/

namespace Bminventory

/-- A run-time panic of Go. -/
inductive Panic where
  /-- The run-time error "index out of range [index] with length length". -/
  | indexOutOfRange (index length : Nat)
  deriving DecidableEq, Repr

/-- How the call of a Go function ends: it returns, or it panics. -/
inductive GoResult (α : Type) where
  | returned (a : α)
  | panicked (p : Panic)
  deriving DecidableEq, Repr

/-- Go `models.ClusterUpdateParamsHostsRolesItems0`. -/
structure HostRoleItem where
  ID : UUID
  Role : String
  deriving DecidableEq, Repr

/-- Go `models.ClusterUpdateParamsHostsNamesItems0`. -/
structure HostNameItem where
  ID : UUID
  Hostname : String
  deriving DecidableEq, Repr

/-- A call of `updateHostsData` on the host state machine. -/
inductive HostsCall where
  | UpdateRole (hostID : UUID) (role : String)
  | UpdateHostname (hostID : UUID) (hostname : String)
  deriving DecidableEq, Repr

/-- What the collaborators answer while the hosts of an update are written. -/
structure HostsEnv where
  /-- `db.First(&host, "id = ? and cluster_id = ?", ..)`. -/
  findHost : UUID → UUID → Except String Host
  UpdateRole : Host → String → GoError
  UpdateHostname : Host → String → GoError

/-- The first loop of `updateHostsData`, over `HostsRoles`. -/
def updateHostsRoles (env : HostsEnv) (clusterID : UUID) :
    List HostRoleItem → List HostsCall × Option HandlerError
  | [] => ([], none)
  | item :: rest =>
    match env.findHost item.ID clusterID with
    | .error err => ([], some (.api StatusNotFound err))
    | .ok host =>
      match env.UpdateRole host item.Role with
      | some err =>
        ([HostsCall.UpdateRole host.ID item.Role], some (.api StatusInternalServerError err))
      | none =>
        match updateHostsRoles env clusterID rest with
        | (calls, err) => (HostsCall.UpdateRole host.ID item.Role :: calls, err)

/-- The second loop of `updateHostsData`, over `HostsNames`, from the index `i` on.  When
the host is not found, the log statement before the return evaluates `HostsRoles[i].ID`. -/
def updateHostsNames (env : HostsEnv) (clusterID : UUID) (HostsRoles : List HostRoleItem) :
    Nat → List HostNameItem → GoResult (List HostsCall × Option HandlerError)
  | _, [] => .returned ([], none)
  | i, item :: rest =>
    match env.findHost item.ID clusterID with
    | .error err =>
      if i < HostsRoles.length then .returned ([], some (.api StatusNotFound err))
      else .panicked (.indexOutOfRange i HostsRoles.length)
    | .ok host =>
      match env.UpdateHostname host item.Hostname with
      | some err =>
        .returned ([HostsCall.UpdateHostname host.ID item.Hostname],
          some (.api StatusConflict err))
      | none =>
        match updateHostsNames env clusterID HostsRoles (i + 1) rest with
        | .returned (calls, err) =>
          .returned (HostsCall.UpdateHostname host.ID item.Hostname :: calls, err)
        | .panicked p => .panicked p

/-- Go `updateHostsData`. -/
def updateHostsData (env : HostsEnv) (clusterID : UUID) (HostsRoles : List HostRoleItem)
    (HostsNames : List HostNameItem) : GoResult (List HostsCall × Option HandlerError) :=
  match updateHostsRoles env clusterID HostsRoles with
  | (calls, some err) => .returned (calls, some err)
  | (calls, none) =>
    match updateHostsNames env clusterID HostsRoles 0 HostsNames with
    | .returned (calls2, err) => .returned (calls ++ calls2, err)
    | .panicked p => .panicked p

/-- Go `installer.UpdateClusterParams`; `HostsRoles` and `HostsNames` are the fields of
that name of `ClusterUpdateParams`. -/
structure UpdateClusterParams where
  ClusterID : UUID
  ClusterUpdateParams : ClusterUpdateParams
  HostsRoles : List HostRoleItem
  HostsNames : List HostNameItem

/-- What the collaborators answer while `UpdateCluster` runs. -/
structure UpdateClusterEnv where
  ValidatePullSecret : String → GoError
  ValidateClusterNameFormat : String → GoError
  /-- `tx.Error != nil` after `b.db.Begin()`. -/
  txError : Bool
  /-- `tx.Preload("Hosts").First(&cluster, "id = ?", params.ClusterID)`. -/
  findCluster : UUID → Except String Cluster
  VerifyClusterUpdatability : Cluster → GoError
  /-- Whether `validateDNSDomain` returns its Conflict responder. -/
  validateDNSDomain : ClusterUpdateParams → Bool
  cluster : UpdateEnv
  hosts : HostsEnv
  updateHostsAndClusterStatus : Cluster → Option HandlerError
  /-- The error of `tx.Commit()`. -/
  commitError : GoError
  /-- The error of the load of the cluster after the commit. -/
  reloadError : GoError
  customizeHost : Host → GoError

/-- The deferred closure of `UpdateCluster`; `GenerateClusterISO`, `GetNextSteps`,
`CancelInstallation` and `ResetCluster` defer the same closure, up to the text they log.
The number of `tx.Rollback()` calls it makes, from `txSuccess` and from whether
`recover()` returns a value (the body panicked). -/
def deferredRollbacks (txSuccess recovered : Bool) : Nat :=
  (if !txSuccess then 1 else 0) + (if recovered then 1 else 0)

/-- The body of `UpdateCluster` from `tx := b.db.Begin()` on: the value of `txSuccess`
and the status of the responder it returns, or the panic that ends it. -/
def UpdateClusterBody (env : UpdateClusterEnv) (params : UpdateClusterParams) :
    GoResult (Bool × Nat) :=
  if env.txError then .returned (false, StatusInternalServerError)
  else
    match env.findCluster params.ClusterID with
    | .error _ => .returned (false, StatusNotFound)
    | .ok cluster =>
      match env.VerifyClusterUpdatability cluster with
      | some _ => .returned (false, StatusConflict)
      | none =>
        if env.validateDNSDomain params.ClusterUpdateParams then
          .returned (false, StatusConflict)
        else
          match (updateClusterData env.cluster cluster params.ClusterUpdateParams).2 with
          | some err => .returned (false, err.status)
          | none =>
            match updateHostsData env.hosts params.ClusterID params.HostsRoles
                params.HostsNames with
            | .panicked p => .panicked p
            | .returned (_, some err) => .returned (false, err.status)
            | .returned (_, none) =>
              match env.updateHostsAndClusterStatus cluster with
              | some err => .returned (false, err.status)
              | none =>
                match env.commitError with
                | some _ => .returned (false, StatusInternalServerError)
                | none =>
                  match env.reloadError with
                  | some _ => .returned (true, StatusInternalServerError)
                  | none =>
                    if cluster.Hosts.all (fun h => env.customizeHost h = none) then
                      .returned (true, StatusCreated)
                    else .returned (true, StatusInternalServerError)

/-- What a handler with a transaction did: the `tx.Rollback()` calls of its deferred
closure, whether the transaction was committed, and the status of the responder it
returns (`none`: the handler returns a nil responder). -/
structure TxRun where
  rollbacks : Nat
  committed : Bool
  response : Option Nat
  deriving DecidableEq, Repr

/-- Go `UpdateCluster`.  The function has no named result: when the deferred closure
recovers a panic of the body, the function returns the zero value of
`middleware.Responder`, which is nil. -/
def UpdateCluster (env : UpdateClusterEnv) (params : UpdateClusterParams) : TxRun :=
  if StringValue params.ClusterUpdateParams.PullSecret ≠ "" ∧
      env.ValidatePullSecret (StringValue params.ClusterUpdateParams.PullSecret) ≠ none then
    { rollbacks := 0, committed := false, response := some StatusBadRequest }
  else if StringValue params.ClusterUpdateParams.Name ≠ "" ∧
      env.ValidateClusterNameFormat (StringValue params.ClusterUpdateParams.Name) ≠ none then
    { rollbacks := 0, committed := false, response := some StatusBadRequest }
  else
    match UpdateClusterBody env params with
    | .returned (txSuccess, status) =>
      { rollbacks := deferredRollbacks txSuccess false, committed := txSuccess,
        response := some status }
    | .panicked _ =>
      { rollbacks := deferredRollbacks false true, committed := false, response := none }

/-- Collaborators of the host updates of the sample cluster: h1, h2 and h3 are found,
no other host is. -/
def sampleHostsEnv : HostsEnv :=
  { findHost := fun hostID clusterID =>
      if hostID = "h1" ∨ hostID = "h2" ∨ hostID = "h3" then
        .ok { ID := hostID, ClusterID := clusterID, Role := "master", Bootstrap := false,
              Status := "known" }
      else .error "record not found"
    UpdateRole := fun _ _ => none
    UpdateHostname := fun _ _ => none }

/-- Collaborators of `UpdateCluster` on the sample cluster that never fail. -/
def sampleUpdateClusterEnv : UpdateClusterEnv :=
  { ValidatePullSecret := fun _ => none
    ValidateClusterNameFormat := fun _ => none
    txError := false
    findCluster := fun _ => .ok sampleCluster
    VerifyClusterUpdatability := fun _ => none
    validateDNSDomain := fun _ => false
    cluster := sampleUpdateEnv
    hosts := sampleHostsEnv
    updateHostsAndClusterStatus := fun _ => none
    commitError := none
    reloadError := none
    customizeHost := fun _ => none }

end Bminventory

namespace Network

/-! ### Notions used to state the order of the group list -/

/-- The order of the specification on connectivity sets: a larger set comes first, and
of two sets of one size the one whose sorted member ids come first in lexicographic
order. -/
def precedes (a b : connectivitySet) : Prop :=
  a.card > b.card ∨
    (a.card = b.card ∧ List.Lex (fun x y : UUID => x.toList < y.toList) a.id b.id)

end Network

namespace Network

open GoNet

/-! ### Notions used to state the overlap of networks -/

/-- The address range of a network: the addresses, in the byte form of the network
address (4 bytes for a dotted IPv4 CIDR, 16 for an IPv6 CIDR), that the mask maps to the
network address. -/
def inRange (n : IPNet) (x : IP) : Prop :=
  x.length = n.IP.length ∧ (∀ b ∈ x, b < 256) ∧
    List.zipWith (fun a b => a &&& b) x n.Mask = n.IP

instance inRange.decidable (n : IPNet) (x : IP) : Decidable (inRange n x) :=
  inferInstanceAs (Decidable (_ ∧ _ ∧ _))

/-- The network address is an IPv4-mapped IPv6 address (::ffff:a.b.c.d), which Go's
`net` treats as the IPv4 address a.b.c.d. -/
def isMapped (n : IPNet) : Bool :=
  n.IP.length = IPv6len ∧ (To4 n.IP).length ≠ 0

/-- What is known of a network that `ParseCIDR` returned and whose address is not
IPv4-mapped. -/
structure PlainNet (n : IPNet) (L ones : Nat) : Prop where
  family : L = 4 ∨ L = 16
  mask : n.Mask = cidrMaskLoop L ones
  length : n.IP.length = L
  masked : List.zipWith (fun a b => a &&& b) n.IP n.Mask = n.IP
  bytes : ∀ b ∈ n.IP, b < 256
  plain : isMapped n = false

/-- The network of "::/0": every IPv6 address. -/
def netAll6 : IPNet := { IP := List.replicate 16 0, Mask := List.replicate 16 0 }

/-- The network of "::ffff:0:0/96": the IPv4-mapped IPv6 addresses. -/
def netMapped : IPNet :=
  { IP := [0, 0, 0, 0, 0, 0, 0, 0, 0, 0, 0xff, 0xff, 0, 0, 0, 0],
    Mask := [0xff, 0xff, 0xff, 0xff, 0xff, 0xff, 0xff, 0xff, 0xff, 0xff, 0xff, 0xff,
      0, 0, 0, 0] }

/-- The network of "::8000:0:0/81": the IPv6 addresses whose first 80 bits are zero and
whose next bit is one; every IPv4-mapped address is one of them. -/
def netHigh : IPNet :=
  { IP := [0, 0, 0, 0, 0, 0, 0, 0, 0, 0, 0x80, 0, 0, 0, 0, 0],
    Mask := [0xff, 0xff, 0xff, 0xff, 0xff, 0xff, 0xff, 0xff, 0xff, 0xff, 0x80, 0, 0, 0, 0, 0] }

/-- The network of "::ffff:10.0.0.0/104": the IPv4-mapped addresses of 10.0.0.0/8. -/
def netMappedTen : IPNet :=
  { IP := [0, 0, 0, 0, 0, 0, 0, 0, 0, 0, 0xff, 0xff, 10, 0, 0, 0],
    Mask := [0xff, 0xff, 0xff, 0xff, 0xff, 0xff, 0xff, 0xff, 0xff, 0xff, 0xff, 0xff, 0xff,
      0, 0, 0] }

end Network

/-! ## Theorems: CIDR validations -/

namespace Network

open GoNet

/-- The parsers on the examples of Go's documentation and on some malformed texts. -/
theorem ParseCIDR_examples :
    ParseCIDR "192.0.2.1/24" =
      some (IPv4 192 0 2 1, { IP := [192, 0, 2, 0], Mask := [255, 255, 255, 0] }) ∧
    ParseCIDR "2001:db8:a0b:12f0::1/32" =
      some ([0x20, 0x01, 0x0d, 0xb8, 0x0a, 0x0b, 0x12, 0xf0, 0, 0, 0, 0, 0, 0, 0, 1],
        { IP := [0x20, 0x01, 0x0d, 0xb8, 0, 0, 0, 0, 0, 0, 0, 0, 0, 0, 0, 0],
          Mask := [255, 255, 255, 255, 0, 0, 0, 0, 0, 0, 0, 0, 0, 0, 0, 0] }) ∧
    ParseCIDR "192.0.2.1" = none ∧
    ParseCIDR "192.0.2.1/33" = none ∧
    ParseCIDR "192.0.2/24" = none ∧
    ParseCIDR "1:2:3:4:5:6:7:8:9/64" = none ∧
    ParseCIDR "1::2::3/64" = none ∧
    ParseIP "::ffff:192.0.2.1" = some (IPv4 192 0 2 1) ∧
    ParseIP "192.0.2.256" = none ∧
    Contains { IP := [192, 0, 2, 0], Mask := [255, 255, 255, 0] } (IPv4 192 0 2 77) = true ∧
    Contains { IP := [192, 0, 2, 0], Mask := [255, 255, 255, 0] } (IPv4 192 0 3 77) = false := by
  decide

theorem parseIPv4_form (s : List Char) (ip : IP) (h : parseIPv4 s = some ip) :
    ∃ a b c d, ip = IPv4 a b c d := by
  unfold parseIPv4 at h
  split at h
  · cases h
  · split at h
    · cases h
    · simp only [Option.some.injEq] at h
      exact ⟨_, _, _, _, h.symm⟩

theorem parseIPv6Loop_length (fuel : Nat) :
    ∀ (st st1 : V6State), parseIPv6Loop fuel st = some st1 →
      st1.ip.length = st.ip.length := by
  induction fuel with
  | zero =>
    intro st st1 h
    simp only [parseIPv6Loop, Option.some.injEq] at h
    subst h
    rfl
  | succ k ih =>
    intro st st1 h
    simp only [parseIPv6Loop] at h
    repeat' split at h
    all_goals first
      | (cases h
         done)
      | (cases h
         simp)
      | (have h2 := ih _ _ h
         simpa using h2)

theorem shiftUp_length (n : Nat) (cnt : Nat) :
    ∀ (j : Nat) (ip : List Nat), (shiftUp n cnt j ip).length = ip.length := by
  induction cnt with
  | zero => intro j ip; rfl
  | succ k ih => intro j ip; simp [shiftUp, ih]

theorem zeroFill_length (cnt : Nat) :
    ∀ (j : Nat) (ip : List Nat), (zeroFill cnt j ip).length = ip.length := by
  induction cnt with
  | zero => intro j ip; rfl
  | succ k ih => intro j ip; simp [zeroFill, ih]

theorem parseIPv6Finish_length (st : V6State) (ip : IP) (hst : st.ip.length = 16)
    (h : parseIPv6Finish st = some ip) : ip.length = 16 := by
  simp only [parseIPv6Finish] at h
  repeat' split at h
  all_goals first
    | (cases h
       done)
    | (cases h
       simp [zeroFill_length, shiftUp_length, hst])

theorem parseIPv6Loop_finish_length (st0 : V6State) (ip : IP) (hst : st0.ip.length = 16)
    (h : (match parseIPv6Loop 8 st0 with
      | none => none
      | some st => parseIPv6Finish st) = some ip) : ip.length = 16 := by
  cases hl : parseIPv6Loop 8 st0 with
  | none =>
    rw [hl] at h
    cases h
  | some st =>
    rw [hl] at h
    have hlen := parseIPv6Loop_length _ _ _ hl
    exact parseIPv6Finish_length st ip (hlen.trans hst) h

theorem parseIPv6_length (s : List Char) (ip : IP) (h : parseIPv6 s = some ip) :
    ip.length = 16 := by
  simp only [parseIPv6] at h
  split_ifs at h
  all_goals first
    | (cases h
       simp [IPv6len])
    | exact parseIPv6Loop_finish_length _ ip (by simp [IPv6len]) h

theorem IPNet_masked (ip : IP) (m : IPMask) :
    (IPNet.mk (Mask ip m) m).IP = Mask ip (IPNet.mk (Mask ip m) m).Mask := rfl

/-- What `ParseCIDR` returns: the network address is the parsed address under the mask,
and the mask is `CIDRMask n 32` for a dotted IPv4 address, `CIDRMask n 128` otherwise. -/
theorem ParseCIDR_shape (s : String) (ip : IP) (cidr : IPNet)
    (h : ParseCIDR s = some (ip, cidr)) :
    ∃ n : Nat, cidr.IP = Mask ip cidr.Mask ∧
      ((n ≤ 32 ∧ cidr.Mask = CIDRMask n 32 ∧ ∃ a b c d, ip = IPv4 a b c d) ∨
       (n ≤ 128 ∧ cidr.Mask = CIDRMask n 128 ∧ ip.length = 16)) := by
  simp only [ParseCIDR] at h
  split at h
  · cases h
  · rename_i i hi
    cases h4 : parseIPv4 (List.take i s.toList) with
    | some ip4 =>
      simp only [h4, Option.isSome_some, if_true] at h
      split_ifs at h with hc
      simp only [Option.some.injEq, Prod.mk.injEq] at h
      obtain ⟨h1, h2⟩ := h
      subst h1
      subst h2
      refine ⟨(dtoi (List.drop (i + 1) s.toList)).1, IPNet_masked _ _,
        Or.inl ⟨?_, ?_, parseIPv4_form _ _ h4⟩⟩
      · simp only [IPv4len, Bool.or_eq_true, not_or, decide_eq_true_eq] at hc
        omega
      · simp [IPv4len]
    | none =>
      simp only [h4, Option.isSome_none, Bool.false_eq_true, if_false] at h
      cases h6 : parseIPv6 (List.take i s.toList) with
      | none =>
        rw [h6] at h
        cases h
      | some ip6 =>
        rw [h6] at h
        simp only at h
        split_ifs at h with hc
        simp only [Option.some.injEq, Prod.mk.injEq] at h
        obtain ⟨h1, h2⟩ := h
        subst h1
        subst h2
        refine ⟨(dtoi (List.drop (i + 1) s.toList)).1, IPNet_masked _ _,
          Or.inr ⟨?_, ?_, parseIPv6_length _ _ h6⟩⟩
        · simp only [IPv6len, Bool.or_eq_true, not_or, decide_eq_true_eq] at hc
          omega
        · simp [IPv6len]

theorem Size_CIDRMask_32 (n : Nat) (h : n ≤ 32) : Size (CIDRMask n 32) = ((n : Int), 32) := by
  have key : ∀ k : Fin 33, Size (CIDRMask (k.val : Int) 32) = ((k.val : Int), 32) := by decide
  exact key ⟨n, by omega⟩

theorem Size_CIDRMask_128 (n : Nat) (h : n ≤ 128) :
    Size (CIDRMask n 128) = ((n : Int), 128) := by
  have key : ∀ k : Fin 129, Size (CIDRMask (k.val : Int) 128) = ((k.val : Int), 128) := by
    decide
  exact key ⟨n, by omega⟩

theorem zipWith_land_zero (l : List Nat) :
    ∀ n : Nat, l.length = n →
      List.zipWith (fun a b => a &&& b) l (List.replicate n 0) = List.replicate n 0 := by
  induction l with
  | nil => intro n h; subst h; rfl
  | cons a t ih =>
    intro n h
    cases n with
    | zero => simp at h
    | succ k =>
      simp only [List.length_cons, Nat.add_right_cancel_iff] at h
      simp [List.replicate_succ, ih k h]

/-- A prefix length of 0 makes the network address of a parsed CIDR the zero address. -/
theorem ParseCIDR_unspecified_of_no_ones (s : String) (ip : IP) (cidr : IPNet)
    (h : ParseCIDR s = some (ip, cidr)) (hones : (Size cidr.Mask).1 < 1) :
    IsUnspecified cidr.IP = true := by
  obtain ⟨n, hip, hcase⟩ := ParseCIDR_shape s ip cidr h
  rcases hcase with ⟨hn, hm, a, b, c, d, hform⟩ | ⟨hn, hm, hlen⟩
  · rw [hm, Size_CIDRMask_32 n hn] at hones
    have hn0 : n = 0 := by
      simp only at hones
      omega
    subst hn0
    have hmask : cidr.Mask = [0, 0, 0, 0] := by
      rw [hm]
      decide
    rw [hip, hmask, hform]
    simp [Mask, IPv4, v4InV6Prefix, IPv4len, IPv6len, IsUnspecified, Equal, IPv4zero,
      IPv6unspecified]
  · rw [hm, Size_CIDRMask_128 n hn] at hones
    have hn0 : n = 0 := by
      simp only at hones
      omega
    subst hn0
    have hmask : cidr.Mask = List.replicate 16 0 := by
      rw [hm]
      decide
    have hz := zipWith_land_zero ip 16 hlen
    have hM : Mask ip (List.replicate 16 0) = List.replicate 16 0 := by
      simp only [Mask, List.length_replicate, hlen, IPv4len, IPv6len]
      norm_num
      rw [if_pos hlen]
      exact hz
    rw [hip, hmask, hM]
    decide

/-- C7: for every string that parses as a CIDR, `VerifySubnetCIDR` fails if and only if
the network address is the unspecified address, or the parsed address differs from the
network address (host bits set), or the prefix length exceeds bits-7. -/
theorem VerifySubnetCIDR_fails_iff (s : String) (ip : IP) (cidr : IPNet)
    (h : ParseCIDR s = some (ip, cidr)) :
    failed (VerifySubnetCIDR s) = true ↔
      (IsUnspecified cidr.IP = true ∨ Equal ip cidr.IP = false ∨
        (Size cidr.Mask).1 > (Size cidr.Mask).2 - 7) := by
  have hz := ParseCIDR_unspecified_of_no_ones s ip cidr h
  simp only [VerifySubnetCIDR, h]
  generalize Size cidr.Mask = sz at hz ⊢
  obtain ⟨ones, bits⟩ := sz
  simp only at hz ⊢
  by_cases h1 : ones < 1 ∨ ones > bits - 7
  · simp only [if_pos h1, failed, true_iff]
    rcases h1 with h1 | h1
    · exact Or.inl (hz h1)
    · exact Or.inr (Or.inr h1)
  · simp only [if_neg h1]
    have h1b : ¬ ones > bits - 7 := fun h2 => h1 (Or.inr h2)
    by_cases h2 : IsUnspecified cidr.IP = true
    · simp [h2, failed]
    · by_cases h3 : Equal ip cidr.IP = true
      · simp [h2, h3, failed, h1b]
      · simp [h2, h3, failed]

theorem VerifySubnetCIDR_fails_iff_witness :
    failed (VerifySubnetCIDR "10.0.0.1/8") = true ↔
      (IsUnspecified [10, 0, 0, 0] = true ∨ Equal (IPv4 10 0 0 1) [10, 0, 0, 0] = false ∨
        (Size [255, 0, 0, 0]).1 > (Size [255, 0, 0, 0]).2 - 7) :=
  VerifySubnetCIDR_fails_iff "10.0.0.1/8" (IPv4 10 0 0 1)
    { IP := [10, 0, 0, 0], Mask := [255, 0, 0, 0] } (by decide)

theorem failed_wrap (msg : String) (r : Result) : failed (wrap msg r) = failed r := by
  cases r <;> rfl

theorem failed_verifyCIDRsNotOverlap (a b : IPNet) :
    failed (verifyCIDRsNotOverlap a b) = (Contains a b.IP || Contains b a.IP) := by
  unfold verifyCIDRsNotOverlap
  cases h : (Contains a b.IP || Contains b a.IP) <;> simp [failed]

/-- On two non-empty strings that parse, `VerifyCIDRsNotOverlap` fails exactly when one
network contains the network address of the other. -/
theorem failed_VerifyCIDRsNotOverlap_parsed (a b : String) (ipa ipb : IP) (na nb : IPNet)
    (ha : a ≠ "") (hb : b ≠ "") (hpa : ParseCIDR a = some (ipa, na))
    (hpb : ParseCIDR b = some (ipb, nb)) :
    failed (VerifyCIDRsNotOverlap a b) = (Contains na nb.IP || Contains nb na.IP) := by
  have hne : ¬ (a = "" ∨ b = "") := by
    rintro (h | h)
    · exact ha h
    · exact hb h
  simp only [VerifyCIDRsNotOverlap, if_neg hne, hpa, hpb, failed_verifyCIDRsNotOverlap]

/-- C5: `VerifyCIDRsNotOverlap a b` succeeds whenever `a` or `b` is the empty string,
whatever the other string is; and when both are non-empty and parse as CIDRs it fails
exactly when the network of `a` contains the network address of `b` or the network of `b`
contains the network address of `a`. -/
theorem VerifyCIDRsNotOverlap_empty_or_overlap (a b : String) :
    ((a = "" ∨ b = "") → VerifyCIDRsNotOverlap a b = .ok ()) ∧
    (∀ (ipa ipb : IP) (na nb : IPNet), a ≠ "" → b ≠ "" →
      ParseCIDR a = some (ipa, na) → ParseCIDR b = some (ipb, nb) →
      (failed (VerifyCIDRsNotOverlap a b) = true ↔
        (Contains na nb.IP = true ∨ Contains nb na.IP = true))) := by
  constructor
  · intro h
    simp [VerifyCIDRsNotOverlap, h]
  · intro ipa ipb na nb ha hb hpa hpb
    rw [failed_VerifyCIDRsNotOverlap_parsed a b ipa ipb na nb ha hb hpa hpb,
      Bool.or_eq_true]

theorem VerifyCIDRsNotOverlap_empty_or_overlap_witness :
    VerifyCIDRsNotOverlap "" "not a cidr" = .ok () ∧
    failed (VerifyCIDRsNotOverlap "10.128.0.0/14" "10.129.0.0/16") = true :=
  ⟨(VerifyCIDRsNotOverlap_empty_or_overlap "" "not a cidr").1 (Or.inl rfl),
   ((VerifyCIDRsNotOverlap_empty_or_overlap "10.128.0.0/14" "10.129.0.0/16").2
      (IPv4 10 128 0 0) (IPv4 10 129 0 0)
      { IP := [10, 128, 0, 0], Mask := [255, 252, 0, 0] }
      { IP := [10, 129, 0, 0], Mask := [255, 255, 0, 0] }
      (by decide) (by decide) (by decide) (by decide)).mpr (Or.inl (by decide))⟩

/-- C6: `VerifyCIDRsNotOverlap` is symmetric: for all strings `a` and `b`, the call on
`(a, b)` fails if and only if the call on `(b, a)` fails. -/
theorem VerifyCIDRsNotOverlap_symm (a b : String) :
    failed (VerifyCIDRsNotOverlap a b) = true ↔ failed (VerifyCIDRsNotOverlap b a) = true := by
  unfold VerifyCIDRsNotOverlap
  by_cases h : a = "" ∨ b = ""
  · have h2 : b = "" ∨ a = "" := h.symm
    simp [h, h2, failed]
  · have h2 : ¬ (b = "" ∨ a = "") := fun h3 => h h3.symm
    simp only [if_neg h, if_neg h2]
    cases hpa : ParseCIDR a with
    | none =>
      cases hpb : ParseCIDR b with
      | none => simp [failed]
      | some pb => simp [failed]
    | some pa =>
      cases hpb : ParseCIDR b with
      | none => simp [failed]
      | some pb =>
        simp only [failed_verifyCIDRsNotOverlap, Bool.or_eq_true]
        exact Or.comm

/-- C8: at the IPv6 cluster CIDR "fd00::/8" (prefix length 8, 128 address bits) with host
prefix 80 and 5 hosts, the host prefix is at most bits-7 and 2^(80-8) is at least
max(4, 5), yet `VerifyClusterCidrSize` fails: the capacity `uint64(1) << 72` is 0. -/
theorem VerifyClusterCidrSize_fails_on_wide_ipv6 :
    (ParseCIDR "fd00::/8").map (fun p => Size p.2.Mask) = some (8, 128) ∧
    (80 : Int) ≤ 128 - 7 ∧
    (2 : Int) ^ (max (80 - 8) 0).toNat ≥ max 4 5 ∧
    shl1 (max (wrapInt (80 - 8)) 0) = 0 ∧
    failed (VerifyClusterCidrSize 80 "fd00::/8" 5) = true := by
  decide

theorem failed_eq_false_iff (r : Result) : failed r = false ↔ r = .ok () := by
  cases r <;> simp [failed]

/-- C9: `VerifyClusterCIDRsNotOverlap machine cluster service` succeeds if and only if
the three pairs (machine, service), (machine, cluster) and (service, cluster) all pass
`VerifyCIDRsNotOverlap`; so when it succeeds on three non-empty strings that parse as
CIDRs, no network of the three contains the network address of another. -/
theorem VerifyClusterCIDRsNotOverlap_iff_pairs (machine cluster service : String) :
    (failed (VerifyClusterCIDRsNotOverlap machine cluster service) = false ↔
      (failed (VerifyCIDRsNotOverlap machine service) = false ∧
       failed (VerifyCIDRsNotOverlap machine cluster) = false ∧
       failed (VerifyCIDRsNotOverlap service cluster) = false)) ∧
    (∀ (ipm ipc ips : IP) (nm nc ns : IPNet),
      machine ≠ "" → cluster ≠ "" → service ≠ "" →
      ParseCIDR machine = some (ipm, nm) → ParseCIDR cluster = some (ipc, nc) →
      ParseCIDR service = some (ips, ns) →
      failed (VerifyClusterCIDRsNotOverlap machine cluster service) = false →
      (Contains nm ns.IP = false ∧ Contains ns nm.IP = false) ∧
      (Contains nm nc.IP = false ∧ Contains nc nm.IP = false) ∧
      (Contains ns nc.IP = false ∧ Contains nc ns.IP = false)) := by
  have key : failed (VerifyClusterCIDRsNotOverlap machine cluster service) = false ↔
      (failed (VerifyCIDRsNotOverlap machine service) = false ∧
       failed (VerifyCIDRsNotOverlap machine cluster) = false ∧
       failed (VerifyCIDRsNotOverlap service cluster) = false) := by
    unfold VerifyClusterCIDRsNotOverlap
    cases h1 : VerifyCIDRsNotOverlap machine service with
    | error e => simp [failed, wrap]
    | ok u =>
      cases h2 : VerifyCIDRsNotOverlap machine cluster with
      | error e => simp [failed, wrap]
      | ok u2 =>
        cases h3 : VerifyCIDRsNotOverlap service cluster with
        | error e => simp [failed, wrap]
        | ok u3 => simp [failed]
  refine ⟨key, ?_⟩
  intro ipm ipc ips nm nc ns hm hc hs hpm hpc hps hok
  obtain ⟨h1, h2, h3⟩ := key.mp hok
  have e1 := failed_VerifyCIDRsNotOverlap_parsed machine service ipm ips nm ns hm hs hpm hps
  have e2 := failed_VerifyCIDRsNotOverlap_parsed machine cluster ipm ipc nm nc hm hc hpm hpc
  have e3 := failed_VerifyCIDRsNotOverlap_parsed service cluster ips ipc ns nc hs hc hps hpc
  rw [h1] at e1
  rw [h2] at e2
  rw [h3] at e3
  exact ⟨Bool.or_eq_false_iff.mp e1.symm, Bool.or_eq_false_iff.mp e2.symm,
    Bool.or_eq_false_iff.mp e3.symm⟩

theorem VerifyClusterCIDRsNotOverlap_iff_pairs_witness :
    failed (VerifyClusterCIDRsNotOverlap "192.168.1.0/24" "10.128.0.0/14" "172.30.0.0/16")
      = false ∧
    ((Contains { IP := [192, 168, 1, 0], Mask := [255, 255, 255, 0] } [172, 30, 0, 0] = false ∧
      Contains { IP := [172, 30, 0, 0], Mask := [255, 255, 0, 0] } [192, 168, 1, 0] = false) ∧
     (Contains { IP := [192, 168, 1, 0], Mask := [255, 255, 255, 0] } [10, 128, 0, 0] = false ∧
      Contains { IP := [10, 128, 0, 0], Mask := [255, 252, 0, 0] } [192, 168, 1, 0] = false) ∧
     (Contains { IP := [172, 30, 0, 0], Mask := [255, 255, 0, 0] } [10, 128, 0, 0] = false ∧
      Contains { IP := [10, 128, 0, 0], Mask := [255, 252, 0, 0] } [172, 30, 0, 0] = false)) :=
  ⟨by decide,
   (VerifyClusterCIDRsNotOverlap_iff_pairs "192.168.1.0/24" "10.128.0.0/14" "172.30.0.0/16").2
     (IPv4 192 168 1 0) (IPv4 10 128 0 0) (IPv4 172 30 0 0)
     { IP := [192, 168, 1, 0], Mask := [255, 255, 255, 0] }
     { IP := [10, 128, 0, 0], Mask := [255, 252, 0, 0] }
     { IP := [172, 30, 0, 0], Mask := [255, 255, 0, 0] }
     (by decide) (by decide) (by decide) (by decide) (by decide) (by decide) (by decide)⟩

end Network

/-! ## Theorems: the connectivity map -/

namespace Network

open GoNet

theorem toList_lt_iff (a b : UUID) : a.toList < b.toList ↔ a < b :=
  String.lt_iff_toList_lt.symm

theorem makeKey_comm (a b : UUID) : makeKey a b = makeKey b a := by
  unfold makeKey
  rcases lt_trichotomy a b with h | h | h
  · have h2 : ¬ b.toList < a.toList := fun h3 =>
      (not_lt.mpr h.le) ((toList_lt_iff b a).mp h3)
    rw [if_pos ((toList_lt_iff a b).mpr h), if_neg h2]
  · subst h
    rfl
  · have h2 : ¬ a.toList < b.toList := fun h3 =>
      (not_lt.mpr h.le) ((toList_lt_iff a b).mp h3)
    rw [if_neg h2, if_pos ((toList_lt_iff b a).mpr h)]

theorem makeKey_first (a b : UUID) :
    (makeKey a b).first = a ∧ (makeKey a b).second = b ∨
    (makeKey a b).first = b ∧ (makeKey a b).second = a := by
  unfold makeKey
  split
  · exact Or.inl ⟨rfl, rfl⟩
  · exact Or.inr ⟨rfl, rfl⟩

theorem makeKey_eq (u v f t : UUID) (h : makeKey u v = makeKey f t) :
    (u = f ∧ v = t) ∨ (u = t ∧ v = f) := by
  have h1 := makeKey_first u v
  have h2 := makeKey_first f t
  rw [h] at h1
  rcases h1 with ⟨a1, a2⟩ | ⟨a1, a2⟩ <;> rcases h2 with ⟨b1, b2⟩ | ⟨b1, b2⟩
  · exact Or.inl ⟨a1.symm.trans b1, a2.symm.trans b2⟩
  · exact Or.inr ⟨a1.symm.trans b1, a2.symm.trans b2⟩
  · exact Or.inr ⟨a2.symm.trans b2, a1.symm.trans b1⟩
  · exact Or.inl ⟨a2.symm.trans b2, a1.symm.trans b1⟩

/-- An `add` records its own direction and leaves every other direction as it was. -/
theorem directed_add (c : connectivityMap) (f t u v : UUID) :
    (c.add f t true).directed u v = true ↔ ((u = f ∧ v = t) ∨ c.directed u v = true) := by
  by_cases hk : makeKey u v = makeKey f t
  · rcases makeKey_eq u v f t hk with ⟨h1, h2⟩ | ⟨h1, h2⟩
    · subst h1
      subst h2
      simp only [connectivityMap.directed, connectivityMap.add, if_true, true_and, true_or,
        iff_true]
      split_ifs <;> rfl
    · subst h1
      subst h2
      by_cases hft : u = v
      · subst hft
        simp only [connectivityMap.directed, connectivityMap.add, if_true, true_and, true_or,
          iff_true]
        split_ifs <;> rfl
      · have hne : ¬ (u = v ∧ v = u) := fun h => hft h.1
        simp only [hne, false_or]
        simp only [connectivityMap.directed, connectivityMap.add, hk, if_true]
        rcases makeKey_first v u with ⟨a1, _⟩ | ⟨a1, _⟩
        · have hu : ¬ u = (makeKey v u).first := by
            rw [a1]
            exact hft
          have hv : v = (makeKey v u).first := a1.symm
          simp only [if_neg hu, if_pos hv]
          cases hg : c.get (makeKey v u) <;> simp
        · have hu : u = (makeKey v u).first := a1.symm
          have hv : ¬ v = (makeKey v u).first := by
            rw [a1]
            exact fun h => hft h.symm
          simp only [if_pos hu, if_neg hv]
          cases hg : c.get (makeKey v u) <;> simp
  · have hne : ¬ (u = f ∧ v = t) := by
      rintro ⟨h1, h2⟩
      exact hk (by rw [h1, h2])
    simp only [hne, false_or]
    simp only [connectivityMap.directed, connectivityMap.add, if_neg hk]

/-- Two different hosts are connected exactly when both directions are recorded. -/
theorem isConnected_iff (c : connectivityMap) (u v : UUID) (hne : u ≠ v) :
    c.isConnected u v = true ↔ (c.directed u v = true ∧ c.directed v u = true) := by
  simp only [connectivityMap.isConnected, connectivityMap.directed, makeKey_comm v u]
  rcases makeKey_first u v with ⟨a1, a2⟩ | ⟨a1, a2⟩
  · have hu : u = (makeKey u v).first := a1.symm
    have hv : ¬ v = (makeKey u v).first := by
      rw [a1]
      exact fun h => hne h.symm
    simp only [if_pos hu, if_neg hv]
    cases hg : c.get (makeKey u v) <;> simp
  · have hu : ¬ u = (makeKey u v).first := by
      rw [a1]
      exact hne
    have hv : v = (makeKey u v).first := a1.symm
    simp only [if_neg hu, if_pos hv]
    cases hg : c.get (makeKey u v) <;> simp [and_comm]

theorem directed_addFirstSuccessful (net : IPNet) (f t : UUID) (l2s : List L2Connectivity) :
    ∀ (m : connectivityMap) (u v : UUID),
      (addFirstSuccessful net f t l2s m).directed u v = true ↔
        ((u = f ∧ v = t ∧ l2s.any (l2OnCidr net) = true) ∨ m.directed u v = true) := by
  induction l2s with
  | nil =>
    intro m u v
    simp [addFirstSuccessful]
  | cons l2 rest ih =>
    intro m u v
    simp only [addFirstSuccessful, List.any_cons, Bool.or_eq_true]
    cases hp : ParseIP l2.OutgoingIPAddress with
    | none =>
      simp only [ih, l2OnCidr, hp, Bool.false_eq_true, false_or]
    | some ip =>
      simp only
      by_cases hg : (Contains net ip && l2.Successful) = true
      · simp only [hg, if_true, directed_add, l2OnCidr, hp, true_or, and_true]
      · simp only [hg, if_false, ih, l2OnCidr, hp, false_or, Bool.false_eq_true]

theorem directed_foldl_remote (net : IPNet) (hid : UUID) (rs : List ConnectivityRemoteHost) :
    ∀ (m : connectivityMap) (u v : UUID),
      (rs.foldl (fun m r => addFirstSuccessful net hid r.HostID r.L2Connectivity m) m).directed
          u v = true ↔
        ((u = hid ∧ rs.any (fun rh => rh.HostID = v &&
            rh.L2Connectivity.any (l2OnCidr net)) = true) ∨ m.directed u v = true) := by
  induction rs with
  | nil =>
    intro m u v
    simp
  | cons r rest ih =>
    intro m u v
    simp only [List.foldl_cons, ih, directed_addFirstSuccessful, List.any_cons,
      Bool.or_eq_true, Bool.and_eq_true, decide_eq_true_eq]
    constructor
    · rintro (⟨h1, h2⟩ | ⟨h1, h2, h3⟩ | h)
      · exact Or.inl ⟨h1, Or.inr h2⟩
      · exact Or.inl ⟨h1, Or.inl ⟨h2.symm, h3⟩⟩
      · exact Or.inr h
    · rintro (⟨h1, ⟨h2, h3⟩ | h2⟩ | h)
      · exact Or.inr (Or.inl ⟨h1, h2.symm, h3⟩)
      · exact Or.inl ⟨h1, h2⟩
      · exact Or.inr (Or.inr h)

theorem directed_addHostReports (net : IPNet) (hosts : List Host) :
    ∀ (m m1 : connectivityMap), addHostReports net hosts m = .ok m1 → ∀ (u v : UUID),
      (m1.directed u v = true ↔ (edge net hosts u v = true ∨ m.directed u v = true)) := by
  induction hosts with
  | nil =>
    intro m m1 h u v
    simp only [addHostReports, Except.ok.injEq] at h
    subst h
    simp [edge]
  | cons h0 rest ih =>
    intro m m1 h u v
    unfold addHostReports at h
    cases hc : h0.Connectivity with
    | empty =>
      rw [hc] at h
      simp only at h
      rw [ih m m1 h u v]
      simp [edge, reportsEdge, hc]
    | malformed =>
      rw [hc] at h
      cases h
    | report r =>
      rw [hc] at h
      simp only at h
      rw [ih _ m1 h u v, directed_foldl_remote]
      simp only [edge, reportsEdge, hc, List.any_cons, Bool.or_eq_true, Bool.and_eq_true,
        decide_eq_true_eq]
      constructor
      · rintro (h1 | ⟨h1, h2⟩ | h1)
        · exact Or.inl (Or.inr h1)
        · exact Or.inl (Or.inl ⟨h1.symm, h2⟩)
        · exact Or.inr h1
      · rintro ((⟨h1, h2⟩ | h1) | h1)
        · exact Or.inr (Or.inl ⟨h1.symm, h2⟩)
        · exact Or.inl h1
        · exact Or.inr (Or.inr h1)

theorem addHostReports_ok (net : IPNet) (hosts : List Host) (hp : reportsParse hosts = true) :
    ∀ m : connectivityMap, ∃ m1, addHostReports net hosts m = .ok m1 := by
  induction hosts with
  | nil =>
    intro m
    exact ⟨m, rfl⟩
  | cons h0 rest ih =>
    intro m
    simp only [reportsParse, List.all_cons, Bool.and_eq_true, decide_eq_true_eq] at hp
    have hrest : reportsParse rest = true := by
      simpa [reportsParse] using hp.2
    unfold addHostReports
    cases hc : h0.Connectivity with
    | empty => exact ih hrest m
    | malformed => exact absurd hc hp.1
    | report r => exact ih hrest _

/-- The map built from the reports records the direction `u → v` exactly when some host
with id `u` reports a successful L2 entry toward `v` inside the CIDR. -/
theorem directed_createMap (cidr : String) (hosts : List Host) (ip : IP) (net : IPNet)
    (cMap : connectivityMap) (hp : ParseCIDR cidr = some (ip, net))
    (h : createMachineCidrConnectivityMap cidr hosts = .ok cMap) (u v : UUID) :
    cMap.directed u v = true ↔ edge net hosts u v = true := by
  simp only [createMachineCidrConnectivityMap, hp] at h
  rw [directed_addHostReports net hosts _ cMap h u v]
  simp [connectivityMap.directed]

theorem isConnected_createMap (cidr : String) (hosts : List Host) (ip : IP) (net : IPNet)
    (cMap : connectivityMap) (hp : ParseCIDR cidr = some (ip, net))
    (h : createMachineCidrConnectivityMap cidr hosts = .ok cMap) (u v : UUID) (hne : u ≠ v) :
    cMap.isConnected u v = true ↔ mutualEdge net hosts u v = true := by
  rw [isConnected_iff cMap u v hne, directed_createMap cidr hosts ip net cMap hp h,
    directed_createMap cidr hosts ip net cMap hp h]
  simp [mutualEdge]

/-! ## Theorems: sets, candidates and the group list -/

theorem intersect_eq (c other : connectivitySet) : c.intersect other = c ∩ other := by
  unfold connectivitySet.intersect
  ext x
  by_cases h : c.card < other.card
  · simp [h, Finset.mem_filter, Finset.mem_inter]
  · simp [h, Finset.mem_filter, Finset.mem_inter, and_comm]

theorem equals_iff (c other : connectivitySet) : c.equals other = true ↔ c = other := by
  unfold connectivitySet.equals
  rw [intersect_eq]
  constructor
  · intro h
    by_cases hc : c.card ≠ other.card
    · simp [hc] at h
    · simp only [hc, if_false, decide_eq_true_eq] at h
      have hsub : c ⊆ other := by
        have h1 : c ∩ other = c :=
          Finset.eq_of_subset_of_card_le Finset.inter_subset_left (le_of_eq h.symm)
        exact Finset.inter_eq_left.mp h1
      exact Finset.eq_of_subset_of_card_le hsub (le_of_eq (not_not.mp hc).symm)
  · intro h
    subst h
    simp

theorem isSupersetOf_iff (c other : connectivitySet) :
    c.isSupersetOf other = true ↔ other ⊆ c := by
  unfold connectivitySet.isSupersetOf
  rw [intersect_eq]
  simp only [decide_eq_true_eq]
  constructor
  · intro h
    have h1 : c ∩ other = other :=
      Finset.eq_of_subset_of_card_le Finset.inter_subset_right (le_of_eq h.symm)
    exact Finset.inter_eq_right.mp h1
  · intro h
    rw [Finset.inter_eq_right.mpr h]

theorem mem_foldl_connected (cMap : connectivityMap) (id : UUID) (hosts : List Host) :
    ∀ (acc : connectivitySet) (x : UUID),
      x ∈ hosts.foldl (fun (set : connectivitySet) h =>
        if cMap.isConnected id h.ID then set.add h.ID else set) acc ↔
      (x ∈ acc ∨ ∃ h ∈ hosts, h.ID = x ∧ cMap.isConnected id x = true) := by
  induction hosts with
  | nil =>
    intro acc x
    simp
  | cons h0 rest ih =>
    intro acc x
    simp only [List.foldl_cons, ih, List.mem_cons, exists_eq_or_imp]
    by_cases hc : cMap.isConnected id h0.ID = true
    · simp only [hc, if_true, connectivitySet.add, Finset.mem_insert]
      constructor
      · rintro ((h1 | h1) | h1)
        · subst h1
          exact Or.inr (Or.inl ⟨rfl, hc⟩)
        · exact Or.inl h1
        · exact Or.inr (Or.inr h1)
      · rintro (h1 | ⟨h1, _⟩ | h1)
        · exact Or.inl (Or.inr h1)
        · exact Or.inl (Or.inl h1.symm)
        · exact Or.inr h1
    · simp only [hc, if_false, Bool.false_eq_true]
      constructor
      · rintro (h1 | h1)
        · exact Or.inl h1
        · exact Or.inr (Or.inr h1)
      · rintro (h1 | ⟨h1, h2⟩ | h1)
        · exact Or.inl h1
        · subst h1
          exact absurd h2 hc
        · exact Or.inr h1

/-- The candidate set of a host: the host itself and the hosts it is connected to. -/
theorem mem_candidate (host : Host) (hosts : List Host) (cMap : connectivityMap) (x : UUID) :
    x ∈ (createHostGroupCandidate host hosts cMap).set ↔
      (x = host.ID ∨ ∃ h ∈ hosts, h.ID = x ∧ cMap.isConnected host.ID x = true) := by
  unfold createHostGroupCandidate
  rw [mem_foldl_connected]
  simp only [connectivitySet.add, Finset.mem_insert, Finset.not_mem_empty, or_false]

theorem candidate_me (host : Host) (hosts : List Host) (cMap : connectivityMap) :
    (createHostGroupCandidate host hosts cMap).me = host.ID := rfl

/-- The sets of a group list, in order. -/
theorem containsSet_iff (c : connectivityGroupList) (cs : connectivitySet) :
    c.containsSet cs = true ↔ cs ∈ c.map (fun g => g.set) := by
  simp only [connectivityGroupList.containsSet, List.any_eq_true, equals_iff, List.mem_map]

theorem mem_addSet (c : connectivityGroupList) (cs x : connectivitySet) :
    x ∈ (c.addSet cs).map (fun g => g.set) ↔ (x ∈ c.map (fun g => g.set) ∨ x = cs) := by
  unfold connectivityGroupList.addSet
  by_cases h : c.containsSet cs = true
  · simp only [h, Bool.not_true, Bool.false_eq_true, if_false]
    constructor
    · exact Or.inl
    · rintro (h1 | h1)
      · exact h1
      · subst h1
        exact (containsSet_iff c x).mp h
  · simp only [Bool.not_eq_true] at h
    simp [h]

theorem mem_foldl_addSet (pending : List connectivitySet) :
    ∀ (c : connectivityGroupList) (x : connectivitySet),
      x ∈ (pending.foldl connectivityGroupList.addSet c).map (fun g => g.set) ↔
        (x ∈ c.map (fun g => g.set) ∨ x ∈ pending) := by
  induction pending with
  | nil =>
    intro c x
    simp
  | cons p rest ih =>
    intro c x
    simp only [List.foldl_cons, ih, mem_addSet, List.mem_cons]
    tauto

/-- What one round of gathering adds: the candidate's set and its intersections of
size at least 3 with the sets gathered before. -/
theorem mem_gatherCandidate (c : connectivityGroupList) (cand : groupCandidate)
    (x : connectivitySet) :
    x ∈ (gatherCandidate c cand).map (fun g => g.set) ↔
      (x ∈ c.map (fun g => g.set) ∨ x = cand.set ∨
        ∃ G ∈ c.map (fun g => g.set), x = cand.set ∩ G ∧ 3 ≤ (cand.set ∩ G).card) := by
  unfold gatherCandidate
  rw [mem_foldl_addSet]
  simp only [List.mem_cons, List.mem_filterMap, intersect_eq]
  constructor
  · rintro (h | h | ⟨g, hg, h⟩)
    · exact Or.inl h
    · exact Or.inr (Or.inl h)
    · split_ifs at h with h3
      simp only [Option.some.injEq] at h
      exact Or.inr (Or.inr ⟨g.set, List.mem_map.mpr ⟨g, hg, rfl⟩, h.symm, h3⟩)
  · rintro (h | h | ⟨G, hG, h, h3⟩)
    · exact Or.inl h
    · exact Or.inr (Or.inl h)
    · obtain ⟨g, hg, hgG⟩ := List.mem_map.mp hG
      subst hgG
      refine Or.inr (Or.inr ⟨g, hg, ?_⟩)
      simp only [ge_iff_le, h3, if_true, h]

theorem count_zero_addSet (c : connectivityGroupList) (cs : connectivitySet)
    (h : ∀ g ∈ c, g.count = 0) : ∀ g ∈ c.addSet cs, g.count = 0 := by
  unfold connectivityGroupList.addSet
  split_ifs
  · intro g hg
    rcases List.mem_append.mp hg with hg | hg
    · exact h g hg
    · simp only [List.mem_singleton] at hg
      subst hg
      rfl
  · exact h

theorem count_zero_foldl_addSet (pending : List connectivitySet) :
    ∀ c : connectivityGroupList, (∀ g ∈ c, g.count = 0) →
      ∀ g ∈ pending.foldl connectivityGroupList.addSet c, g.count = 0 := by
  induction pending with
  | nil =>
    intro c h
    exact h
  | cons p rest ih =>
    intro c h
    exact ih _ (count_zero_addSet c p h)

theorem count_zero_gathered (cands : List groupCandidate) :
    ∀ c : connectivityGroupList, (∀ g ∈ c, g.count = 0) →
      ∀ g ∈ cands.foldl gatherCandidate c, g.count = 0 := by
  induction cands with
  | nil =>
    intro c h
    exact h
  | cons cand rest ih =>
    intro c h
    exact ih _ (count_zero_foldl_addSet _ c h)

/-- The second loop adds to the count of every group the number of candidates that
contain the group and are members of it; the sets stay as they are. -/
theorem foldl_countCandidate (cands : List groupCandidate) :
    ∀ c : connectivityGroupList,
      cands.foldl countCandidate c = c.map (fun g =>
        { set := g.set,
          count := g.count + cands.countP (fun cand =>
            cand.set.isSupersetOf g.set && g.set.containsElement cand.me) }) := by
  induction cands with
  | nil =>
    intro c
    simp
  | cons cand rest ih =>
    intro c
    rw [List.foldl_cons, ih, countCandidate, List.map_map]
    apply List.map_congr_left
    intro g _
    simp only [Function.comp, List.countP_cons]
    by_cases hc : (cand.set.isSupersetOf g.set && g.set.containsElement cand.me) = true
    · simp only [hc, if_true]
      congr 1
      omega
    · simp only [hc, if_false, Bool.false_eq_true, Nat.add_zero]

theorem sortGroups_perm (l : List connectivitySet) : (sortGroups l).Perm l :=
  List.perm_insertionSort _ l

/-- The sets returned by `createConnectivityGroups`: the gathered sets whose size is the
number of candidates that contain the set and are members of it. -/
theorem mem_createConnectivityGroups (cands : List groupCandidate) (G : connectivitySet) :
    G ∈ createConnectivityGroups cands ↔
      (G ∈ (cands.foldl gatherCandidate []).map (fun g => g.set) ∧
        G.card = cands.countP (fun cand =>
          cand.set.isSupersetOf G && G.containsElement cand.me)) := by
  unfold createConnectivityGroups
  simp only
  rw [(sortGroups_perm _).mem_iff, foldl_countCandidate]
  have hz := count_zero_gathered cands [] (by simp)
  simp only [List.mem_filterMap, List.mem_map]
  constructor
  · rintro ⟨g, ⟨g0, hg0, hg⟩, h⟩
    subst hg
    simp only [hz g0 hg0, Nat.zero_add] at h
    split_ifs at h with hcard
    simp only [Option.some.injEq] at h
    subst h
    exact ⟨⟨g0, hg0, rfl⟩, hcard⟩
  · rintro ⟨⟨g0, hg0, hg⟩, hcard⟩
    subst hg
    refine ⟨_, ⟨g0, hg0, rfl⟩, ?_⟩
    simp only [hz g0 hg0, Nat.zero_add, hcard, if_true]

/-! ## Theorems: the majority group -/

/-- In a list of candidates with pairwise different owners, every member of a returned
set owns a candidate whose set contains the whole returned set. -/
theorem group_members_own_supersets (cands : List groupCandidate)
    (hnd : (cands.map (fun c => c.me)).Nodup) (G : connectivitySet)
    (hG : G ∈ createConnectivityGroups cands) :
    ∀ g ∈ G, ∃ c ∈ cands, c.me = g ∧ G ⊆ c.set := by
  obtain ⟨_, hcard⟩ := (mem_createConnectivityGroups cands G).mp hG
  rw [List.countP_eq_length_filter] at hcard
  set F := cands.filter (fun cand => cand.set.isSupersetOf G && G.containsElement cand.me)
    with hF
  have hFnd : (F.map (fun c => c.me)).Nodup :=
    hnd.sublist ((List.filter_sublist _).map _)
  have hsub : (F.map (fun c => c.me)).toFinset ⊆ G := by
    intro x hx
    simp only [List.mem_toFinset, List.mem_map] at hx
    obtain ⟨c, hc, rfl⟩ := hx
    rw [hF, List.mem_filter] at hc
    simp only [Bool.and_eq_true, connectivitySet.containsElement, decide_eq_true_eq] at hc
    exact hc.2.2
  have hcardT : (F.map (fun c => c.me)).toFinset.card = G.card := by
    rw [List.toFinset_card_of_nodup hFnd, List.length_map, hcard]
  have hEq : (F.map (fun c => c.me)).toFinset = G :=
    Finset.eq_of_subset_of_card_le hsub (le_of_eq hcardT.symm)
  intro g hg
  rw [← hEq] at hg
  simp only [List.mem_toFinset, List.mem_map] at hg
  obtain ⟨c, hc, rfl⟩ := hg
  rw [hF, List.mem_filter] at hc
  simp only [Bool.and_eq_true, isSupersetOf_iff] at hc
  exact ⟨c, hc.1, rfl, hc.2.1⟩

theorem mem_majorityCandidates (hosts : List Host) (cMap : connectivityMap)
    (c : groupCandidate) :
    c ∈ majorityCandidates hosts cMap ↔
      ∃ h ∈ hosts, c = createHostGroupCandidate h hosts cMap ∧ 3 ≤ c.set.card := by
  unfold majorityCandidates
  simp only [List.mem_filterMap]
  constructor
  · rintro ⟨h, hh, hc⟩
    split_ifs at hc with h3
    simp only [Option.some.injEq] at hc
    subst hc
    exact ⟨h, hh, rfl, h3⟩
  · rintro ⟨h, hh, hc, h3⟩
    subst hc
    refine ⟨h, hh, ?_⟩
    simp only [ge_iff_le, h3, if_true]

theorem majorityCandidates_me_sublist (hosts : List Host) (cMap : connectivityMap)
    (l : List Host) :
    ((l.filterMap (fun h =>
      let candidate := createHostGroupCandidate h hosts cMap
      if candidate.set.card ≥ 3 then some (createHostGroupCandidate h hosts cMap)
      else none)).map (fun c => c.me)).Sublist (l.map (fun h => h.ID)) := by
  induction l with
  | nil => simp
  | cons h0 rest ih =>
    simp only [List.filterMap_cons, List.map_cons]
    split
    · rename_i hnone
      exact ih.cons _
    · rename_i c hsome
      split_ifs at hsome
      simp only [Option.some.injEq] at hsome
      subst hsome
      simp only [List.map_cons, candidate_me]
      exact ih.cons₂ _

theorem majorityCandidates_me_nodup (hosts : List Host) (cMap : connectivityMap)
    (hids : (hosts.map (fun h => h.ID)).Nodup) :
    ((majorityCandidates hosts cMap).map (fun c => c.me)).Nodup :=
  hids.sublist (majorityCandidates_me_sublist hosts cMap hosts)

theorem CreateMajorityGroup_eq (order : RangeOrder) (cidr : String) (hosts : List Host) :
    CreateMajorityGroup order cidr hosts =
      match createMachineCidrConnectivityMap cidr hosts with
      | .error err => .error err
      | .ok cMap =>
        match createConnectivityGroups (majorityCandidates hosts cMap) with
        | g :: _ => .ok (g.toList order)
        | [] => .ok [] := rfl

theorem CreateMajorityGroup_of_map (order : RangeOrder) (cidr : String) (hosts : List Host)
    (cMap : connectivityMap) (hmap : createMachineCidrConnectivityMap cidr hosts = .ok cMap) :
    CreateMajorityGroup order cidr hosts =
      .ok (match createConnectivityGroups (majorityCandidates hosts cMap) with
        | g :: _ => g.toList order
        | [] => []) := by
  rw [CreateMajorityGroup_eq, hmap]
  dsimp only
  generalize createConnectivityGroups (majorityCandidates hosts cMap) = l
  cases l <;> rfl

theorem createMap_ok (cidr : String) (hosts : List Host) (ip : IP) (net : IPNet)
    (hp : ParseCIDR cidr = some (ip, net)) (hparse : reportsParse hosts = true) :
    ∃ cMap, createMachineCidrConnectivityMap cidr hosts = .ok cMap := by
  simp only [createMachineCidrConnectivityMap, hp]
  exact addHostReports_ok net hosts hparse _

/-- C1: for a CIDR that parses and hosts with pairwise-distinct ids whose connectivity
reports parse, `CreateMajorityGroup` returns a group that is fully meshed: every member
is the id of a host of the list, and of any two distinct members each has a successful L2
report toward the other with an outgoing address inside the CIDR. -/
theorem CreateMajorityGroup_fully_meshed (order : RangeOrder) (cidr : String)
    (hosts : List Host) (ip : IP) (net : IPNet)
    (hcidr : ParseCIDR cidr = some (ip, net))
    (hids : (hosts.map (fun h => h.ID)).Nodup)
    (hparse : reportsParse hosts = true) :
    ∃ group, CreateMajorityGroup order cidr hosts = .ok group ∧
      (∀ u ∈ group, ∃ h ∈ hosts, h.ID = u) ∧
      (∀ u ∈ group, ∀ v ∈ group, u ≠ v →
        edge net hosts u v = true ∧ edge net hosts v u = true) := by
  obtain ⟨cMap, hmap⟩ := createMap_ok cidr hosts ip net hcidr hparse
  rw [CreateMajorityGroup_of_map order cidr hosts cMap hmap]
  cases hg : createConnectivityGroups (majorityCandidates hosts cMap) with
  | nil =>
    refine ⟨[], rfl, ?_, ?_⟩
    · intro u hu
      cases hu
    · intro u hu
      cases hu
  | cons G rest =>
    refine ⟨G.toList order, rfl, ?_, ?_⟩
    all_goals
      have hG : G ∈ createConnectivityGroups (majorityCandidates hosts cMap) := by
        rw [hg]
        exact List.mem_cons_self _ _
      have hown := group_members_own_supersets _
        (majorityCandidates_me_nodup hosts cMap hids) G hG
    · intro u hu
      have huG : u ∈ G := (order.mem G u).mp hu
      obtain ⟨c, hc, hme, _⟩ := hown u huG
      obtain ⟨h, hh, hceq, _⟩ := (mem_majorityCandidates hosts cMap c).mp hc
      refine ⟨h, hh, ?_⟩
      rw [← hme, hceq, candidate_me]
    · intro u hu v hv hne
      have huG : u ∈ G := (order.mem G u).mp hu
      have hvG : v ∈ G := (order.mem G v).mp hv
      obtain ⟨c, hc, hme, hsub⟩ := hown u huG
      obtain ⟨h, hh, hceq, _⟩ := (mem_majorityCandidates hosts cMap c).mp hc
      have hid : h.ID = u := by
        rw [← hme, hceq, candidate_me]
      have hvc : v ∈ (createHostGroupCandidate h hosts cMap).set := by
        rw [← hceq]
        exact hsub hvG
      rcases (mem_candidate h hosts cMap v).mp hvc with hv1 | ⟨_, _, _, hconn⟩
      · exact absurd (hv1.trans hid).symm hne
      · rw [hid] at hconn
        have hm := (isConnected_createMap cidr hosts ip net cMap hcidr hmap u v hne).mp hconn
        simpa [mutualEdge] using hm

theorem groupLess_card_true (a b : connectivitySet) (h : groupLess a b = true) :
    b.card ≤ a.card := by
  unfold groupLess at h
  split_ifs at h with hc
  · simp only [gt_iff_lt, decide_eq_true_eq] at h
    omega
  · simp only [ne_eq, not_not] at hc
    omega

theorem groupLess_card_false (a b : connectivitySet) (h : ¬ groupLess a b = true) :
    a.card ≤ b.card := by
  unfold groupLess at h
  split_ifs at h with hc
  · simp only [gt_iff_lt, decide_eq_true_eq] at h
    omega
  · simp only [ne_eq, not_not] at hc
    omega

/-- The first set of the sorted slice is a largest one. -/
theorem sortGroups_head_max (l : List connectivitySet) :
    ∀ (g : connectivitySet) (rest : List connectivitySet), sortGroups l = g :: rest →
      ∀ x ∈ l, x.card ≤ g.card := by
  unfold sortGroups
  induction l with
  | nil =>
    intro g rest _ x hx
    cases hx
  | cons a t ih =>
    intro g rest h x hx
    simp only [List.insertionSort] at h
    cases hs : List.insertionSort (fun a b => groupLess a b = true) t with
    | nil =>
      have ht : t = [] := by
        have hp := List.perm_insertionSort (fun a b => groupLess a b = true) t
        rw [hs] at hp
        exact hp.symm.eq_nil
      subst ht
      rw [hs] at h
      simp only [List.orderedInsert, List.cons.injEq] at h
      simp only [List.mem_singleton] at hx
      rw [hx, h.1]
    | cons b s1 =>
      rw [hs] at h
      have ihb := ih b s1 hs
      simp only [List.orderedInsert] at h
      split_ifs at h with hab
      · simp only [List.cons.injEq] at h
        rw [← h.1]
        rcases List.mem_cons.mp hx with hx | hx
        · rw [hx]
        · exact (ihb x hx).trans (groupLess_card_true a b hab)
      · simp only [List.cons.injEq] at h
        rw [← h.1]
        rcases List.mem_cons.mp hx with hx | hx
        · rw [hx]
          exact groupLess_card_false a b hab
        · exact ihb x hx

theorem length_toList (order : RangeOrder) (G : connectivitySet) :
    (G.toList order).length = G.card := by
  unfold connectivitySet.toList
  rw [← List.toFinset_card_of_nodup (order.nodup G)]
  congr 1
  ext x
  simp [order.mem G x]

theorem mutualEdge_comm (net : IPNet) (hosts : List Host) (u v : UUID) :
    mutualEdge net hosts u v = mutualEdge net hosts v u := by
  unfold mutualEdge
  exact Bool.and_comm _ _

/-- One round of gathering keeps a set between the clique `M` and the sets of all
candidates owned by members of `M` seen so far. -/
theorem gatherCandidate_keeps (M : connectivitySet) (h3 : 3 ≤ M.card)
    (L : connectivityGroupList) (seen : List groupCandidate) (c : groupCandidate)
    (hc : c.me ∈ M → M ⊆ c.set)
    (hP : (∀ c1 ∈ seen, c1.me ∉ M) ∨
      ∃ G ∈ L.map (fun g => g.set), M ⊆ G ∧ ∀ c1 ∈ seen, c1.me ∈ M → G ⊆ c1.set) :
    (∀ c1 ∈ seen ++ [c], c1.me ∉ M) ∨
      ∃ G ∈ (gatherCandidate L c).map (fun g => g.set),
        M ⊆ G ∧ ∀ c1 ∈ seen ++ [c], c1.me ∈ M → G ⊆ c1.set := by
  by_cases hm : c.me ∈ M
  · right
    rcases hP with hP | ⟨G, hG, hMG, hG2⟩
    · refine ⟨c.set, (mem_gatherCandidate L c c.set).mpr (Or.inr (Or.inl rfl)), hc hm, ?_⟩
      intro c1 hc1 hc1M
      rcases List.mem_append.mp hc1 with h1 | h1
      · exact absurd hc1M (hP c1 h1)
      · simp only [List.mem_singleton] at h1
        rw [h1]
    · have hsub : M ⊆ c.set ∩ G := Finset.subset_inter (hc hm) hMG
      have hcard : 3 ≤ (c.set ∩ G).card := h3.trans (Finset.card_le_card hsub)
      refine ⟨c.set ∩ G,
        (mem_gatherCandidate L c _).mpr (Or.inr (Or.inr ⟨G, hG, rfl, hcard⟩)), hsub, ?_⟩
      intro c1 hc1 hc1M
      rcases List.mem_append.mp hc1 with h1 | h1
      · exact Finset.inter_subset_right.trans (hG2 c1 h1 hc1M)
      · simp only [List.mem_singleton] at h1
        rw [h1]
        exact Finset.inter_subset_left
  · rcases hP with hP | ⟨G, hG, hMG, hG2⟩
    · left
      intro c1 hc1
      rcases List.mem_append.mp hc1 with h1 | h1
      · exact hP c1 h1
      · simp only [List.mem_singleton] at h1
        rw [h1]
        exact hm
    · right
      refine ⟨G, (mem_gatherCandidate L c G).mpr (Or.inl hG), hMG, ?_⟩
      intro c1 hc1 hc1M
      rcases List.mem_append.mp hc1 with h1 | h1
      · exact hG2 c1 h1 hc1M
      · simp only [List.mem_singleton] at h1
        rw [h1] at hc1M
        exact absurd hc1M hm

theorem foldl_gatherCandidate_keeps (M : connectivitySet) (h3 : 3 ≤ M.card)
    (cands : List groupCandidate) :
    (∀ c ∈ cands, c.me ∈ M → M ⊆ c.set) →
    ∀ (L : connectivityGroupList) (seen : List groupCandidate),
      ((∀ c1 ∈ seen, c1.me ∉ M) ∨
        ∃ G ∈ L.map (fun g => g.set), M ⊆ G ∧ ∀ c1 ∈ seen, c1.me ∈ M → G ⊆ c1.set) →
      ((∀ c1 ∈ seen ++ cands, c1.me ∉ M) ∨
        ∃ G ∈ (cands.foldl gatherCandidate L).map (fun g => g.set),
          M ⊆ G ∧ ∀ c1 ∈ seen ++ cands, c1.me ∈ M → G ⊆ c1.set) := by
  induction cands with
  | nil =>
    intro _ L seen hP
    simpa using hP
  | cons c rest ih =>
    intro hsup L seen hP
    have hstep := gatherCandidate_keeps M h3 L seen c
      (hsup c (List.mem_cons_self _ _)) hP
    have hrest := ih (fun c1 hc1 => hsup c1 (List.mem_cons_of_mem _ hc1))
      (gatherCandidate L c) (seen ++ [c]) hstep
    simpa [List.append_assoc] using hrest

theorem createConnectivityGroups_head_max (cands : List groupCandidate)
    (g : connectivitySet) (rest : List connectivitySet)
    (h : createConnectivityGroups cands = g :: rest) :
    ∀ x ∈ createConnectivityGroups cands, x.card ≤ g.card := by
  intro x hx
  unfold createConnectivityGroups at h hx
  exact sortGroups_head_max _ g rest h x ((sortGroups_perm _).mem_iff.mp hx)

/-- A clique `M` of at least 3 hosts that no outside host extends is one of the sets
`createConnectivityGroups` returns for the candidates of the hosts. -/
theorem clique_mem_groups (cidr : String) (hosts : List Host) (ip : IP) (net : IPNet)
    (cMap : connectivityMap) (M : connectivitySet)
    (hcidr : ParseCIDR cidr = some (ip, net))
    (hmap : createMachineCidrConnectivityMap cidr hosts = .ok cMap)
    (hids : (hosts.map (fun h => h.ID)).Nodup)
    (hM : ∀ m ∈ M, ∃ h ∈ hosts, h.ID = m)
    (h3 : 3 ≤ M.card)
    (hmesh : ∀ u ∈ M, ∀ v ∈ M, u ≠ v → mutualEdge net hosts u v = true)
    (hout : ∀ h ∈ hosts, h.ID ∉ M → ∃ m ∈ M, mutualEdge net hosts h.ID m = false) :
    M ∈ createConnectivityGroups (majorityCandidates hosts cMap) := by
  have hS : ∀ h ∈ hosts, h.ID ∈ M → M ⊆ (createHostGroupCandidate h hosts cMap).set := by
    intro h _ hmem x hx
    rw [mem_candidate]
    by_cases hxe : x = h.ID
    · exact Or.inl hxe
    · obtain ⟨hx1, hhx1, hid⟩ := hM x hx
      refine Or.inr ⟨hx1, hhx1, hid, ?_⟩
      exact (isConnected_createMap cidr hosts ip net cMap hcidr hmap h.ID x
        (fun e => hxe e.symm)).mpr (hmesh h.ID hmem x hx (fun e => hxe e.symm))
  have hcand : ∀ h ∈ hosts, h.ID ∈ M →
      createHostGroupCandidate h hosts cMap ∈ majorityCandidates hosts cMap := by
    intro h hh hmem
    exact (mem_majorityCandidates hosts cMap _).mpr
      ⟨h, hh, rfl, h3.trans (Finset.card_le_card (hS h hh hmem))⟩
  have hsup : ∀ c ∈ majorityCandidates hosts cMap, c.me ∈ M → M ⊆ c.set := by
    intro c hc hcM
    obtain ⟨h, hh, hceq, _⟩ := (mem_majorityCandidates hosts cMap c).mp hc
    subst hceq
    exact hS h hh hcM
  have hinv := foldl_gatherCandidate_keeps M h3 (majorityCandidates hosts cMap) hsup [] []
    (Or.inl (by simp))
  simp only [List.nil_append] at hinv
  obtain ⟨m0, hm0⟩ : M.Nonempty := Finset.card_pos.mp (by omega)
  obtain ⟨h0, hh0, hid0⟩ := hM m0 hm0
  have hm0M : h0.ID ∈ M := hid0 ▸ hm0
  rcases hinv with hinv | ⟨G, hG, hMG, hG2⟩
  · exact absurd hm0M (hinv _ (hcand h0 hh0 hm0M))
  · have hGM : G = M := by
      apply Finset.Subset.antisymm _ hMG
      intro x hx
      by_contra hxM
      have hx0 : x ∈ (createHostGroupCandidate h0 hosts cMap).set :=
        hG2 _ (hcand h0 hh0 hm0M) hm0M hx
      rcases (mem_candidate h0 hosts cMap x).mp hx0 with hx1 | ⟨hx1, hhx1, hidx, _⟩
      · exact hxM (hx1 ▸ hm0M)
      · obtain ⟨m, hmM, hmf⟩ := hout hx1 hhx1 (hidx ▸ hxM)
        obtain ⟨hm1, hhm1, hidm⟩ := hM m hmM
        have hm1M : hm1.ID ∈ M := hidm ▸ hmM
        have hxm : x ∈ (createHostGroupCandidate hm1 hosts cMap).set :=
          hG2 _ (hcand hm1 hhm1 hm1M) hm1M hx
        rcases (mem_candidate hm1 hosts cMap x).mp hxm with hx2 | ⟨_, _, _, hconn⟩
        · exact hxM (hx2 ▸ hm1M)
        · have hne : hm1.ID ≠ x := fun e => hxM (e ▸ hm1M)
          have hmut := (isConnected_createMap cidr hosts ip net cMap hcidr hmap hm1.ID x
            hne).mp hconn
          rw [hidm, mutualEdge_comm, ← hidx] at hmut
          rw [hmut] at hmf
          cases hmf
    have hcount : M.card = (majorityCandidates hosts cMap).countP (fun cand =>
        cand.set.isSupersetOf M && M.containsElement cand.me) := by
      rw [List.countP_eq_length_filter]
      have hFnd : (((majorityCandidates hosts cMap).filter (fun cand =>
          cand.set.isSupersetOf M && M.containsElement cand.me)).map
            (fun c => c.me)).Nodup :=
        (majorityCandidates_me_nodup hosts cMap hids).sublist ((List.filter_sublist _).map _)
      have hEq : (((majorityCandidates hosts cMap).filter (fun cand =>
          cand.set.isSupersetOf M && M.containsElement cand.me)).map
            (fun c => c.me)).toFinset = M := by
        ext x
        simp only [List.mem_toFinset, List.mem_map, List.mem_filter, Bool.and_eq_true,
          isSupersetOf_iff, connectivitySet.containsElement, decide_eq_true_eq]
        constructor
        · rintro ⟨c, ⟨_, _, hcM⟩, rfl⟩
          exact hcM
        · intro hxM
          obtain ⟨hx1, hhx1, hidx⟩ := hM x hxM
          have hx1M : hx1.ID ∈ M := hidx ▸ hxM
          exact ⟨_, ⟨hcand hx1 hhx1 hx1M, hS hx1 hhx1 hx1M, hx1M⟩, hidx⟩
      rw [← List.length_map _ (fun c : groupCandidate => c.me),
        ← List.toFinset_card_of_nodup hFnd, hEq]
    exact (mem_createConnectivityGroups _ M).mpr ⟨hGM ▸ hG, hcount⟩

theorem CreateMajorityGroup_fully_meshed_witness :
    CreateMajorityGroup ascendingOrder "192.168.1.0/24" fiveHosts = .ok ["h1", "h2", "h3"] ∧
    ∃ group, CreateMajorityGroup ascendingOrder "192.168.1.0/24" fiveHosts = .ok group ∧
      (∀ u ∈ group, ∃ h ∈ fiveHosts, h.ID = u) ∧
      (∀ u ∈ group, ∀ v ∈ group, u ≠ v →
        edge sampleNet fiveHosts u v = true ∧ edge sampleNet fiveHosts v u = true) :=
  ⟨by decide,
   CreateMajorityGroup_fully_meshed ascendingOrder "192.168.1.0/24" fiveHosts
     (IPv4 192 168 1 0) sampleNet (by decide) (by decide) (by decide)⟩

/-- C2, as stated, fails when a connectivity text does not parse: h1, h2 and h3 are
pairwise mutually connected on 192.168.1.0/24 and the only other host, h6, has no mutual
connectivity with h1, but the text of h6 is malformed and `CreateMajorityGroup` returns
an error, not a group. -/
theorem CreateMajorityGroup_clique_malformed_report :
    ParseCIDR "192.168.1.0/24" = some (IPv4 192 168 1 0, sampleNet) ∧
    (hostsWithMalformedReport.map (fun h => h.ID)).Nodup ∧
    (∀ m ∈ ({"h1", "h2", "h3"} : connectivitySet),
      ∃ h ∈ hostsWithMalformedReport, h.ID = m) ∧
    3 ≤ ({"h1", "h2", "h3"} : connectivitySet).card ∧
    (∀ u ∈ ({"h1", "h2", "h3"} : connectivitySet),
      ∀ v ∈ ({"h1", "h2", "h3"} : connectivitySet), u ≠ v →
        mutualEdge sampleNet hostsWithMalformedReport u v = true) ∧
    (∀ h ∈ hostsWithMalformedReport, h.ID ∉ ({"h1", "h2", "h3"} : connectivitySet) →
      ∃ m ∈ ({"h1", "h2", "h3"} : connectivitySet),
        mutualEdge sampleNet hostsWithMalformedReport h.ID m = false) ∧
    (∀ order : RangeOrder,
      CreateMajorityGroup order "192.168.1.0/24" hostsWithMalformedReport =
        .error "invalid connectivity report") := by
  refine ⟨by decide, by decide, by decide, by decide, by decide, by decide, ?_⟩
  intro order
  rfl

/-- C2 (amended): for a CIDR that parses and hosts with pairwise-distinct ids whose
connectivity reports parse, if a set `M` of at least 3 host ids is pairwise mutually
connected on the CIDR and every host outside `M` lacks mutual connectivity with some
member of `M`, then `CreateMajorityGroup` returns a group of at least `|M|` members. -/
theorem CreateMajorityGroup_at_least_clique (order : RangeOrder) (cidr : String)
    (hosts : List Host) (ip : IP) (net : IPNet) (M : connectivitySet)
    (hcidr : ParseCIDR cidr = some (ip, net))
    (hids : (hosts.map (fun h => h.ID)).Nodup)
    (hparse : reportsParse hosts = true)
    (hM : ∀ m ∈ M, ∃ h ∈ hosts, h.ID = m)
    (h3 : 3 ≤ M.card)
    (hmesh : ∀ u ∈ M, ∀ v ∈ M, u ≠ v → mutualEdge net hosts u v = true)
    (hout : ∀ h ∈ hosts, h.ID ∉ M → ∃ m ∈ M, mutualEdge net hosts h.ID m = false) :
    ∃ group, CreateMajorityGroup order cidr hosts = .ok group ∧ M.card ≤ group.length := by
  obtain ⟨cMap, hmap⟩ := createMap_ok cidr hosts ip net hcidr hparse
  have hmem := clique_mem_groups cidr hosts ip net cMap M hcidr hmap hids hM h3 hmesh hout
  rw [CreateMajorityGroup_of_map order cidr hosts cMap hmap]
  cases hg : createConnectivityGroups (majorityCandidates hosts cMap) with
  | nil =>
    rw [hg] at hmem
    cases hmem
  | cons G rest =>
    refine ⟨G.toList order, rfl, ?_⟩
    rw [length_toList]
    exact createConnectivityGroups_head_max _ G rest hg M hmem

theorem CreateMajorityGroup_at_least_clique_witness :
    ∃ group, CreateMajorityGroup ascendingOrder "192.168.1.0/24" fiveHosts = .ok group ∧
      ({"h1", "h2", "h3"} : connectivitySet).card ≤ group.length :=
  CreateMajorityGroup_at_least_clique ascendingOrder "192.168.1.0/24" fiveHosts
    (IPv4 192 168 1 0) sampleNet {"h1", "h2", "h3"} (by decide) (by decide) (by decide)
    (by decide) (by decide) (by decide) (by decide)

theorem id_perm (order : RangeOrder) (G : connectivitySet) : (order.keys G).Perm G.id :=
  (List.perm_ext_iff_of_nodup (order.nodup G) (ascendingOrder.nodup G)).mpr
    (fun x => (order.mem G x).trans (ascendingOrder.mem G x).symm)

theorem id_sorted (G : connectivitySet) : G.id.Sorted idLe := by
  cases G with
  | mk m hm =>
    induction m using Quotient.inductionOn with
    | _ l => exact List.sorted_insertionSort idLe l

/-- C3, as stated, fails: when the runtime ranges over the set {h1, h2, h3} starting at
its second key, `CreateMajorityGroup` returns the non-empty list [h2, h3, h1], which is
not in ascending id order. -/
theorem CreateMajorityGroup_unsorted :
    CreateMajorityGroup rotatedOrder "192.168.1.0/24" fiveHosts = .ok ["h2", "h3", "h1"] ∧
    ¬ List.Sorted idLe ["h2", "h3", "h1"] := by
  decide

/-- C3 (amended): a list returned by `CreateMajorityGroup` holds each member of the
group once, in the order in which the runtime ranges over the set: under another range
order the call returns a permutation of it, and under the ascending range order it
returns the list sorted by id. -/
theorem CreateMajorityGroup_members_once (order : RangeOrder) (cidr : String)
    (hosts : List Host) (group : List UUID)
    (hret : CreateMajorityGroup order cidr hosts = .ok group) :
    group.Nodup ∧
    (∀ order2 : RangeOrder, ∃ group2,
      CreateMajorityGroup order2 cidr hosts = .ok group2 ∧ group2.Perm group) ∧
    (CreateMajorityGroup ascendingOrder cidr hosts = .ok (group.insertionSort idLe) ∧
      (group.insertionSort idLe).Sorted idLe) := by
  cases hmap : createMachineCidrConnectivityMap cidr hosts with
  | error e =>
    rw [CreateMajorityGroup_eq, hmap] at hret
    cases hret
  | ok cMap =>
    rw [CreateMajorityGroup_of_map order cidr hosts cMap hmap] at hret
    rw [CreateMajorityGroup_of_map ascendingOrder cidr hosts cMap hmap]
    have h2 : ∀ order2 : RangeOrder, CreateMajorityGroup order2 cidr hosts = _ :=
      fun order2 => CreateMajorityGroup_of_map order2 cidr hosts cMap hmap
    cases hg : createConnectivityGroups (majorityCandidates hosts cMap) with
    | nil =>
      rw [hg] at hret
      simp only [Except.ok.injEq] at hret
      subst hret
      refine ⟨List.nodup_nil, ?_, rfl, List.sorted_nil⟩
      intro order2
      refine ⟨[], ?_, List.Perm.refl _⟩
      rw [h2 order2, hg]
    | cons G rest =>
      rw [hg] at hret
      simp only [Except.ok.injEq] at hret
      subst hret
      refine ⟨order.nodup G, ?_, ?_, List.sorted_insertionSort idLe _⟩
      · intro order2
        refine ⟨G.toList order2, ?_, ?_⟩
        · rw [h2 order2, hg]
        · exact (id_perm order2 G).trans (id_perm order G).symm
      · congr 1
        exact List.eq_of_perm_of_sorted
          ((id_perm order G).symm.trans (List.perm_insertionSort idLe _).symm)
          (id_sorted G) (List.sorted_insertionSort idLe _)

theorem CreateMajorityGroup_members_once_witness :
    ["h2", "h3", "h1"].Nodup ∧
    (∀ order2 : RangeOrder, ∃ group2,
      CreateMajorityGroup order2 "192.168.1.0/24" fiveHosts = .ok group2 ∧
        group2.Perm ["h2", "h3", "h1"]) ∧
    (CreateMajorityGroup ascendingOrder "192.168.1.0/24" fiveHosts =
        .ok (["h2", "h3", "h1"].insertionSort idLe) ∧
      (["h2", "h3", "h1"].insertionSort idLe).Sorted idLe) :=
  CreateMajorityGroup_members_once rotatedOrder "192.168.1.0/24" fiveHosts
    ["h2", "h3", "h1"] (by decide)

theorem edge_iff (net : IPNet) (hosts : List Host) (u v : UUID) :
    edge net hosts u v = true ↔ ∃ h ∈ hosts, h.ID = u ∧ reportsEdge net h v = true := by
  simp [edge, List.any_eq_true]

theorem reportsEdge_of_empty (net : IPNet) (h : Host) (v : UUID)
    (hempty : emptyConnectivity h = true) : reportsEdge net h v = false := by
  unfold emptyConnectivity at hempty
  unfold reportsEdge
  cases hc : h.Connectivity with
  | empty => rfl
  | malformed => rfl
  | report r =>
    rw [hc] at hempty
    simp only [List.isEmpty_iff] at hempty
    simp [hempty]

/-- C4, as stated, fails on a host list that repeats an id: the first host of
`hostsWithRepeatedId` has no connectivity text, yet its id h1 is a member of the group
`CreateMajorityGroup` returns (the third host carries the same id and a report). -/
theorem CreateMajorityGroup_repeated_id_member :
    ParseCIDR "192.168.1.0/24" = some (IPv4 192 168 1 0, sampleNet) ∧
    hostsWithRepeatedId.head? = some { ID := "h1", Connectivity := .empty } ∧
    emptyConnectivity { ID := "h1", Connectivity := .empty } = true ∧
    CreateMajorityGroup ascendingOrder "192.168.1.0/24" hostsWithRepeatedId =
      .ok ["h1", "h2", "h3"] ∧
    "h1" ∈ ["h1", "h2", "h3"] := by
  decide

/-- C4 (amended): in a host list with pairwise-distinct ids, a host whose connectivity
is empty (no text, or a report naming no remote host) is never a member of the group
`CreateMajorityGroup` returns, whatever the other hosts report about it. -/
theorem CreateMajorityGroup_excludes_empty (order : RangeOrder) (cidr : String)
    (hosts : List Host) (h : Host) (group : List UUID)
    (hids : (hosts.map (fun h => h.ID)).Nodup)
    (hh : h ∈ hosts) (hempty : emptyConnectivity h = true)
    (hret : CreateMajorityGroup order cidr hosts = .ok group) :
    h.ID ∉ group := by
  cases hmap : createMachineCidrConnectivityMap cidr hosts with
  | error e =>
    rw [CreateMajorityGroup_eq, hmap] at hret
    cases hret
  | ok cMap =>
    cases hcidr : ParseCIDR cidr with
    | none =>
      simp only [createMachineCidrConnectivityMap, hcidr] at hmap
      cases hmap
    | some pr =>
      obtain ⟨ip, net⟩ := pr
      rw [CreateMajorityGroup_of_map order cidr hosts cMap hmap] at hret
      cases hg : createConnectivityGroups (majorityCandidates hosts cMap) with
      | nil =>
        rw [hg] at hret
        simp only [Except.ok.injEq] at hret
        subst hret
        exact List.not_mem_nil _
      | cons G rest =>
        rw [hg] at hret
        simp only [Except.ok.injEq] at hret
        subst hret
        intro hmem
        have hG : G ∈ createConnectivityGroups (majorityCandidates hosts cMap) := by
          rw [hg]
          exact List.mem_cons_self _ _
        obtain ⟨c, hc, hme, _⟩ := group_members_own_supersets _
          (majorityCandidates_me_nodup hosts cMap hids) G hG h.ID
          ((order.mem G h.ID).mp hmem)
        obtain ⟨h1, hh1, hceq, hcard⟩ := (mem_majorityCandidates hosts cMap c).mp hc
        have hid1 : h1.ID = h.ID := by
          rw [← hme, hceq, candidate_me]
        obtain ⟨v, hv, hvne⟩ := Finset.exists_mem_ne (by omega : 1 < c.set.card) h.ID
        rw [hceq] at hv
        rcases (mem_candidate h1 hosts cMap v).mp hv with hv1 | ⟨_, _, _, hconn⟩
        · exact hvne (hv1.trans hid1)
        · rw [hid1] at hconn
          have hdir := ((isConnected_iff cMap h.ID v (fun e => hvne e.symm)).mp hconn).1
          have hedge := (directed_createMap cidr hosts ip net cMap hcidr hmap h.ID v).mp hdir
          obtain ⟨h2, hh2, hid2, hrep⟩ := (edge_iff net hosts h.ID v).mp hedge
          have heq : h2 = h := List.inj_on_of_nodup_map hids hh2 hh hid2
          rw [heq, reportsEdge_of_empty net h v hempty] at hrep
          cases hrep

theorem CreateMajorityGroup_excludes_empty_witness :
    CreateMajorityGroup ascendingOrder "192.168.1.0/24" fiveHosts = .ok ["h1", "h2", "h3"] ∧
    "h4" ∉ ["h1", "h2", "h3"] :=
  ⟨by decide,
   CreateMajorityGroup_excludes_empty ascendingOrder "192.168.1.0/24" fiveHosts
     { ID := "h4", Connectivity := .empty } ["h1", "h2", "h3"]
     (by decide) (by decide) (by decide) (by decide)⟩

end Network

/-! ## Theorems: `ipAsUint` -/

namespace Bminventory

theorem splitDots_append_dot (p rest : List Char) (hp : '.' ∉ p) :
    splitDots (p ++ '.' :: rest) = p :: splitDots rest := by
  induction p with
  | nil => simp [splitDots]
  | cons c t ih =>
    have hc : c ≠ '.' := fun h => hp (by simp [h])
    have ht : '.' ∉ t := fun h => hp (List.mem_cons_of_mem _ h)
    simp [splitDots, hc, ih ht]

theorem splitDots_no_dot (p : List Char) (hp : '.' ∉ p) : splitDots p = [p] := by
  induction p with
  | nil => rfl
  | cons c t ih =>
    have hc : c ≠ '.' := fun h => hp (by simp [h])
    have ht : '.' ∉ t := fun h => hp (List.mem_cons_of_mem _ h)
    simp [splitDots, hc, ih ht]

theorem le_foldl_digits (cs : List Char) :
    ∀ m : Nat, m ≤ cs.foldl (fun n c => n * 10 + (c.toNat - '0'.toNat)) m := by
  induction cs with
  | nil =>
    intro m
    exact le_refl m
  | cons c t ih =>
    intro m
    simp only [List.foldl_cons]
    exact le_trans (by omega) (ih _)

theorem parseUintLoop_digits (p : List Char) :
    ∀ n : Nat, (∀ c ∈ p, '0' ≤ c ∧ c ≤ '9') →
      p.foldl (fun n c => n * 10 + (c.toNat - '0'.toNat)) n ≤ 255 →
      parseUintLoop p n = some (p.foldl (fun n c => n * 10 + (c.toNat - '0'.toNat)) n) := by
  induction p with
  | nil =>
    intro n _ _
    rfl
  | cons c t ih =>
    intro n hd hv
    simp only [List.foldl_cons] at hv ⊢
    have h1 := le_foldl_digits t (n * 10 + (c.toNat - '0'.toNat))
    have hc := hd c (List.mem_cons_self _ _)
    have hn : ¬ n ≥ (2 ^ 64 - 1) / 10 + 1 := by
      norm_num
      omega
    have hn1 : ¬ n * 10 + (c.toNat - '0'.toNat) > 2 ^ 64 - 1 := by
      norm_num
      omega
    simp only [parseUintLoop, hc, and_self, if_true, hn, hn1, if_false]
    exact ih _ (fun c1 hc1 => hd c1 (List.mem_cons_of_mem _ hc1)) hv

/-- A decimal octet has no dot and `ParseUint` reads its number. -/
theorem octet_text (p : List Char) (h : isOctetText p = true) :
    '.' ∉ p ∧ ParseUint p = some (digitsValue p) := by
  simp only [isOctetText, Bool.and_eq_true, decide_eq_true_eq, List.all_eq_true] at h
  obtain ⟨⟨hlen, hdig⟩, hval⟩ := h
  constructor
  · intro hdot
    have := hdig '.' hdot
    revert this
    decide
  · unfold ParseUint
    rw [if_neg hlen]
    exact parseUintLoop_digits p 0 hdig hval

set_option maxRecDepth 100000 in
/-- The decimal text of a number in 0..255 is a decimal octet that denotes it. -/
theorem toDigits_octet (a : Nat) (h : a < 256) :
    isOctetText (Nat.toDigits 10 a) = true ∧ digitsValue (Nat.toDigits 10 a) = a := by
  have key : ∀ k, k < 256 →
      (isOctetText (Nat.toDigits 10 k) = true ∧ digitsValue (Nat.toDigits 10 k) = k) := by
    decide
  exact key a h

/-- On four decimal octets joined by dots `ipAsUint` is the big-endian number of the
four octets. -/
theorem ipAsUint_joinDots (p1 p2 p3 p4 : List Char) (h1 : isOctetText p1 = true)
    (h2 : isOctetText p2 = true) (h3 : isOctetText p3 = true) (h4 : isOctetText p4 = true) :
    ipAsUint (joinDots p1 p2 p3 p4) =
      digitsValue p1 * 2 ^ 24 + digitsValue p2 * 2 ^ 16 + digitsValue p3 * 2 ^ 8 +
        digitsValue p4 := by
  obtain ⟨n1, e1⟩ := octet_text p1 h1
  obtain ⟨n2, e2⟩ := octet_text p2 h2
  obtain ⟨n3, e3⟩ := octet_text p3 h3
  obtain ⟨n4, e4⟩ := octet_text p4 h4
  have v1 : digitsValue p1 ≤ 255 := by
    simp only [isOctetText, Bool.and_eq_true, decide_eq_true_eq] at h1
    exact h1.2
  have v2 : digitsValue p2 ≤ 255 := by
    simp only [isOctetText, Bool.and_eq_true, decide_eq_true_eq] at h2
    exact h2.2
  have v3 : digitsValue p3 ≤ 255 := by
    simp only [isOctetText, Bool.and_eq_true, decide_eq_true_eq] at h3
    exact h3.2
  have v4 : digitsValue p4 ≤ 255 := by
    simp only [isOctetText, Bool.and_eq_true, decide_eq_true_eq] at h4
    exact h4.2
  have hsplit : splitDots (joinDots p1 p2 p3 p4).toList = [p1, p2, p3, p4] := by
    simp only [joinDots, String.toList]
    rw [splitDots_append_dot _ _ n1, splitDots_append_dot _ _ n2, splitDots_append_dot _ _ n3,
      splitDots_no_dot _ n4]
  simp only [ipAsUint, hsplit, ipAsUintLoop, e1, e2, e3, e4, Nat.shiftLeft_eq]
  norm_num
  omega

theorem ipAsUint_dottedQuad (a b c d : Nat) (ha : a < 256) (hb : b < 256) (hc : c < 256)
    (hd : d < 256) :
    ipAsUint (dottedQuad a b c d) = a * 2 ^ 24 + b * 2 ^ 16 + c * 2 ^ 8 + d := by
  obtain ⟨ta, va⟩ := toDigits_octet a ha
  obtain ⟨tb, vb⟩ := toDigits_octet b hb
  obtain ⟨tc, vc⟩ := toDigits_octet c hc
  obtain ⟨td, vd⟩ := toDigits_octet d hd
  unfold dottedQuad
  rw [ipAsUint_joinDots _ _ _ _ ta tb tc td, va, vb, vc, vd]

/-- C10, as stated, fails on octets written with a leading zero: "01.0.0.0" and
"1.0.0.0" are different strings of four dot-separated decimal octets in 0..255, and
`ipAsUint` gives both the value 2^24. -/
theorem ipAsUint_leading_zero_collision :
    "01.0.0.0" = joinDots ['0', '1'] ['0'] ['0'] ['0'] ∧
    "1.0.0.0" = joinDots ['1'] ['0'] ['0'] ['0'] ∧
    isOctetText ['0', '1'] = true ∧ isOctetText ['1'] = true ∧ isOctetText ['0'] = true ∧
    "01.0.0.0" ≠ "1.0.0.0" ∧
    ipAsUint "01.0.0.0" = 2 ^ 24 ∧ ipAsUint "1.0.0.0" = 2 ^ 24 := by
  decide

/-- C10 (amended): on every string of four dot-separated decimal octets in 0..255
`ipAsUint` returns a*2^24 + b*2^16 + c*2^8 + d; and on the dotted-quad strings whose
octets are written without leading zeros it is a monotone bijection onto the numbers
below 2^32: distinct strings have distinct values, the order of the addresses, octet by
octet from the left, is the order of the values, and every value below 2^32 is reached. -/
theorem ipAsUint_monotone_bijection :
    (∀ p1 p2 p3 p4 : List Char, isOctetText p1 = true → isOctetText p2 = true →
      isOctetText p3 = true → isOctetText p4 = true →
      ipAsUint (joinDots p1 p2 p3 p4) =
        digitsValue p1 * 2 ^ 24 + digitsValue p2 * 2 ^ 16 + digitsValue p3 * 2 ^ 8 +
          digitsValue p4) ∧
    (∀ a b c d a2 b2 c2 d2 : Nat, a < 256 → b < 256 → c < 256 → d < 256 →
      a2 < 256 → b2 < 256 → c2 < 256 → d2 < 256 →
      dottedQuad a b c d ≠ dottedQuad a2 b2 c2 d2 →
      ipAsUint (dottedQuad a b c d) ≠ ipAsUint (dottedQuad a2 b2 c2 d2)) ∧
    (∀ a b c d a2 b2 c2 d2 : Nat, a < 256 → b < 256 → c < 256 → d < 256 →
      a2 < 256 → b2 < 256 → c2 < 256 → d2 < 256 →
      ((a < a2 ∨ (a = a2 ∧ (b < b2 ∨ (b = b2 ∧ (c < c2 ∨ (c = c2 ∧ d < d2)))))) ↔
        ipAsUint (dottedQuad a b c d) < ipAsUint (dottedQuad a2 b2 c2 d2))) ∧
    (∀ n : Nat, n < 2 ^ 32 → ∃ a b c d : Nat, a < 256 ∧ b < 256 ∧ c < 256 ∧ d < 256 ∧
      ipAsUint (dottedQuad a b c d) = n) := by
  refine ⟨ipAsUint_joinDots, ?_, ?_, ?_⟩
  · intro a b c d a2 b2 c2 d2 ha hb hc hd ha2 hb2 hc2 hd2 hne heq
    rw [ipAsUint_dottedQuad a b c d ha hb hc hd,
      ipAsUint_dottedQuad a2 b2 c2 d2 ha2 hb2 hc2 hd2] at heq
    apply hne
    have e1 : a = a2 := by omega
    have e2 : b = b2 := by omega
    have e3 : c = c2 := by omega
    have e4 : d = d2 := by omega
    rw [e1, e2, e3, e4]
  · intro a b c d a2 b2 c2 d2 ha hb hc hd ha2 hb2 hc2 hd2
    rw [ipAsUint_dottedQuad a b c d ha hb hc hd,
      ipAsUint_dottedQuad a2 b2 c2 d2 ha2 hb2 hc2 hd2]
    omega
  · intro n hn
    refine ⟨n / 2 ^ 24, n / 2 ^ 16 % 256, n / 2 ^ 8 % 256, n % 256, ?_, ?_, ?_, ?_, ?_⟩
    · omega
    · omega
    · omega
    · omega
    · rw [ipAsUint_dottedQuad _ _ _ _ (by omega) (by omega) (by omega) (by omega)]
      omega

theorem ipAsUint_monotone_bijection_witness :
    dottedQuad 192 168 1 7 = "192.168.1.7" ∧
    ipAsUint (joinDots ['0', '1', '0'] ['0'] ['0', '0'] ['2', '5', '5']) =
      digitsValue ['0', '1', '0'] * 2 ^ 24 + digitsValue ['0'] * 2 ^ 16 +
        digitsValue ['0', '0'] * 2 ^ 8 + digitsValue ['2', '5', '5'] ∧
    ipAsUint (dottedQuad 192 168 1 7) ≠ ipAsUint (dottedQuad 192 168 1 8) ∧
    ipAsUint (dottedQuad 10 200 0 0) < ipAsUint (dottedQuad 192 168 1 7) ∧
    (∃ a b c d : Nat, a < 256 ∧ b < 256 ∧ c < 256 ∧ d < 256 ∧
      ipAsUint (dottedQuad a b c d) = 3232235783) :=
  ⟨by decide,
   ipAsUint_monotone_bijection.1 ['0', '1', '0'] ['0'] ['0', '0'] ['2', '5', '5']
     (by decide) (by decide) (by decide) (by decide),
   ipAsUint_monotone_bijection.2.1 192 168 1 7 192 168 1 8 (by decide) (by decide)
     (by decide) (by decide) (by decide) (by decide) (by decide) (by decide) (by decide),
   (ipAsUint_monotone_bijection.2.2.1 10 200 0 0 192 168 1 7 (by decide) (by decide)
     (by decide) (by decide) (by decide) (by decide) (by decide) (by decide)).mp
     (Or.inl (by decide)),
   ipAsUint_monotone_bijection.2.2.2 3232235783 (by decide)⟩

end Bminventory


/-! ## Theorems: the orchestrator -/

namespace Bminventory

/-- C11: when the limit is given and not negative, `applyLimit` returns the first
min(limit, length) elements of the list; when the limit is absent or negative it
returns the list unchanged. -/
theorem applyLimit_take_min {α : Type} (ret : List α) (limitParam : Option Int) :
    (∀ limit : Int, limitParam = some limit → limit ≥ 0 →
      applyLimit ret limitParam = ret.take (min limit.toNat ret.length)) ∧
    ((limitParam = none ∨ ∃ limit : Int, limitParam = some limit ∧ limit < 0) →
      applyLimit ret limitParam = ret) := by
  constructor
  · intro limit hl hpos
    subst hl
    unfold applyLimit
    by_cases hlt : limit < (ret.length : Int)
    · have hmin : min limit.toNat ret.length = limit.toNat := by omega
      simp only [hpos, hlt, and_self, if_true, hmin]
    · have hmin : min limit.toNat ret.length = ret.length := by omega
      simp only [hlt, and_false, if_false, hmin, List.take_length]
  · rintro (h | ⟨limit, h, hneg⟩)
    · subst h
      rfl
    · subst h
      unfold applyLimit
      have hn : ¬ limit ≥ 0 := by omega
      simp only [hn, false_and, if_false]

theorem applyLimit_take_min_witness :
    applyLimit ["10.0.0.1", "10.0.0.2", "10.0.0.3"] (some 2) = ["10.0.0.1", "10.0.0.2"] ∧
    applyLimit ["10.0.0.1", "10.0.0.2", "10.0.0.3"] (some 7) =
      ["10.0.0.1", "10.0.0.2", "10.0.0.3"] ∧
    applyLimit ["10.0.0.1", "10.0.0.2", "10.0.0.3"] (some (-1)) =
      ["10.0.0.1", "10.0.0.2", "10.0.0.3"] :=
  ⟨(applyLimit_take_min ["10.0.0.1", "10.0.0.2", "10.0.0.3"] (some 2)).1 2 rfl (by decide),
   (applyLimit_take_min ["10.0.0.1", "10.0.0.2", "10.0.0.3"] (some 7)).1 7 rfl (by decide),
   (applyLimit_take_min ["10.0.0.1", "10.0.0.2", "10.0.0.3"] (some (-1))).2
     (Or.inr ⟨-1, rfl, by decide⟩)⟩

theorem filterReplyByType_unknown {V : Type} (env : StepEnv V) (params : PostStepReplyParams)
    (h1 : params.Reply.StepType ≠ StepTypeInventory)
    (h2 : params.Reply.StepType ≠ StepTypeConnectivityCheck)
    (h3 : params.Reply.StepType ≠ StepTypeFreeNetworkAddresses)
    (h4 : params.Reply.StepType ≠ StepTypeDhcpLeaseAllocate) :
    filterReplyByType env params = ("", none) := by
  simp only [filterReplyByType, h1, h2, h3, h4, if_false]

theorem handleReplyByType_unknown {V : Type} (env : StepEnv V) (params : PostStepReplyParams)
    (host : Host) (stepReply : String)
    (h1 : params.Reply.StepType ≠ StepTypeInventory)
    (h2 : params.Reply.StepType ≠ StepTypeConnectivityCheck)
    (h3 : params.Reply.StepType ≠ StepTypeFreeNetworkAddresses)
    (h4 : params.Reply.StepType ≠ StepTypeDhcpLeaseAllocate) :
    handleReplyByType env params host stepReply = ([], none) := by
  simp only [handleReplyByType, h1, h2, h3, h4, if_false]

/-- C13: for a step reply whose step type is none of inventory, connectivity-check,
free-network-addresses and dhcp-lease-allocate, `filterReplyByType` returns the empty
string without error and `handleReplyByType` calls no mutator and returns no error; so
`PostStepReply`, for an existing host and exit code 0, makes no call and answers 204. -/
theorem unknown_step_type_ignored {V : Type} (env : StepEnv V) (params : PostStepReplyParams)
    (h1 : params.Reply.StepType ≠ StepTypeInventory)
    (h2 : params.Reply.StepType ≠ StepTypeConnectivityCheck)
    (h3 : params.Reply.StepType ≠ StepTypeFreeNetworkAddresses)
    (h4 : params.Reply.StepType ≠ StepTypeDhcpLeaseAllocate) :
    filterReplyByType env params = ("", none) ∧
    (∀ (host : Host) (stepReply : String),
      handleReplyByType env params host stepReply = ([], none)) ∧
    (∀ host : Host, env.findHost params.HostID params.ClusterID = .ok host →
      params.Reply.ExitCode = 0 → PostStepReply env params = ([], StatusNoContent)) := by
  refine ⟨filterReplyByType_unknown env params h1 h2 h3 h4,
    fun host stepReply => handleReplyByType_unknown env params host stepReply h1 h2 h3 h4, ?_⟩
  intro host hfound hexit
  simp only [PostStepReply, hfound, hexit, ne_eq, not_true_eq_false, if_false,
    filterReplyByType_unknown env params h1 h2 h3 h4,
    handleReplyByType_unknown env params host "" h1 h2 h3 h4]

theorem unknown_step_type_ignored_witness :
    filterReplyByType sampleStepEnv
      { ClusterID := "c1", HostID := "h1",
        Reply := { StepID := "s", StepType := "execute", ExitCode := 0, Output := "out",
                   Error := "" } } = ("", none) ∧
    PostStepReply sampleStepEnv
      { ClusterID := "c1", HostID := "h1",
        Reply := { StepID := "s", StepType := "execute", ExitCode := 0, Output := "out",
                   Error := "" } } = ([], StatusNoContent) :=
  have h := unknown_step_type_ignored sampleStepEnv
    { ClusterID := "c1", HostID := "h1",
      Reply := { StepID := "s", StepType := "execute", ExitCode := 0, Output := "out",
                 Error := "" } } (by decide) (by decide) (by decide) (by decide)
  ⟨h.1, h.2.2 { ID := "h1", ClusterID := "c1", Role := "master", Bootstrap := false,
                Status := "known" } rfl rfl⟩

/-- C14: for a step reply of an existing host with a non-zero exit code, `PostStepReply`
answers BadRequest, and its calls are the one call of `HandleInstallationFailure` on the
host when the step type is install, and none at all for every other step type. -/
theorem PostStepReply_nonzero_exit {V : Type} (env : StepEnv V) (params : PostStepReplyParams)
    (host : Host) (hfound : env.findHost params.HostID params.ClusterID = .ok host)
    (hexit : params.Reply.ExitCode ≠ 0) :
    (PostStepReply env params).2 = StatusBadRequest ∧
    (Call.HandleInstallationFailure host.ID ∈ (PostStepReply env params).1 ↔
      params.Reply.StepType = StepTypeInstall) ∧
    (params.Reply.StepType = StepTypeInstall →
      (PostStepReply env params).1 = [Call.HandleInstallationFailure host.ID]) ∧
    (params.Reply.StepType ≠ StepTypeInstall → (PostStepReply env params).1 = []) := by
  have hpost : PostStepReply env params =
      ((handleReplyError env params host).1, StatusBadRequest) := by
    simp only [PostStepReply, hfound, hexit, ne_eq, not_false_eq_true, if_true]
  rw [hpost]
  by_cases hinstall : params.Reply.StepType = StepTypeInstall
  · simp [handleReplyError, hinstall]
  · simp [handleReplyError, hinstall]

theorem PostStepReply_nonzero_exit_witness :
    PostStepReply sampleStepEnv
      { ClusterID := "c1", HostID := "h1",
        Reply := { StepID := "s", StepType := "install", ExitCode := 1, Output := "",
                   Error := "failed" } } =
      ([Call.HandleInstallationFailure "h1"], StatusBadRequest) ∧
    PostStepReply sampleStepEnv
      { ClusterID := "c1", HostID := "h1",
        Reply := { StepID := "s", StepType := "inventory", ExitCode := 1, Output := "",
                   Error := "failed" } } = ([], StatusBadRequest) :=
  have h1 := PostStepReply_nonzero_exit sampleStepEnv
    { ClusterID := "c1", HostID := "h1",
      Reply := { StepID := "s", StepType := "install", ExitCode := 1, Output := "",
                 Error := "failed" } }
    { ID := "h1", ClusterID := "c1", Role := "master", Bootstrap := false, Status := "known" }
    rfl (by decide)
  have h2 := PostStepReply_nonzero_exit sampleStepEnv
    { ClusterID := "c1", HostID := "h1",
      Reply := { StepID := "s", StepType := "inventory", ExitCode := 1, Output := "",
                 Error := "failed" } }
    { ID := "h1", ClusterID := "c1", Role := "master", Bootstrap := false, Status := "known" }
    rfl (by decide)
  ⟨Prod.ext (h1.2.2.1 rfl) h1.1, Prod.ext (h2.2.2.2 (by decide)) h2.1⟩

/-! ### `processDhcpAllocationResponse` -/

theorem IpInCidr_cases (ipAddr cidr : String) :
    (∃ e, IpInCidr ipAddr cidr = .error e ∧ liesInside ipAddr cidr = false) ∨
    IpInCidr ipAddr cidr = .ok (liesInside ipAddr cidr) := by
  unfold IpInCidr liesInside
  cases GoNet.ParseCIDR cidr with
  | none => exact Or.inl ⟨_, rfl, rfl⟩
  | some p =>
    obtain ⟨ip0, ipnet⟩ := p
    cases GoNet.ParseIP ipAddr with
    | none => exact Or.inl ⟨_, rfl, rfl⟩
    | some ip => exact Or.inr rfl

theorem processDhcpAllocationResponse_enabled {V : Type} (env : StepEnv V) (host : Host)
    (reply : String) (cluster : Cluster) (apiVip ingressVip : String)
    (hc : env.takeCluster host.ClusterID = .ok cluster)
    (hd : BoolValue cluster.VipDhcpAllocation = true)
    (hdec : env.decodeDhcpAllocation reply = .ok (apiVip, ingressVip)) :
    ((liesInside apiVip cluster.MachineNetworkCidr = true ∧
        liesInside ingressVip cluster.MachineNetworkCidr = true) →
      processDhcpAllocationResponse env host reply =
        ([Call.SetVips cluster.ID apiVip ingressVip], env.SetVips cluster apiVip ingressVip)) ∧
    ((liesInside apiVip cluster.MachineNetworkCidr = false ∨
        liesInside ingressVip cluster.MachineNetworkCidr = false) →
      (processDhcpAllocationResponse env host reply).1 = [] ∧
      (processDhcpAllocationResponse env host reply).2 ≠ none) := by
  unfold processDhcpAllocationResponse
  simp only [hc, hd, hdec, Bool.not_true, Bool.false_eq_true, if_false]
  rcases IpInCidr_cases apiVip cluster.MachineNetworkCidr with ⟨e1, he1, hl1⟩ | hok1
  · rw [he1, hl1]
    simp
  · rcases IpInCidr_cases ingressVip cluster.MachineNetworkCidr with ⟨e2, he2, hl2⟩ | hok2
    · rw [hok1, he2, hl2]
      simp
    · rw [hok1, hok2]
      cases liesInside apiVip cluster.MachineNetworkCidr <;>
        cases liesInside ingressVip cluster.MachineNetworkCidr <;> simp

/-- C15: `processDhcpAllocationResponse` calls `SetVips` (with the two returned
addresses) only if the cluster has VIP-DHCP allocation enabled and both returned VIPs
lie inside the machine network CIDR; when allocation is enabled and either VIP lies
outside it, the reply is rejected with an error and no mutator is called; when both lie
inside, the one call is `SetVips` and its error is the result. -/
theorem processDhcpAllocationResponse_sets_vips {V : Type} (env : StepEnv V) (host : Host)
    (reply : String) :
    (∀ call ∈ (processDhcpAllocationResponse env host reply).1,
      ∃ cluster apiVip ingressVip, env.takeCluster host.ClusterID = .ok cluster ∧
        BoolValue cluster.VipDhcpAllocation = true ∧
        env.decodeDhcpAllocation reply = .ok (apiVip, ingressVip) ∧
        liesInside apiVip cluster.MachineNetworkCidr = true ∧
        liesInside ingressVip cluster.MachineNetworkCidr = true ∧
        call = Call.SetVips cluster.ID apiVip ingressVip) ∧
    (∀ cluster apiVip ingressVip, env.takeCluster host.ClusterID = .ok cluster →
      BoolValue cluster.VipDhcpAllocation = true →
      env.decodeDhcpAllocation reply = .ok (apiVip, ingressVip) →
      (liesInside apiVip cluster.MachineNetworkCidr = false ∨
        liesInside ingressVip cluster.MachineNetworkCidr = false) →
      (processDhcpAllocationResponse env host reply).1 = [] ∧
      (processDhcpAllocationResponse env host reply).2 ≠ none) ∧
    (∀ cluster apiVip ingressVip, env.takeCluster host.ClusterID = .ok cluster →
      BoolValue cluster.VipDhcpAllocation = true →
      env.decodeDhcpAllocation reply = .ok (apiVip, ingressVip) →
      liesInside apiVip cluster.MachineNetworkCidr = true →
      liesInside ingressVip cluster.MachineNetworkCidr = true →
      processDhcpAllocationResponse env host reply =
        ([Call.SetVips cluster.ID apiVip ingressVip],
          env.SetVips cluster apiVip ingressVip)) := by
  refine ⟨?_, ?_, ?_⟩
  · intro call hcall
    cases hc : env.takeCluster host.ClusterID with
    | error e =>
      simp [processDhcpAllocationResponse, hc] at hcall
    | ok cluster =>
      cases hd : BoolValue cluster.VipDhcpAllocation with
      | false => simp [processDhcpAllocationResponse, hc, hd] at hcall
      | true =>
        cases hdec : env.decodeDhcpAllocation reply with
        | error e => simp [processDhcpAllocationResponse, hc, hd, hdec] at hcall
        | ok vips =>
          obtain ⟨apiVip, ingressVip⟩ := vips
          have h := processDhcpAllocationResponse_enabled env host reply cluster apiVip
            ingressVip hc hd hdec
          cases ha : liesInside apiVip cluster.MachineNetworkCidr with
          | false =>
            rw [(h.2 (Or.inl ha)).1] at hcall
            cases hcall
          | true =>
            cases hi : liesInside ingressVip cluster.MachineNetworkCidr with
            | false =>
              rw [(h.2 (Or.inr hi)).1] at hcall
              cases hcall
            | true =>
              rw [h.1 ⟨ha, hi⟩] at hcall
              exact ⟨cluster, apiVip, ingressVip, rfl, hd, rfl, ha, hi,
                List.mem_singleton.mp hcall⟩
  · intro cluster apiVip ingressVip hc hd hdec hout
    exact (processDhcpAllocationResponse_enabled env host reply cluster apiVip ingressVip
      hc hd hdec).2 hout
  · intro cluster apiVip ingressVip hc hd hdec ha hi
    exact (processDhcpAllocationResponse_enabled env host reply cluster apiVip ingressVip
      hc hd hdec).1 ⟨ha, hi⟩

theorem processDhcpAllocationResponse_sets_vips_witness :
    processDhcpAllocationResponse sampleStepEnv
        { ID := "h1", ClusterID := "c1", Role := "master", Bootstrap := false,
          Status := "known" } "10.0.0.50,10.0.0.51" =
      ([Call.SetVips "c1" "10.0.0.50" "10.0.0.51"], none) ∧
    (processDhcpAllocationResponse sampleStepEnv
        { ID := "h1", ClusterID := "c1", Role := "master", Bootstrap := false,
          Status := "known" } "192.168.0.50,10.0.0.51").1 = [] ∧
    (processDhcpAllocationResponse sampleStepEnv
        { ID := "h1", ClusterID := "c1", Role := "master", Bootstrap := false,
          Status := "known" } "192.168.0.50,10.0.0.51").2 ≠ none :=
  ⟨(processDhcpAllocationResponse_sets_vips sampleStepEnv
      { ID := "h1", ClusterID := "c1", Role := "master", Bootstrap := false,
        Status := "known" } "10.0.0.50,10.0.0.51").2.2 sampleCluster "10.0.0.50" "10.0.0.51"
      rfl (by decide) (by decide) (by decide) (by decide),
   (processDhcpAllocationResponse_sets_vips sampleStepEnv
      { ID := "h1", ClusterID := "c1", Role := "master", Bootstrap := false,
        Status := "known" } "192.168.0.50,10.0.0.51").2.1 sampleCluster "192.168.0.50"
      "10.0.0.51" rfl (by decide) (by decide) (Or.inl (by decide))⟩

/-! ### `GenerateClusterISO` -/

theorem updateImageInfoPostUpload_CreatedAt (env : IsoEnv) (cluster : Cluster) :
    (updateImageInfoPostUpload env cluster).2.CreatedAt = cluster.ImageInfo.CreatedAt := by
  unfold updateImageInfoPostUpload
  dsimp only
  repeat' split
  all_goals rfl

theorem GenerateClusterISO_too_soon (cfg : Config) (env : IsoEnv)
    (params : GenerateClusterISOParams) (cluster : Cluster) (htx : env.txError = false)
    (hfind : env.findCluster params.ClusterID = .ok cluster)
    (hsoon : cluster.ImageInfo.CreatedAt + 10 * Second > env.now) :
    GenerateClusterISO cfg env params =
      { status := StatusConflict, committed := false, stored := some cluster.ImageInfo } := by
  unfold GenerateClusterISO
  simp only [htx, hfind, Bool.false_eq_true, if_false, hsoon, if_true]

theorem GenerateClusterISO_later (cfg : Config) (env : IsoEnv)
    (params : GenerateClusterISOParams) (cluster : Cluster) (htx : env.txError = false)
    (hfind : env.findCluster params.ClusterID = .ok cluster)
    (hlater : ¬ cluster.ImageInfo.CreatedAt + 10 * Second > env.now) :
    (GenerateClusterISO cfg env params).status ≠ StatusConflict ∧
    ((GenerateClusterISO cfg env params).committed = true →
      ∃ image, (GenerateClusterISO cfg env params).stored = some image ∧
        image.CreatedAt = env.now) := by
  unfold GenerateClusterISO
  simp only [htx, hfind, Bool.false_eq_true, if_false, hlater]
  repeat' split
  all_goals constructor
  all_goals first
    | decide
    | (intro h; cases h; done)
    | (intro _; exact ⟨_, rfl, rfl⟩)
    | (rename_i heq
       intro _
       refine ⟨_, rfl, ?_⟩
       have hc := congrArg (fun r => r.2.CreatedAt) heq
       simp only [updateImageInfoPostUpload_CreatedAt] at hc
       exact hc.symm)

/-- C16: for an existing cluster, `GenerateClusterISO` answers Conflict exactly when the
request time is less than 10 seconds after the cluster's image creation time, and then
nothing is committed and the stored image metadata is the previous one; whenever it
commits, the stored creation time is the request time, which is at least 10 seconds
after the previous creation time. -/
theorem GenerateClusterISO_conflict_window (cfg : Config) (env : IsoEnv)
    (params : GenerateClusterISOParams) (cluster : Cluster) (htx : env.txError = false)
    (hfind : env.findCluster params.ClusterID = .ok cluster) :
    ((GenerateClusterISO cfg env params).status = StatusConflict ↔
      env.now < cluster.ImageInfo.CreatedAt + 10 * Second) ∧
    ((GenerateClusterISO cfg env params).status = StatusConflict →
      (GenerateClusterISO cfg env params).committed = false ∧
      (GenerateClusterISO cfg env params).stored = some cluster.ImageInfo) ∧
    ((GenerateClusterISO cfg env params).committed = true →
      ∃ image, (GenerateClusterISO cfg env params).stored = some image ∧
        image.CreatedAt = env.now ∧
        image.CreatedAt ≥ cluster.ImageInfo.CreatedAt + 10 * Second) := by
  by_cases hsoon : cluster.ImageInfo.CreatedAt + 10 * Second > env.now
  · rw [GenerateClusterISO_too_soon cfg env params cluster htx hfind hsoon]
    refine ⟨⟨fun _ => hsoon, fun _ => rfl⟩, fun _ => ⟨rfl, rfl⟩, fun h => ?_⟩
    cases h
  · have h := GenerateClusterISO_later cfg env params cluster htx hfind hsoon
    refine ⟨⟨fun hs => absurd hs h.1, fun hlt => absurd hlt hsoon⟩,
      fun hs => absurd hs h.1, fun hc => ?_⟩
    obtain ⟨image, hst, hnow⟩ := h.2 hc
    refine ⟨image, hst, hnow, ?_⟩
    rw [hnow]
    omega

theorem GenerateClusterISO_conflict_window_witness :
    (GenerateClusterISO sampleConfig (sampleIsoEnv (105 * Second))
      { ClusterID := "c1", SSHPublicKey := "ssh-rsa key" }).status = StatusConflict ∧
    (GenerateClusterISO sampleConfig (sampleIsoEnv (105 * Second))
      { ClusterID := "c1", SSHPublicKey := "ssh-rsa key" }).stored = some sampleImage ∧
    ∃ image, (GenerateClusterISO sampleConfig (sampleIsoEnv (110 * Second))
        { ClusterID := "c1", SSHPublicKey := "ssh-rsa key" }).stored = some image ∧
      image.CreatedAt = 110 * Second ∧ image.CreatedAt ≥ sampleImage.CreatedAt + 10 * Second :=
  have hsoon := GenerateClusterISO_conflict_window sampleConfig (sampleIsoEnv (105 * Second))
    { ClusterID := "c1", SSHPublicKey := "ssh-rsa key" } sampleCluster rfl rfl
  have hlate := GenerateClusterISO_conflict_window sampleConfig (sampleIsoEnv (110 * Second))
    { ClusterID := "c1", SSHPublicKey := "ssh-rsa key" } sampleCluster rfl rfl
  ⟨hsoon.1.mpr (by decide), (hsoon.2.1 (hsoon.1.mpr (by decide))).2, hlate.2.2 (by decide)⟩

/-! ### `setBootstrapHost` -/

theorem setBootstrapLoop_calls (env : InstallEnv) (bootstrapId : UUID) (hosts : List Host) :
    ∀ call ∈ (setBootstrapLoop env bootstrapId hosts).1,
      call = Call.SetBootstrap bootstrapId true := by
  induction hosts with
  | nil => intro call h; cases h
  | cons h rest ih =>
    intro call hcall
    unfold setBootstrapLoop at hcall
    by_cases hid : h.ID = bootstrapId
    · rw [if_pos hid] at hcall
      cases hset : env.SetBootstrap h true with
      | some err =>
        rw [hset] at hcall
        rw [List.mem_singleton.mp hcall, hid]
      | none =>
        rw [hset] at hcall
        rcases List.mem_cons.mp hcall with heq | hmem
        · rw [heq, hid]
        · exact ih call hmem
    · rw [if_neg hid] at hcall
      exact ih call hcall

theorem setBootstrapLoop_ok (env : InstallEnv) (bootstrapId : UUID) (hosts : List Host)
    (hok : (setBootstrapLoop env bootstrapId hosts).2 = none) :
    (setBootstrapLoop env bootstrapId hosts).1 =
      (hosts.filter (fun h => h.ID = bootstrapId)).map (fun h => Call.SetBootstrap h.ID true) := by
  induction hosts with
  | nil => rfl
  | cons h rest ih =>
    unfold setBootstrapLoop at hok ⊢
    by_cases hid : h.ID = bootstrapId
    · rw [if_pos hid] at hok ⊢
      cases hset : env.SetBootstrap h true with
      | some err =>
        rw [hset] at hok
        cases hok
      | none =>
        rw [hset] at hok
        rw [List.filter_cons_of_pos (by simpa using hid), List.map_cons, ← ih hok]
    · rw [if_neg hid] at hok ⊢
      rw [List.filter_cons_of_neg (by simpa using hid)]
      exact ih hok

theorem setBootstrapLoop_succeeds (env : InstallEnv) (bootstrapId : UUID) (hosts : List Host)
    (hset : ∀ h ∈ hosts, h.ID = bootstrapId → env.SetBootstrap h true = none) :
    (setBootstrapLoop env bootstrapId hosts).2 = none := by
  induction hosts with
  | nil => rfl
  | cons h rest ih =>
    have ih2 := ih (fun h2 hmem => hset h2 (List.mem_cons_of_mem _ hmem))
    unfold setBootstrapLoop
    by_cases hid : h.ID = bootstrapId
    · rw [if_pos hid, hset h (List.mem_cons_self _ _) hid]
      exact ih2
    · rw [if_neg hid]
      exact ih2

theorem getD_last (ids : List UUID) (hne : ids ≠ []) :
    ids.getD (ids.length - 1) "" = ids.getLast hne := by
  have hlen : ids.length - 1 < ids.length := by
    have := List.length_pos.mpr hne
    omega
  rw [List.getLast_eq_getElem, List.getD_eq_getElem ids "" hlen]

theorem setBootstrapHost_of_masters (env : InstallEnv) (cluster : Cluster) (ids : List UUID)
    (hnone : ∀ h ∈ cluster.Hosts, h.Bootstrap = false)
    (hids : env.GetMasterNodesIds cluster = .ok ids) (hne : ids ≠ []) :
    setBootstrapHost env cluster = setBootstrapLoop env (ids.getLast hne) cluster.Hosts := by
  have hany : cluster.Hosts.any (fun h => h.Bootstrap) = false := by
    rw [List.any_eq_false]
    intro h hmem
    simp [hnone h hmem]
  have hlen : ¬ ids.length = 0 := fun h => hne (List.length_eq_zero.mp h)
  unfold setBootstrapHost
  simp only [hany, Bool.false_eq_true, if_false, hids, hlen, getD_last ids hne]

/-- C17: `setBootstrapHost` succeeds without any `SetBootstrap` call whenever some host
of the cluster already carries the bootstrap marker; otherwise, with the master-node id
list at hand, it fails without a call when the list is empty, and when it is not, every
call it makes is `SetBootstrap` with value true on the last id of the list, made for the
hosts of the cluster with that id, and it succeeds when those calls do. -/
theorem setBootstrapHost_last_master (env : InstallEnv) (cluster : Cluster) :
    ((∃ h ∈ cluster.Hosts, h.Bootstrap = true) → setBootstrapHost env cluster = ([], none)) ∧
    ((∀ h ∈ cluster.Hosts, h.Bootstrap = false) →
      ∀ ids, env.GetMasterNodesIds cluster = .ok ids →
        (ids = [] →
          (setBootstrapHost env cluster).1 = [] ∧ (setBootstrapHost env cluster).2 ≠ none) ∧
        (∀ hne : ids ≠ [],
          (∀ call ∈ (setBootstrapHost env cluster).1,
            call = Call.SetBootstrap (ids.getLast hne) true) ∧
          ((setBootstrapHost env cluster).2 = none →
            (setBootstrapHost env cluster).1 =
              (cluster.Hosts.filter (fun h => h.ID = ids.getLast hne)).map
                (fun h => Call.SetBootstrap h.ID true)) ∧
          ((∀ h ∈ cluster.Hosts, h.ID = ids.getLast hne → env.SetBootstrap h true = none) →
            (setBootstrapHost env cluster).2 = none))) := by
  constructor
  · rintro ⟨h, hmem, hb⟩
    have hany : cluster.Hosts.any (fun h => h.Bootstrap) = true :=
      List.any_eq_true.mpr ⟨h, hmem, hb⟩
    unfold setBootstrapHost
    rw [if_pos hany]
  · intro hnone ids hids
    constructor
    · intro hempty
      subst hempty
      have hany : cluster.Hosts.any (fun h => h.Bootstrap) = false := by
        rw [List.any_eq_false]
        intro h hmem
        simp [hnone h hmem]
      unfold setBootstrapHost
      simp [hany, hids]
    · intro hne
      rw [setBootstrapHost_of_masters env cluster ids hnone hids hne]
      exact ⟨setBootstrapLoop_calls env _ _, setBootstrapLoop_ok env _ _,
        setBootstrapLoop_succeeds env _ _⟩

theorem setBootstrapHost_last_master_witness :
    setBootstrapHost sampleInstallEnv
        { sampleCluster with
          Hosts := [{ ID := "h1", ClusterID := "c1", Role := "master", Bootstrap := true,
                      Status := "known" }] } = ([], none) ∧
    (setBootstrapHost sampleInstallEnv sampleCluster).1 = [Call.SetBootstrap "h3" true] ∧
    (setBootstrapHost sampleInstallEnv sampleCluster).2 = none :=
  have h := (setBootstrapHost_last_master sampleInstallEnv sampleCluster).2 (by decide)
    ["h1", "h2", "h3"] (by decide)
  ⟨(setBootstrapHost_last_master sampleInstallEnv _).1 ⟨_, List.mem_singleton.mpr rfl, rfl⟩,
   ((h.2 (by decide)).2.1 ((h.2 (by decide)).2.2 (by decide))).trans (by decide),
   (h.2 (by decide)).2.2 (by decide)⟩

/-! ### The bootstrap marker after the install step -/

theorem filter_id_length_one (hosts : List Host) (bootstrapId : UUID)
    (hids : (hosts.map (fun h => h.ID)).Nodup)
    (hmem : ∃ h ∈ hosts, h.ID = bootstrapId) :
    (hosts.filter (fun h => h.ID = bootstrapId)).length = 1 := by
  induction hosts with
  | nil =>
    obtain ⟨h, hm, _⟩ := hmem
    cases hm
  | cons h rest ih =>
    rw [List.map_cons, List.nodup_cons] at hids
    by_cases hid : h.ID = bootstrapId
    · rw [List.filter_cons_of_pos (by simpa using hid)]
      have hrest : rest.filter (fun h => h.ID = bootstrapId) = [] := by
        rw [List.filter_eq_nil_iff]
        intro h2 hm2 heq
        have heq2 : h2.ID = bootstrapId := by simpa using heq
        exact hids.1 (List.mem_map.mpr ⟨h2, hm2, heq2.trans hid.symm⟩)
      rw [hrest]
      rfl
    · rw [List.filter_cons_of_neg (by simpa using hid)]
      obtain ⟨h2, hm2, heq2⟩ := hmem
      rcases List.mem_cons.mp hm2 with hh | hr
      · exact absurd (hh ▸ heq2) hid
      · exact ih hids.2 ⟨h2, hr, heq2⟩

theorem bootstrapCount_applyCall (hosts : List Host) (bootstrapId : UUID)
    (hnone : ∀ h ∈ hosts, h.Bootstrap = false) :
    bootstrapCount (applyCall hosts (Call.SetBootstrap bootstrapId true)) =
      (hosts.filter (fun h => h.ID = bootstrapId)).length := by
  induction hosts with
  | nil => rfl
  | cons h rest ih =>
    have ih2 := ih (fun h2 hm => hnone h2 (List.mem_cons_of_mem _ hm))
    have hb := hnone h (List.mem_cons_self _ _)
    unfold bootstrapCount applyCall at ih2 ⊢
    simp only [List.map_cons] at ih2 ⊢
    by_cases hid : h.ID = bootstrapId
    · rw [if_pos hid, List.filter_cons_of_pos rfl, List.filter_cons_of_pos (by simpa using hid),
        List.length_cons, List.length_cons, ih2]
    · rw [if_neg hid, List.filter_cons_of_neg (by simp [hb]),
        List.filter_cons_of_neg (by simpa using hid), ih2]

theorem applyCalls_append (hosts : List Host) (calls1 calls2 : List Call) :
    applyCalls hosts (calls1 ++ calls2) = applyCalls (applyCalls hosts calls1) calls2 := by
  unfold applyCalls
  rw [List.foldl_append]

theorem applyCalls_InstallHost (hosts : List Host) (installed : List Host) :
    applyCalls hosts (installed.map (fun h => Call.InstallHost h.ID)) = hosts := by
  induction installed with
  | nil => rfl
  | cons h rest ih =>
    unfold applyCalls at ih ⊢
    rw [List.map_cons, List.foldl_cons]
    exact ih

theorem setBootstrapHost_one_bootstrap (env : InstallEnv) (cluster : Cluster)
    (hids : (cluster.Hosts.map (fun h => h.ID)).Nodup)
    (hmost : bootstrapCount cluster.Hosts ≤ 1)
    (hmasters : ∀ ids, env.GetMasterNodesIds cluster = .ok ids →
      ∀ id ∈ ids, ∃ h ∈ cluster.Hosts, h.ID = id)
    (hok : (setBootstrapHost env cluster).2 = none) :
    bootstrapCount (applyCalls cluster.Hosts (setBootstrapHost env cluster).1) = 1 := by
  by_cases hany : ∃ h ∈ cluster.Hosts, h.Bootstrap = true
  · have hany2 : cluster.Hosts.any (fun h => h.Bootstrap) = true := List.any_eq_true.mpr hany
    have hres : setBootstrapHost env cluster = ([], none) := by
      unfold setBootstrapHost
      rw [if_pos hany2]
    rw [hres]
    have hpos : 0 < bootstrapCount cluster.Hosts := by
      obtain ⟨h, hm, hb⟩ := hany
      exact List.length_pos_of_mem (List.mem_filter.mpr ⟨hm, hb⟩)
    show bootstrapCount cluster.Hosts = 1
    omega
  · have hnone : ∀ h ∈ cluster.Hosts, h.Bootstrap = false := by
      intro h hm
      cases hb : h.Bootstrap with
      | false => rfl
      | true => exact absurd ⟨h, hm, hb⟩ hany
    have hany2 : cluster.Hosts.any (fun h => h.Bootstrap) = false := by
      rw [List.any_eq_false]
      intro h hm
      simp [hnone h hm]
    cases hget : env.GetMasterNodesIds cluster with
    | error err =>
      simp [setBootstrapHost, hany2, hget] at hok
    | ok ids =>
      by_cases hne : ids = []
      · subst hne
        simp [setBootstrapHost, hany2, hget] at hok
      · rw [setBootstrapHost_of_masters env cluster ids hnone hget hne] at hok ⊢
        have hlen := filter_id_length_one cluster.Hosts (ids.getLast hne) hids
          (hmasters ids hget _ (List.getLast_mem hne))
        rw [setBootstrapLoop_ok env _ _ hok]
        obtain ⟨h0, hfilter⟩ := List.length_eq_one.mp hlen
        have hh0 : h0.ID = ids.getLast hne := by
          have hm : h0 ∈ cluster.Hosts.filter (fun h => h.ID = ids.getLast hne) := by
            rw [hfilter]
            exact List.mem_singleton.mpr rfl
          simpa using (List.mem_filter.mp hm).2
        rw [hfilter, List.map_singleton, hh0]
        show bootstrapCount (applyCall cluster.Hosts (Call.SetBootstrap (ids.getLast hne) true)) = 1
        rw [bootstrapCount_applyCall cluster.Hosts _ hnone, hlen]

theorem install_ok (env : InstallEnv) (clusterID : UUID) (cluster : Cluster)
    (hfind : env.findCluster clusterID = .ok cluster)
    (hok : (install env clusterID).2 = none) :
    (setBootstrapHost env cluster).2 = none ∧
    (install env clusterID).1 =
      Call.CreateDNSRecordSets cluster.ID :: Call.InstallCluster cluster.ID ::
        ((setBootstrapHost env cluster).1 ++
          cluster.Hosts.map (fun h => Call.InstallHost h.ID)) := by
  unfold install at hok ⊢
  simp only [hfind] at hok ⊢
  cases hdns : env.createDNSRecordSets cluster with
  | some e => simp [hdns] at hok
  | none =>
    simp only [hdns] at hok ⊢
    cases hinst : env.InstallCluster cluster with
    | some e => simp [hinst] at hok
    | none =>
      simp only [hinst] at hok ⊢
      rcases hsb : setBootstrapHost env cluster with ⟨calls, _ | err⟩
      · simp only [hsb] at hok ⊢
        exact ⟨trivial, rfl⟩
      · simp [hsb] at hok

theorem specInstallEnv_masters (findCluster : UUID → Except String Cluster)
    (createDNSRecordSets InstallCluster : Cluster → GoError) (getMasterError : GoError)
    (SetBootstrap : Host → Bool → GoError) (InstallHost : Host → GoError)
    (cluster : Cluster) (ids : List UUID)
    (hids : (specInstallEnv findCluster createDNSRecordSets InstallCluster getMasterError
      SetBootstrap InstallHost).GetMasterNodesIds cluster = .ok ids) :
    ∀ id ∈ ids, ∃ h ∈ cluster.Hosts, h.ID = id := by
  intro id hmem
  cases getMasterError with
  | some e => cases hids
  | none =>
    have hids2 : masterNodesIds cluster = ids := by
      simpa [specInstallEnv] using hids
    rw [← hids2] at hmem
    unfold masterNodesIds at hmem
    rw [(List.perm_insertionSort _ _).mem_iff] at hmem
    obtain ⟨h, hm, hid⟩ := List.mem_map.mp hmem
    exact ⟨h, (List.mem_filter.mp hm).1, hid⟩

/-- C18: starting from a cluster whose host ids are pairwise distinct and in which at
most one host carries the bootstrap marker, and whose master-node ids are ids of its
hosts, when `setBootstrapHost` returns no error the hosts as its calls leave them have
exactly one bootstrap; so has the cluster after a successful `install`. -/
theorem install_exactly_one_bootstrap (env : InstallEnv) (cluster : Cluster)
    (hids : (cluster.Hosts.map (fun h => h.ID)).Nodup)
    (hmost : bootstrapCount cluster.Hosts ≤ 1)
    (hmasters : ∀ ids, env.GetMasterNodesIds cluster = .ok ids →
      ∀ id ∈ ids, ∃ h ∈ cluster.Hosts, h.ID = id) :
    ((setBootstrapHost env cluster).2 = none →
      bootstrapCount (applyCalls cluster.Hosts (setBootstrapHost env cluster).1) = 1) ∧
    (∀ clusterID, env.findCluster clusterID = .ok cluster →
      (install env clusterID).2 = none →
      bootstrapCount (applyCalls cluster.Hosts (install env clusterID).1) = 1) := by
  refine ⟨setBootstrapHost_one_bootstrap env cluster hids hmost hmasters, ?_⟩
  intro clusterID hfind hok
  obtain ⟨hsb, hcalls⟩ := install_ok env clusterID cluster hfind hok
  rw [hcalls]
  show bootstrapCount (applyCalls cluster.Hosts ((setBootstrapHost env cluster).1 ++
    cluster.Hosts.map (fun h => Call.InstallHost h.ID))) = 1
  rw [applyCalls_append, applyCalls_InstallHost]
  exact setBootstrapHost_one_bootstrap env cluster hids hmost hmasters hsb

theorem install_exactly_one_bootstrap_witness :
    (install sampleInstallEnv "c1").2 = none ∧
    bootstrapCount sampleCluster.Hosts = 0 ∧
    bootstrapCount (applyCalls sampleCluster.Hosts (install sampleInstallEnv "c1").1) = 1 :=
  ⟨by decide, by decide,
   (install_exactly_one_bootstrap sampleInstallEnv sampleCluster (by decide) (by decide)
      (specInstallEnv_masters _ _ _ _ _ _ sampleCluster)).2 "c1" rfl (by decide)⟩

/-! ### `checkFileForDownload` -/

/-- C19: `checkFileForDownload` rejects with BadRequest, without looking the cluster up,
every file name outside the eight allow-listed names; for an allow-listed name and a
cluster that is found, the gate asked is `DownloadKubeconfig` exactly when the name is
kubeconfig and `DownloadFiles` otherwise, the answer is Conflict when the gate refuses
and no error when it allows. -/
theorem checkFileForDownload_gates (env : DownloadEnv) (clusterID : UUID)
    (fileName : String) :
    clusterFileNames = ["kubeconfig", "bootstrap.ign", "master.ign", "worker.ign",
      "metadata.json", "kubeadmin-password", "kubeconfig-noingress", "install-config.yaml"] ∧
    (fileName ∉ clusterFileNames →
      (checkFileForDownload env clusterID fileName).lookedUp = false ∧
      (checkFileForDownload env clusterID fileName).gate = none ∧
      ∃ msg, (checkFileForDownload env clusterID fileName).err =
        some (.api StatusBadRequest msg)) ∧
    (fileName ∈ clusterFileNames → ∀ cluster, env.findCluster clusterID = .ok cluster →
      ((checkFileForDownload env clusterID fileName).gate = some .DownloadKubeconfig ↔
        fileName = "kubeconfig") ∧
      ((checkFileForDownload env clusterID fileName).gate = some .DownloadFiles ↔
        fileName ≠ "kubeconfig") ∧
      (fileName = "kubeconfig" →
        (checkFileForDownload env clusterID fileName).err =
          (env.DownloadKubeconfig cluster).map (fun e => .api StatusConflict e)) ∧
      (fileName ≠ "kubeconfig" →
        (checkFileForDownload env clusterID fileName).err =
          (env.DownloadFiles cluster).map (fun e => .api StatusConflict e))) := by
  refine ⟨rfl, ?_, ?_⟩
  · intro hnot
    have hc : clusterFileNames.contains fileName = false := by
      rw [Bool.eq_false_iff]
      intro h
      exact hnot (by simpa using h)
    unfold checkFileForDownload
    simp only [hc, Bool.not_false, if_true]
    exact ⟨trivial, trivial, _, rfl⟩
  · intro hmem cluster hfind
    have hc : clusterFileNames.contains fileName = true := by simpa using hmem
    unfold checkFileForDownload
    simp only [hc, Bool.not_true, Bool.false_eq_true, if_false, hfind]
    by_cases hk : fileName = "kubeconfig"
    · have hk2 : fileName = kubeconfig := hk
      rw [if_pos hk2]
      cases env.DownloadKubeconfig cluster <;> simp [hk]
    · have hk2 : ¬ fileName = kubeconfig := hk
      rw [if_neg hk2]
      cases env.DownloadFiles cluster <;> simp [hk]

theorem checkFileForDownload_gates_witness :
    checkFileForDownload sampleDownloadEnv "c1" "logs.tar" =
      { lookedUp := false, gate := none,
        err := some (.api StatusBadRequest "invalid cluster file logs.tar") } ∧
    (checkFileForDownload sampleDownloadEnv "c1" "kubeconfig").gate =
      some .DownloadKubeconfig ∧
    (checkFileForDownload sampleDownloadEnv "c1" "kubeconfig").err =
      some (.api StatusConflict "cluster is not installed") ∧
    (checkFileForDownload sampleDownloadEnv "c1" "master.ign").gate = some .DownloadFiles ∧
    (checkFileForDownload sampleDownloadEnv "c1" "master.ign").err = none :=
  have hk := (checkFileForDownload_gates sampleDownloadEnv "c1" "kubeconfig").2.2
    (by decide) sampleCluster rfl
  have hm := (checkFileForDownload_gates sampleDownloadEnv "c1" "master.ign").2.2
    (by decide) sampleCluster rfl
  ⟨by decide, hk.1.mpr rfl, hk.2.2.1 rfl, hm.2.1.mpr (by decide), hm.2.2.2 (by decide)⟩

/-! ### `updateClusterData` -/

/-- C20, counterexample: the sample cluster is in VIP-DHCP-allocation mode; an update
that supplies api_vip is rejected with status 400 (BadRequest), which is not Conflict
(409). -/
theorem updateClusterData_dhcp_vip_not_conflict :
    vipDhcpInEffect sampleCluster { emptyUpdate with APIVip := some "10.0.0.5" } = true ∧
    updateClusterData sampleUpdateEnv sampleCluster
        { emptyUpdate with APIVip := some "10.0.0.5" } =
      ([], some (.api 400
        "Setting API VIP is forbidden when cluster is in vip-dhcp-allocation mode")) ∧
    (updateClusterData sampleUpdateEnv sampleCluster
        { emptyUpdate with APIVip := some "10.0.0.5" }).2.map HandlerError.status ≠
      some StatusConflict := by
  decide

/-- C20, amended: an update that supplies api_vip or ingress_vip while VIP-DHCP
allocation is in effect for the cluster (the stored value, or the value of the request
when it supplies a different one) is rejected with BadRequest, and no cluster field is
written. -/
theorem updateClusterData_dhcp_vip_rejected (env : UpdateEnv) (cluster : Cluster)
    (params : ClusterUpdateParams) (hdhcp : vipDhcpInEffect cluster params = true)
    (hvip : params.APIVip ≠ none ∨ params.IngressVip ≠ none) :
    (updateClusterData env cluster params).1 = [] ∧
    ∃ msg, (updateClusterData env cluster params).2 = some (.api StatusBadRequest msg) := by
  unfold updateClusterData
  simp only [hdhcp, if_true]
  unfold updateDhcpNetworkParams
  by_cases hapi : params.APIVip ≠ none
  · rw [if_pos hapi]
    exact ⟨rfl, _, rfl⟩
  · rw [if_neg hapi]
    have hingress : params.IngressVip ≠ none := hvip.resolve_left hapi
    rw [if_pos hingress]
    exact ⟨rfl, _, rfl⟩

theorem updateClusterData_dhcp_vip_rejected_witness :
    (updateClusterData sampleUpdateEnv sampleCluster
      { emptyUpdate with IngressVip := some "10.0.0.6" }).1 = [] ∧
    (∃ msg, (updateClusterData sampleUpdateEnv sampleCluster
      { emptyUpdate with IngressVip := some "10.0.0.6" }).2 =
        some (.api StatusBadRequest msg)) ∧
    (updateClusterData sampleUpdateEnv { sampleCluster with VipDhcpAllocation := some false }
      { emptyUpdate with VipDhcpAllocation := some true, APIVip := some "10.0.0.5" }).1 = [] :=
  have h1 := updateClusterData_dhcp_vip_rejected sampleUpdateEnv sampleCluster
    { emptyUpdate with IngressVip := some "10.0.0.6" } (by decide) (Or.inr (by decide))
  have h2 := updateClusterData_dhcp_vip_rejected sampleUpdateEnv
    { sampleCluster with VipDhcpAllocation := some false }
    { emptyUpdate with VipDhcpAllocation := some true, APIVip := some "10.0.0.5" }
    (by decide) (Or.inl (by decide))
  ⟨h1.1, h1.2, h2.1⟩

end Bminventory

namespace Network
open GoNet

theorem shl1_of_lt (k : Int) (h0 : 0 ≤ k) (hk : k < 64) : shl1 k = 2 ^ k.toNat := by
  unfold shl1
  rw [Nat.one_shiftLeft]
  apply Nat.mod_eq_of_lt
  exact Nat.pow_lt_pow_right (by decide) (by omega)

theorem shl1_of_ge (k : Int) (hk : 64 ≤ k) : shl1 k = 0 := by
  unfold shl1
  rw [Nat.one_shiftLeft]
  apply Nat.mod_eq_zero_of_dvd
  exact Nat.pow_dvd_pow 2 (by omega)

theorem wrapInt_of_range (x : Int) (h1 : -2 ^ 63 ≤ x) (h2 : x < 2 ^ 63) : wrapInt x = x := by
  unfold wrapInt
  omega

theorem toUint64_of_nonneg (x : Int) (h1 : 0 ≤ x) (h2 : x < 2 ^ 63) :
    toUint64 x = x.toNat := by
  unfold toUint64
  congr 1
  omega

theorem max_cases (x y : Int) : (x > y ∧ max x y = x) ∨ (¬ x > y ∧ max x y = y) := by
  unfold max
  by_cases h : x > y
  · exact Or.inl ⟨h, by rw [if_pos h]⟩
  · exact Or.inr ⟨h, by rw [if_neg h]⟩

theorem VerifyClusterCidrSize_eq (hostNetworkPrefix numberOfHosts : Int)
    (clusterNetworkCIDR : String) (ip : IP) (cidr : IPNet) (clusterPrefix bits : Int)
    (hparse : ParseCIDR clusterNetworkCIDR = some (ip, cidr))
    (hsize : Size cidr.Mask = (clusterPrefix, bits))
    (hhostbits : hostNetworkPrefix ≤ bits - 7) :
    failed (VerifyClusterCidrSize hostNetworkPrefix clusterNetworkCIDR numberOfHosts) =
      decide (toUint64 (max 4 numberOfHosts) >
        shl1 (max (wrapInt (hostNetworkPrefix - clusterPrefix)) 0)) := by
  have hnot : ¬ hostNetworkPrefix > bits - 7 := by omega
  unfold VerifyClusterCidrSize
  simp only [hparse, hsize, hnot, if_false]
  by_cases h : toUint64 (max 4 numberOfHosts) >
      shl1 (max (wrapInt (hostNetworkPrefix - clusterPrefix)) 0)
  · rw [if_pos h, decide_eq_true h]
    rfl
  · rw [if_neg h, decide_eq_false h]
    rfl

theorem Size_of_ParseCIDR (s : String) (ip : IP) (cidr : IPNet)
    (h : ParseCIDR s = some (ip, cidr)) :
    ∃ n : Nat, (n ≤ 32 ∧ Size cidr.Mask = ((n : Int), 32)) ∨
      (n ≤ 128 ∧ Size cidr.Mask = ((n : Int), 128)) := by
  obtain ⟨n, _, hcase⟩ := ParseCIDR_shape s ip cidr h
  rcases hcase with ⟨hn, hm, _⟩ | ⟨hn, hm, _⟩
  · exact ⟨n, Or.inl ⟨hn, by rw [hm, Size_CIDRMask_32 n hn]⟩⟩
  · exact ⟨n, Or.inr ⟨hn, by rw [hm, Size_CIDRMask_128 n hn]⟩⟩

/-- C30: the capacity in `VerifyClusterCidrSize` is `uint64(1) << max(d, 0)` with
d = hostPrefix - clusterPrefix.  For an IPv6 cluster CIDR with hostPrefix at most 121 and
d at least 64 it is 0 and the function fails for every number of hosts; whenever d is
below 64 it is exactly 2^max(d, 0), and the function fails exactly when max(4, hosts)
exceeds that value. -/
theorem VerifyClusterCidrSize_capacity (hostNetworkPrefix numberOfHosts : Int)
    (clusterNetworkCIDR : String) (ip : IP) (cidr : IPNet)
    (hparse : ParseCIDR clusterNetworkCIDR = some (ip, cidr))
    (hhosts1 : -2 ^ 63 ≤ numberOfHosts) (hhosts2 : numberOfHosts < 2 ^ 63) :
    (∀ clusterPrefix : Int, Size cidr.Mask = (clusterPrefix, 128) →
      hostNetworkPrefix ≤ 121 → hostNetworkPrefix - clusterPrefix ≥ 64 →
      shl1 (max (wrapInt (hostNetworkPrefix - clusterPrefix)) 0) = 0 ∧
      failed (VerifyClusterCidrSize hostNetworkPrefix clusterNetworkCIDR numberOfHosts) =
        true) ∧
    (∀ clusterPrefix bits : Int, Size cidr.Mask = (clusterPrefix, bits) →
      -2 ^ 63 ≤ hostNetworkPrefix - clusterPrefix → hostNetworkPrefix - clusterPrefix < 64 →
      shl1 (max (wrapInt (hostNetworkPrefix - clusterPrefix)) 0) =
        2 ^ (max (hostNetworkPrefix - clusterPrefix) 0).toNat ∧
      (hostNetworkPrefix ≤ bits - 7 →
        (failed (VerifyClusterCidrSize hostNetworkPrefix clusterNetworkCIDR numberOfHosts) =
            true ↔
          max 4 numberOfHosts > 2 ^ (max (hostNetworkPrefix - clusterPrefix) 0).toNat))) := by
  have hreq1 : 4 ≤ max 4 numberOfHosts := by
    rcases max_cases 4 numberOfHosts with ⟨h, he⟩ | ⟨h, he⟩ <;> omega
  have hreq2 : max 4 numberOfHosts < 2 ^ 63 := by
    rcases max_cases 4 numberOfHosts with ⟨h, he⟩ | ⟨h, he⟩ <;> omega
  have hreq : toUint64 (max 4 numberOfHosts) = (max 4 numberOfHosts).toNat :=
    toUint64_of_nonneg _ (by omega) hreq2
  constructor
  · intro clusterPrefix hsize hhostbits hwide
    have hc : 0 ≤ clusterPrefix := by
      obtain ⟨n, h32 | h128⟩ := Size_of_ParseCIDR _ _ _ hparse
      · rw [hsize] at h32
        have := (Prod.mk.inj h32.2).2
        omega
      · rw [hsize] at h128
        have := (Prod.mk.inj h128.2).1
        omega
    have hw : wrapInt (hostNetworkPrefix - clusterPrefix) = hostNetworkPrefix - clusterPrefix :=
      wrapInt_of_range _ (by omega) (by omega)
    have hmax : max (hostNetworkPrefix - clusterPrefix) 0 = hostNetworkPrefix - clusterPrefix := by
      rcases max_cases (hostNetworkPrefix - clusterPrefix) 0 with ⟨h, he⟩ | ⟨h, he⟩ <;> omega
    have hzero : shl1 (max (wrapInt (hostNetworkPrefix - clusterPrefix)) 0) = 0 := by
      rw [hw, hmax]
      exact shl1_of_ge _ hwide
    refine ⟨hzero, ?_⟩
    rw [VerifyClusterCidrSize_eq hostNetworkPrefix numberOfHosts clusterNetworkCIDR ip cidr
      clusterPrefix 128 hparse hsize (by omega), hzero, hreq, decide_eq_true_eq]
    omega
  · intro clusterPrefix bits hsize hlow hnarrow
    have hw : wrapInt (hostNetworkPrefix - clusterPrefix) = hostNetworkPrefix - clusterPrefix :=
      wrapInt_of_range _ hlow (by omega)
    have hm0 : 0 ≤ max (hostNetworkPrefix - clusterPrefix) 0 := by
      rcases max_cases (hostNetworkPrefix - clusterPrefix) 0 with ⟨h, he⟩ | ⟨h, he⟩ <;> omega
    have hm1 : max (hostNetworkPrefix - clusterPrefix) 0 < 64 := by
      rcases max_cases (hostNetworkPrefix - clusterPrefix) 0 with ⟨h, he⟩ | ⟨h, he⟩ <;> omega
    have hexact : shl1 (max (wrapInt (hostNetworkPrefix - clusterPrefix)) 0) =
        2 ^ (max (hostNetworkPrefix - clusterPrefix) 0).toNat := by
      rw [hw]
      exact shl1_of_lt _ hm0 hm1
    refine ⟨hexact, fun hhostbits => ?_⟩
    rw [VerifyClusterCidrSize_eq hostNetworkPrefix numberOfHosts clusterNetworkCIDR ip cidr
      clusterPrefix bits hparse hsize hhostbits, hexact, hreq, decide_eq_true_eq]
    constructor
    · intro h
      have h2 : ((2 ^ (max (hostNetworkPrefix - clusterPrefix) 0).toNat : Nat) : Int) <
          ((max 4 numberOfHosts).toNat : Int) := by exact_mod_cast h
      rw [Int.toNat_of_nonneg (by omega)] at h2
      exact_mod_cast h2
    · intro h
      have h2 : ((2 ^ (max (hostNetworkPrefix - clusterPrefix) 0).toNat : Nat) : Int) <
          ((max 4 numberOfHosts).toNat : Int) := by
        rw [Int.toNat_of_nonneg (by omega)]
        exact_mod_cast h
      exact_mod_cast h2

theorem VerifyClusterCidrSize_capacity_witness :
    (shl1 (max (wrapInt (80 - 8)) 0) = 0 ∧
      failed (VerifyClusterCidrSize 80 "fd00::/8" 5) = true) ∧
    shl1 (max (wrapInt (23 - 14)) 0) = 2 ^ (max (23 - 14) 0).toNat :=
  have h6 := VerifyClusterCidrSize_capacity 80 5 "fd00::/8"
    [0xfd, 0, 0, 0, 0, 0, 0, 0, 0, 0, 0, 0, 0, 0, 0, 0]
    { IP := [0xfd, 0, 0, 0, 0, 0, 0, 0, 0, 0, 0, 0, 0, 0, 0, 0],
      Mask := [0xff, 0, 0, 0, 0, 0, 0, 0, 0, 0, 0, 0, 0, 0, 0, 0] }
    (by decide) (by decide) (by decide)
  have h4 := VerifyClusterCidrSize_capacity 23 5 "10.128.0.0/14" (IPv4 10 128 0 0)
    { IP := [10, 128, 0, 0], Mask := [0xff, 0xfc, 0, 0] } (by decide) (by decide) (by decide)
  ⟨h6.1 8 (by decide) (by decide) (by decide),
   (h4.2 14 32 (by decide) (by decide) (by decide)).1⟩

end Network

namespace Bminventory

/-! ### `updateClusterData` outside VIP-DHCP allocation -/

theorem Updates.get_set_same (updates : Updates) (key : String) (value : Value) :
    (updates.set key value).get key = some value := by
  unfold Updates.set Updates.get
  induction updates with
  | nil => simp
  | cons kv rest ih =>
    by_cases h : kv.1 = key
    · rw [List.filter_cons_of_neg (by simpa using h)]
      exact ih
    · rw [List.filter_cons_of_pos (by simpa using h), List.cons_append,
        List.find?_cons_of_neg _ (by simpa using h)]
      exact ih

theorem Updates.get_set_other (updates : Updates) (key other : String) (value : Value)
    (hne : other ≠ key) : (updates.set key value).get other = updates.get other := by
  unfold Updates.set Updates.get
  induction updates with
  | nil => simp [hne.symm]
  | cons kv rest ih =>
    by_cases h : kv.1 = key
    · have hko : ¬ kv.1 = other := fun h2 => hne (h2.symm.trans h)
      rw [List.filter_cons_of_neg (by simpa using h),
        List.find?_cons_of_neg _ (by simpa using hko)]
      exact ih
    · rw [List.filter_cons_of_pos (by simpa using h), List.cons_append]
      by_cases h2 : kv.1 = other
      · rw [List.find?_cons_of_pos _ (by simpa using h2),
          List.find?_cons_of_pos _ (by simpa using h2)]
      · rw [List.find?_cons_of_neg _ (by simpa using h2),
          List.find?_cons_of_neg _ (by simpa using h2)]
        exact ih

theorem get_setIfGiven_other (updates : Updates) (key other : String) (field : Option String)
    (hne : other ≠ key) : (setIfGiven updates key field).get other = updates.get other := by
  cases field with
  | none => rfl
  | some v => exact Updates.get_set_other updates key other (.str v) hne

theorem updateNonDhcpNetworkParams_ok (env : UpdateEnv) (updates : Updates)
    (cluster : Cluster) (params : ClusterUpdateParams)
    (hcidr : params.MachineNetworkCidr = none) :
    ((updateNonDhcpNetworkParams env updates cluster params).2 = none ↔
      ∃ machineCidr,
        env.CalculateMachineNetworkCIDR (effectiveApiVip cluster params)
          (effectiveIngressVip cluster params) cluster.Hosts = .ok machineCidr ∧
        env.VerifyVips cluster.Hosts machineCidr (effectiveApiVip cluster params)
          (effectiveIngressVip cluster params) false = none) ∧
    (∀ machineCidr,
      env.CalculateMachineNetworkCIDR (effectiveApiVip cluster params)
        (effectiveIngressVip cluster params) cluster.Hosts = .ok machineCidr →
      (updateNonDhcpNetworkParams env updates cluster params).2 = none →
      (updateNonDhcpNetworkParams env updates cluster params).1.get "machine_network_cidr" =
        some (.str machineCidr)) := by
  rcases hA : params.APIVip with _ | a <;> rcases hI : params.IngressVip with _ | b <;>
    simp only [updateNonDhcpNetworkParams, effectiveApiVip, effectiveIngressVip, hA, hI,
      hcidr, ne_eq, not_true_eq_false, if_false] <;>
    repeat' split
  all_goals simp_all [Updates.get_set_same]

/-- C21: when VIP-DHCP allocation is not in effect, `updateClusterData` rejects with
BadRequest, without any write, every request that supplies machine_network_cidr;
otherwise every write it makes sets machine_network_cidr to the value that
`CalculateMachineNetworkCIDR` derives from the API and Ingress VIPs (those of the request
where given, the stored ones otherwise) and the hosts of the cluster, and that write is
made when the calculation and the VIP verification succeed. -/
theorem updateClusterData_derives_machine_cidr (env : UpdateEnv) (cluster : Cluster)
    (params : ClusterUpdateParams) (hdhcp : vipDhcpInEffect cluster params = false) :
    (params.MachineNetworkCidr ≠ none →
      (updateClusterData env cluster params).1 = [] ∧
      ∃ msg, (updateClusterData env cluster params).2 = some (.api StatusBadRequest msg)) ∧
    (params.MachineNetworkCidr = none →
      (∀ call ∈ (updateClusterData env cluster params).1,
        ∃ updates machineCidr, call = Call.UpdateCluster cluster.ID updates ∧
          env.CalculateMachineNetworkCIDR (effectiveApiVip cluster params)
            (effectiveIngressVip cluster params) cluster.Hosts = .ok machineCidr ∧
          updates.get "machine_network_cidr" = some (.str machineCidr)) ∧
      (∀ machineCidr,
        env.CalculateMachineNetworkCIDR (effectiveApiVip cluster params)
          (effectiveIngressVip cluster params) cluster.Hosts = .ok machineCidr →
        env.VerifyVips cluster.Hosts machineCidr (effectiveApiVip cluster params)
          (effectiveIngressVip cluster params) false = none →
        ∃ updates, (updateClusterData env cluster params).1 =
            [Call.UpdateCluster cluster.ID updates] ∧
          updates.get "machine_network_cidr" = some (.str machineCidr))) := by
  constructor
  · intro hcidr
    unfold updateClusterData
    simp only [hdhcp, Bool.false_eq_true, if_false]
    unfold updateNonDhcpNetworkParams
    simp only [hcidr, ne_eq, not_false_eq_true, if_true]
    exact ⟨trivial, _, rfl⟩
  · intro hcidr
    have hnet := updateNonDhcpNetworkParams_ok env (updatesBeforeNetwork cluster params)
      cluster params hcidr
    have hshape : ∀ updates1,
        updateNonDhcpNetworkParams env (updatesBeforeNetwork cluster params) cluster params =
          (updates1, none) →
        ∃ updates, (updateClusterData env cluster params).1 =
            [Call.UpdateCluster cluster.ID updates] ∧
          updates.get "machine_network_cidr" = updates1.get "machine_network_cidr" := by
      intro updates1 hres
      unfold updateClusterData
      simp only [hdhcp, Bool.false_eq_true, if_false, hres]
      cases hpull : params.PullSecret with
      | none =>
        refine ⟨setIfGiven updates1 "ssh_public_key" params.SSHPublicKey, ?_,
          get_setIfGiven_other _ _ _ _ (by decide)⟩
        cases env.updateClusterError (setIfGiven updates1 "ssh_public_key" params.SSHPublicKey)
          <;> rfl
      | some v =>
        refine ⟨((setIfGiven updates1 "ssh_public_key" params.SSHPublicKey).set "pull_secret"
          (.str v)).set "pull_secret_set" (.bool (v ≠ "")), ?_, ?_⟩
        · cases env.updateClusterError
            (((setIfGiven updates1 "ssh_public_key" params.SSHPublicKey).set "pull_secret"
              (.str v)).set "pull_secret_set" (.bool (v ≠ ""))) <;> rfl
        · rw [Updates.get_set_other _ _ _ _ (by decide),
            Updates.get_set_other _ _ _ _ (by decide),
            get_setIfGiven_other _ _ _ _ (by decide)]
    constructor
    · intro call hcall
      rcases hres : updateNonDhcpNetworkParams env (updatesBeforeNetwork cluster params)
        cluster params with ⟨updates1, _ | err⟩
      · have hnone : (updateNonDhcpNetworkParams env (updatesBeforeNetwork cluster params)
            cluster params).2 = none := by rw [hres]
        obtain ⟨machineCidr, hcalc, _⟩ := hnet.1.mp hnone
        obtain ⟨updates, hcalls, hget⟩ := hshape updates1 hres
        rw [hcalls] at hcall
        refine ⟨updates, machineCidr, List.mem_singleton.mp hcall, hcalc, ?_⟩
        rw [hget]
        have := hnet.2 machineCidr hcalc hnone
        rw [hres] at this
        exact this
      · exfalso
        unfold updateClusterData at hcall
        simp only [hdhcp, Bool.false_eq_true, if_false, hres] at hcall
        cases hcall
    · intro machineCidr hcalc hverify
      have hnone := hnet.1.mpr ⟨machineCidr, hcalc, hverify⟩
      rcases hres : updateNonDhcpNetworkParams env (updatesBeforeNetwork cluster params)
        cluster params with ⟨updates1, _ | err⟩
      · obtain ⟨updates, hcalls, hget⟩ := hshape updates1 hres
        refine ⟨updates, hcalls, ?_⟩
        rw [hget]
        have := hnet.2 machineCidr hcalc hnone
        rw [hres] at this
        exact this
      · rw [hres] at hnone
        cases hnone

theorem updateClusterData_derives_machine_cidr_witness :
    (updateClusterData sampleUpdateEnv { sampleCluster with VipDhcpAllocation := some false }
      { emptyUpdate with MachineNetworkCidr := some "192.168.0.0/24" }).1 = [] ∧
    ∃ updates,
      (updateClusterData sampleUpdateEnv { sampleCluster with VipDhcpAllocation := some false }
        { emptyUpdate with APIVip := some "10.0.0.5" }).1 = [Call.UpdateCluster "c1" updates] ∧
      updates.get "machine_network_cidr" = some (.str "10.0.0.0/24") :=
  ⟨((updateClusterData_derives_machine_cidr sampleUpdateEnv
      { sampleCluster with VipDhcpAllocation := some false }
      { emptyUpdate with MachineNetworkCidr := some "192.168.0.0/24" } (by decide)).1
      (by decide)).1,
   ((updateClusterData_derives_machine_cidr sampleUpdateEnv
      { sampleCluster with VipDhcpAllocation := some false }
      { emptyUpdate with APIVip := some "10.0.0.5" } (by decide)).2 rfl).2 "10.0.0.0/24"
      rfl rfl⟩

end Bminventory

/-! ## Theorems: the host monitor -/

namespace Monitor

theorem refreshHosts_mem (env : MonitorEnv) (hosts : List Host) :
    ∀ calls, ∀ h ∈ (refreshHosts env hosts calls).1, h ∈ hosts ∧ SkipMonitoring h = false := by
  induction hosts with
  | nil => intro calls h hm; cases hm
  | cons host rest ih =>
    intro calls h hm
    unfold refreshHosts at hm
    by_cases hl : (!env.IsLeader calls) = true
    · rw [if_pos hl] at hm
      cases hm
    · rw [if_neg hl] at hm
      by_cases hs : (!SkipMonitoring host) = true
      · simp only [hs, if_true] at hm
        rcases List.mem_cons.mp hm with heq | hrest
        · subst heq
          exact ⟨List.mem_cons_self _ _, by simpa using hs⟩
        · exact ⟨List.mem_cons_of_mem _ (ih _ h hrest).1, (ih _ h hrest).2⟩
      · simp only [hs, if_false] at hm
        exact ⟨List.mem_cons_of_mem _ (ih _ h hm).1, (ih _ h hm).2⟩

theorem findClusters_mem (env : MonitorEnv) (offset limit : Nat) (h : Host)
    (hm : h ∈ (findClusters env offset limit).flatMap (fun c => c.Hosts)) :
    h.Status ∈ monitorStates ∧ ∃ c ∈ env.clusters, h ∈ c.Hosts := by
  unfold findClusters at hm
  obtain ⟨c1, hc1, hh⟩ := List.mem_flatMap.mp hm
  obtain ⟨c, hc, rfl⟩ := List.mem_map.mp hc1
  have hf := List.mem_filter.mp hh
  refine ⟨by simpa using hf.2, c, ?_, hf.1⟩
  exact (List.mem_filter.mp (List.mem_of_mem_drop (List.mem_of_mem_take hc))).1

theorem HostMonitoringLoop_mem (env : MonitorEnv) (fuel : Nat) :
    ∀ offset calls, ∀ h ∈ (HostMonitoringLoop env fuel offset calls).refreshed,
      h.Status ∈ monitorStates ∧ SkipMonitoring h = false ∧ ∃ c ∈ env.clusters, h ∈ c.Hosts := by
  induction fuel with
  | zero => intro offset calls h hm; cases hm
  | succ fuel ih =>
    intro offset calls h hm
    unfold HostMonitoringLoop at hm
    split at hm
    · cases hm
    · simp only at hm
      split at hm
      · cases hm
      · have hpage := refreshHosts_mem env
          ((findClusters env offset env.MonitorBatchSize).flatMap (fun c => c.Hosts)) calls
        split at hm
        · rename_i heq
          rw [heq] at hpage
          have h1 := hpage h hm
          have h2 := findClusters_mem env _ _ h h1.1
          exact ⟨h2.1, h1.2, h2.2⟩
        · rename_i heq
          rw [heq] at hpage
          rcases List.mem_append.mp hm with h0 | h0
          · have h1 := hpage h h0
            have h2 := findClusters_mem env _ _ h h1.1
            exact ⟨h2.1, h1.2, h2.2⟩
          · exact ih _ _ h h0

theorem HostMonitoring_mem (env : MonitorEnv) (h : Host)
    (hm : h ∈ (HostMonitoring env).refreshed) :
    h.Status ∈ monitorStates ∧ SkipMonitoring h = false ∧ ∃ c ∈ env.clusters, h ∈ c.Hosts := by
  unfold HostMonitoring at hm
  split at hm
  · cases hm
  · exact HostMonitoringLoop_mem env _ _ _ h hm

theorem SkipMonitoring_iff (h : Host) :
    SkipMonitoring h = true ↔
      (h.Status = "error" ∨ h.Status = "cancelled") ∧ h.LogsInfo.goType = "string" ∧
      (h.LogsInfo.text = "completed" ∨ h.LogsInfo.text = "timeout" ∨
        h.LogsInfo.text = "") := by
  simp only [SkipMonitoring, funkContains, HostStatusError, HostStatusCancelled,
    LogsStateCompleted, LogsStateTimeout, List.any_cons, List.any_nil, Bool.or_false,
    Bool.and_eq_true, Bool.or_eq_true, decide_eq_true_eq]
  constructor
  · rintro ⟨hst, hlogs⟩
    refine ⟨hst, ?_, ?_⟩
    · rcases hlogs with h1 | h1 | h1 <;> exact h1.1
    · rcases hlogs with h1 | h1 | h1
      · exact Or.inl h1.2.symm
      · exact Or.inr (Or.inl h1.2.symm)
      · exact Or.inr (Or.inr h1.2.symm)
  · rintro ⟨hst, hty, hlogs⟩
    refine ⟨hst, ?_⟩
    rcases hlogs with h1 | h1 | h1
    · exact Or.inl ⟨hty, h1.symm⟩
    · exact Or.inr (Or.inl ⟨hty, h1.symm⟩)
    · exact Or.inr (Or.inr ⟨hty, h1.symm⟩)

theorem findClusters_length (env : MonitorEnv) (offset limit : Nat) :
    (findClusters env offset limit).length =
      min limit ((env.clusters.filter (fun c => c.Hosts.length ≠ 0)).length - offset) := by
  unfold findClusters
  rw [List.length_map, List.length_take, List.length_drop]

theorem HostMonitoringLoop_not_exhausted (env : MonitorEnv) (fuel : Nat) :
    ∀ offset calls, 1 ≤ fuel →
      (env.clusters.filter (fun c => c.Hosts.length ≠ 0)).length < offset + fuel →
      (HostMonitoringLoop env fuel offset calls).exhausted = false := by
  induction fuel with
  | zero => intro offset calls h1; omega
  | succ fuel ih =>
    intro offset calls _ hlen
    unfold HostMonitoringLoop
    split
    · rfl
    · simp only
      split
      · rfl
      · rename_i hpage
        rw [findClusters_length] at hpage
        split
        · rfl
        · exact ih _ _ (by omega) (by omega)

theorem HostMonitoring_not_exhausted (env : MonitorEnv) :
    (HostMonitoring env).exhausted = false := by
  unfold HostMonitoring
  split
  · rfl
  · apply HostMonitoringLoop_not_exhausted env _ _ _ (by omega)
    have := List.length_filter_le (fun c : Cluster => decide (c.Hosts.length ≠ 0)) env.clusters
    omega

/-- The hosts of a cluster that a tick refreshes when nothing interrupts it. -/
theorem refreshHosts_leader (env : MonitorEnv) (hleader : ∀ n, env.IsLeader n = true)
    (hosts : List Host) :
    ∀ calls, refreshHosts env hosts calls =
      (hosts.filter (fun h => !SkipMonitoring h), calls + hosts.length, true) := by
  induction hosts with
  | nil => intro calls; rfl
  | cons host rest ih =>
    intro calls
    unfold refreshHosts
    simp only [hleader, Bool.not_true, Bool.false_eq_true, if_false, ih]
    by_cases hs : (!SkipMonitoring host) = true
    · simp only [List.filter_cons, hs, if_true, List.length_cons]
      congr 2
      omega
    · simp only [List.filter_cons, hs, if_false, List.length_cons]
      congr 2
      omega

theorem HostMonitoringLoop_leader (env : MonitorEnv) (hleader : ∀ n, env.IsLeader n = true)
    (hquery : ∀ n, env.queryError n = false) (hbatch : 0 < env.MonitorBatchSize)
    (fuel : Nat) :
    ∀ offset calls, 1 ≤ fuel →
      (env.clusters.filter (fun c => c.Hosts.length ≠ 0)).length < offset + fuel →
      (HostMonitoringLoop env fuel offset calls).refreshed =
        (((env.clusters.filter (fun c => c.Hosts.length ≠ 0)).drop offset).flatMap
          (fun c => c.Hosts.filter (fun h => monitorStates.contains h.Status))).filter
          (fun h => !SkipMonitoring h) := by
  induction fuel with
  | zero => intro offset calls h1; omega
  | succ fuel ih =>
    intro offset calls _ hlen
    unfold HostMonitoringLoop
    simp only [hquery, Bool.false_eq_true, if_false]
    by_cases hpage : (findClusters env offset env.MonitorBatchSize).length = 0
    · rw [if_pos hpage]
      rw [findClusters_length] at hpage
      have hdrop : (env.clusters.filter (fun c => c.Hosts.length ≠ 0)).drop offset = [] := by
        apply List.drop_eq_nil_of_le
        omega
      rw [hdrop]
      rfl
    · rw [if_neg hpage, refreshHosts_leader env hleader]
      simp only
      rw [findClusters_length] at hpage
      rw [ih _ _ (by omega) (by omega)]
      have hsplit : (env.clusters.filter (fun c => c.Hosts.length ≠ 0)).drop offset =
          ((env.clusters.filter (fun c => c.Hosts.length ≠ 0)).drop offset).take
            env.MonitorBatchSize ++
          (env.clusters.filter (fun c => c.Hosts.length ≠ 0)).drop
            (offset + env.MonitorBatchSize) := by
        rw [← List.drop_drop, List.take_append_drop]
      conv_rhs => rw [hsplit]
      rw [List.flatMap_append, List.filter_append]
      congr 2
      unfold findClusters
      rw [List.flatMap_def, List.flatMap_def, List.map_map]
      rfl

theorem HostMonitoring_leader (env : MonitorEnv) (hleader : ∀ n, env.IsLeader n = true)
    (hquery : ∀ n, env.queryError n = false) (hbatch : 0 < env.MonitorBatchSize) :
    (HostMonitoring env).refreshed =
      ((env.clusters.filter (fun c => c.Hosts.length ≠ 0)).flatMap
        (fun c => c.Hosts.filter (fun h => monitorStates.contains h.Status))).filter
        (fun h => !SkipMonitoring h) := by
  unfold HostMonitoring
  simp only [hleader, Bool.not_true, Bool.false_eq_true, if_false]
  rw [HostMonitoringLoop_leader env hleader hquery hbatch _ 0 1 (by omega)]
  · rfl
  · have := List.length_filter_le (fun c : Cluster => decide (c.Hosts.length ≠ 0)) env.clusters
    omega

theorem HostMonitoring_refreshes (env : MonitorEnv) (hleader : ∀ n, env.IsLeader n = true)
    (hquery : ∀ n, env.queryError n = false) (hbatch : 0 < env.MonitorBatchSize)
    (c : Cluster) (h : Host) (hc : c ∈ env.clusters) (hh : h ∈ c.Hosts)
    (hstatus : h.Status ∈ monitorStates) (hskip : SkipMonitoring h = false) :
    h ∈ (HostMonitoring env).refreshed := by
  rw [HostMonitoring_leader env hleader hquery hbatch]
  refine List.mem_filter.mpr ⟨List.mem_flatMap.mpr ⟨c, ?_, ?_⟩, by simp [hskip]⟩
  · refine List.mem_filter.mpr ⟨hc, ?_⟩
    have : 0 < c.Hosts.length := List.length_pos_of_mem hh
    simp
    intro h0
    rw [h0] at hh
    cases hh
  · exact List.mem_filter.mpr ⟨hh, by simpa using hstatus⟩

/-- C25, counterexample: with one cluster whose hosts are installed (h1), in error with
logs still collected (h2), in error with complete logs (h3), disabled (h4) and known
(h5), a tick hands the installed host h1 and the error host h2 to the refresh, whether
the logs state is a plain `string` or a `models.LogsState`; and installed and error are
terminal statuses. -/
theorem HostMonitoring_refreshes_terminal :
    (HostMonitoring (sampleMonitorEnv "string")).refreshed =
      [ { ID := "h1", Status := "installed", LogsInfo := ⟨"string", "completed"⟩ },
        { ID := "h2", Status := "error", LogsInfo := ⟨"string", "collecting"⟩ },
        { ID := "h5", Status := "known", LogsInfo := ⟨"string", ""⟩ } ] ∧
    (HostMonitoring (sampleMonitorEnv "models.LogsState")).refreshed =
      [ { ID := "h1", Status := "installed", LogsInfo := ⟨"models.LogsState", "completed"⟩ },
        { ID := "h2", Status := "error", LogsInfo := ⟨"models.LogsState", "collecting"⟩ },
        { ID := "h3", Status := "error", LogsInfo := ⟨"models.LogsState", "completed"⟩ },
        { ID := "h5", Status := "known", LogsInfo := ⟨"models.LogsState", ""⟩ } ] ∧
    "installed" ∈ terminalStates ∧ "error" ∈ terminalStates := by
  decide

/-- C25, amended: every host that a tick of `HostMonitoring` hands to the refresh has one
of the fourteen statuses the monitor loads, which are all the host statuses but
disabled (installed, error and cancelled included). -/
theorem HostMonitoring_refreshed_status (env : MonitorEnv) (h : Host)
    (hm : h ∈ (HostMonitoring env).refreshed) :
    h.Status ∈ ["discovering", "known", "disconnected", "insufficient", "pending-for-input",
      "preparing-for-installation", "preparing-successful", "installing",
      "installing-in-progress", "installed", "installing-pending-user-action",
      "resetting-pending-user-action", "cancelled", "error"] ∧
    h.Status ≠ "disabled" := by
  obtain ⟨hstatus, _, _⟩ := HostMonitoring_mem env h hm
  refine ⟨hstatus, ?_⟩
  intro hd
  rw [hd] at hstatus
  revert hstatus
  decide

theorem HostMonitoring_refreshed_status_witness :
    ({ ID := "h1", Status := "installed", LogsInfo := ⟨"models.LogsState", "completed"⟩ } :
        Host) ∈ (HostMonitoring (sampleMonitorEnv "models.LogsState")).refreshed ∧
    ("installed" : String) ≠ "disabled" :=
  have hm :
      ({ ID := "h1", Status := "installed", LogsInfo := ⟨"models.LogsState", "completed"⟩ } :
        Host) ∈ (HostMonitoring (sampleMonitorEnv "models.LogsState")).refreshed := by
    decide
  ⟨hm, (HostMonitoring_refreshed_status (sampleMonitorEnv "models.LogsState")
    { ID := "h1", Status := "installed", LogsInfo := ⟨"models.LogsState", "completed"⟩ }
    hm).2⟩

/-- C28: `SkipMonitoring` holds exactly when the status of the host is error or cancelled,
its logs state is completed, timeout or empty, and the logs state reaches
`funk.Contains` as a plain `string`.  A logs state of the named type `models.LogsState`
is never found in the `[]string`: a host in error whose log collection has completed is
not skipped, and the tick hands it to the refresh. -/
theorem SkipMonitoring_named_logs_state :
    (∀ h : Host, SkipMonitoring h = true ↔
      (h.Status = "error" ∨ h.Status = "cancelled") ∧ h.LogsInfo.goType = "string" ∧
      (h.LogsInfo.text = "completed" ∨ h.LogsInfo.text = "timeout" ∨
        h.LogsInfo.text = "")) ∧
    LogsStateType = "models.LogsState" ∧
    SkipMonitoring
      { ID := "h3", Status := "error", LogsInfo := ⟨"models.LogsState", "completed"⟩ } =
        false ∧
    SkipMonitoring
      { ID := "h3", Status := "cancelled", LogsInfo := ⟨"models.LogsState", "timeout"⟩ } =
        false ∧
    ({ ID := "h3", Status := "error", LogsInfo := ⟨"models.LogsState", "completed"⟩ } :
        Host) ∈ (HostMonitoring (sampleMonitorEnv "models.LogsState")).refreshed :=
  ⟨SkipMonitoring_iff, by decide, by decide, by decide, by decide⟩

end Monitor

/-! ## Theorems: the debug step -/

namespace Bminventory

theorem GetNextSteps_ok (env : NextStepsEnv) (debugCmdMap : DebugCmdMap)
    (params : GetNextStepsParams)
    (hok : (GetNextSteps env debugCmdMap params).status = StatusOK) :
    ∃ host, env.findHost params.HostID params.ClusterID = .ok host ∧
      GetNextSteps env debugCmdMap params =
        match debugCmdMap params.HostID with
        | some cmd =>
          { debugCmdMap := debugCmdMap.delete params.HostID, status := StatusOK,
            Instructions := (env.GetNextSteps host).1 ++
              [{ StepType := StepTypeExecute, StepID := cmd.stepID, Command := "bash",
                 Args := ["-c", cmd.cmd] }] }
        | none =>
          { debugCmdMap := debugCmdMap, status := StatusOK,
            Instructions := (env.GetNextSteps host).1 } := by
  unfold GetNextSteps at hok ⊢
  cases htx : env.txError with
  | true => simp [htx, StatusOK, StatusInternalServerError] at hok
  | false =>
    simp only [htx, Bool.false_eq_true, if_false] at hok ⊢
    cases hfind : env.findHost params.HostID params.ClusterID with
    | error e => simp [hfind, StatusOK, StatusNotFound] at hok
    | ok host =>
      simp only [hfind] at hok ⊢
      cases hupd : env.updateError with
      | some e => simp [hupd, StatusOK, StatusInternalServerError] at hok
      | none =>
        simp only [hupd] at hok ⊢
        cases hcommit : env.commitError with
        | some e => simp [hcommit, StatusOK, StatusInternalServerError] at hok
        | none => exact ⟨host, rfl, rfl⟩

theorem GetNextSteps_failed (env : NextStepsEnv) (debugCmdMap : DebugCmdMap)
    (params : GetNextStepsParams)
    (hfail : (GetNextSteps env debugCmdMap params).status ≠ StatusOK) :
    (GetNextSteps env debugCmdMap params).debugCmdMap = debugCmdMap := by
  unfold GetNextSteps at hfail ⊢
  repeat' split
  all_goals first
    | rfl
    | (exfalso; exact hfail (by simp [*]))

theorem GetNextSteps_other (env : NextStepsEnv) (debugCmdMap : DebugCmdMap)
    (params : GetNextStepsParams) (other : UUID) (hne : other ≠ params.HostID) :
    (GetNextSteps env debugCmdMap params).debugCmdMap other = debugCmdMap other := by
  by_cases hok : (GetNextSteps env debugCmdMap params).status = StatusOK
  · obtain ⟨host, _, heq⟩ := GetNextSteps_ok env debugCmdMap params hok
    rw [heq]
    cases debugCmdMap params.HostID with
    | none => rfl
    | some cmd => simp [DebugCmdMap.delete, hne]
  · rw [GetNextSteps_failed env debugCmdMap params hok]

/-- C22: after `SetDebugStep` for a host, the next successful `GetNextSteps` of that
host returns the plan of the host followed by one last instruction, the execute step
`bash -c cmd` with the step id made by `SetDebugStep`, and removes the entry, so that a
following successful `GetNextSteps` returns the plan of the host alone; a failed poll
leaves the entry in place; the entries of other hosts are touched neither by
`SetDebugStep` nor by the poll; and a second `SetDebugStep` for the host replaces the
first. -/
theorem debug_step_one_shot (env : NextStepsEnv) (debugCmdMap : DebugCmdMap)
    (uuidPrefix : String) (set : SetDebugStepParams) (poll : GetNextStepsParams)
    (hhost : poll.HostID = set.HostID) :
    ((GetNextSteps env (SetDebugStep debugCmdMap uuidPrefix set).1 poll).status = StatusOK →
      (∃ host, env.findHost poll.HostID poll.ClusterID = .ok host ∧
        (GetNextSteps env (SetDebugStep debugCmdMap uuidPrefix set).1 poll).Instructions =
          (env.GetNextSteps host).1 ++
            [{ StepType := StepTypeExecute, StepID := createStepID StepTypeExecute uuidPrefix,
               Command := "bash", Args := ["-c", StringValue set.Command] }]) ∧
      (GetNextSteps env (SetDebugStep debugCmdMap uuidPrefix set).1 poll).debugCmdMap
        set.HostID = none ∧
      ∀ (env2 : NextStepsEnv) (poll2 : GetNextStepsParams), poll2.HostID = set.HostID →
        (GetNextSteps env2
          (GetNextSteps env (SetDebugStep debugCmdMap uuidPrefix set).1 poll).debugCmdMap
          poll2).status = StatusOK →
        ∃ host2, env2.findHost poll2.HostID poll2.ClusterID = .ok host2 ∧
          (GetNextSteps env2
            (GetNextSteps env (SetDebugStep debugCmdMap uuidPrefix set).1 poll).debugCmdMap
            poll2).Instructions = (env2.GetNextSteps host2).1) ∧
    ((GetNextSteps env (SetDebugStep debugCmdMap uuidPrefix set).1 poll).status ≠ StatusOK →
      (GetNextSteps env (SetDebugStep debugCmdMap uuidPrefix set).1 poll).debugCmdMap =
        (SetDebugStep debugCmdMap uuidPrefix set).1) ∧
    (∀ other : UUID, other ≠ set.HostID →
      (SetDebugStep debugCmdMap uuidPrefix set).1 other = debugCmdMap other ∧
      (GetNextSteps env (SetDebugStep debugCmdMap uuidPrefix set).1 poll).debugCmdMap other =
        debugCmdMap other) ∧
    (∀ (uuidPrefix2 : String) (set2 : SetDebugStepParams), set2.HostID = set.HostID →
      (SetDebugStep (SetDebugStep debugCmdMap uuidPrefix set).1 uuidPrefix2 set2).1 =
        (SetDebugStep debugCmdMap uuidPrefix2 set2).1) := by
  have hentry : (SetDebugStep debugCmdMap uuidPrefix set).1 poll.HostID =
      some { cmd := StringValue set.Command,
             stepID := createStepID StepTypeExecute uuidPrefix } := by
    simp [SetDebugStep, DebugCmdMap.set, hhost]
  have hother : ∀ other : UUID, other ≠ set.HostID →
      (SetDebugStep debugCmdMap uuidPrefix set).1 other = debugCmdMap other := by
    intro other hne
    simp [SetDebugStep, DebugCmdMap.set, hne]
  refine ⟨?_, GetNextSteps_failed env _ poll, ?_, ?_⟩
  · intro hok
    obtain ⟨host, hfind, heq⟩ := GetNextSteps_ok env _ poll hok
    rw [hentry] at heq
    have hgone : (GetNextSteps env (SetDebugStep debugCmdMap uuidPrefix set).1
        poll).debugCmdMap set.HostID = none := by
      rw [heq]
      simp [DebugCmdMap.delete, hhost]
    refine ⟨⟨host, hfind, by rw [heq]⟩, hgone, ?_⟩
    intro env2 poll2 hhost2 hok2
    obtain ⟨host2, hfind2, heq2⟩ := GetNextSteps_ok env2 _ poll2 hok2
    rw [hhost2, hgone] at heq2
    exact ⟨host2, hfind2, by rw [heq2]⟩
  · intro other hne
    refine ⟨hother other hne, ?_⟩
    rw [GetNextSteps_other env _ poll other (by rw [hhost]; exact hne), hother other hne]
  · intro uuidPrefix2 set2 hhost2
    funext k
    by_cases hk : k = set.HostID
    · simp [SetDebugStep, DebugCmdMap.set, hhost2, hk]
    · simp [SetDebugStep, DebugCmdMap.set, hhost2, hk]

theorem debug_step_one_shot_witness :
    (GetNextSteps sampleNextStepsEnv
      (SetDebugStep (fun _ => none) "0a1b2c3d"
        { ClusterID := "c1", HostID := "h1", Command := some "dmesg" }).1
      { ClusterID := "c1", HostID := "h1" }).Instructions =
      [ { StepType := "inventory", StepID := "inventory-1", Command := "inventory",
          Args := [] },
        { StepType := "execute", StepID := "execute-0a1b2c3d", Command := "bash",
          Args := ["-c", "dmesg"] } ] ∧
    (GetNextSteps sampleNextStepsEnv
      (GetNextSteps sampleNextStepsEnv
        (SetDebugStep (fun _ => none) "0a1b2c3d"
          { ClusterID := "c1", HostID := "h1", Command := some "dmesg" }).1
        { ClusterID := "c1", HostID := "h1" }).debugCmdMap
      { ClusterID := "c1", HostID := "h1" }).Instructions =
      [ { StepType := "inventory", StepID := "inventory-1", Command := "inventory",
          Args := [] } ] :=
  have h := (debug_step_one_shot sampleNextStepsEnv (fun _ => none) "0a1b2c3d"
    { ClusterID := "c1", HostID := "h1", Command := some "dmesg" }
    { ClusterID := "c1", HostID := "h1" } rfl).1 (by decide)
  ⟨by
    obtain ⟨host, hfind, heq⟩ := h.1
    cases hfind
    exact heq.trans (by decide),
   by
    obtain ⟨host2, hfind2, heq2⟩ := h.2.2 sampleNextStepsEnv
      { ClusterID := "c1", HostID := "h1" } rfl (by decide)
    cases hfind2
    exact heq2.trans (by decide)⟩

end Bminventory

/-! ## Theorems: `InstallCluster` -/

namespace Bminventory

theorem refreshAllHosts_calls (env : InstallClusterEnv) (hosts : List Host) :
    ∀ call ∈ (refreshAllHosts env hosts).1, call.isPrepare = false := by
  induction hosts with
  | nil => intro call h; cases h
  | cons chost rest ih =>
    intro call hcall
    unfold refreshAllHosts at hcall
    split at hcall
    · cases hcall
    · split at hcall
      · rw [List.mem_singleton.mp hcall]
        rfl
      · rcases List.mem_cons.mp hcall with heq | hmem
        · rw [heq]
          rfl
        · exact ih call hmem

theorem refreshAllHosts_ok (env : InstallClusterEnv) (hosts : List Host)
    (hok : (refreshAllHosts env hosts).2 = none) :
    ∀ h ∈ hosts, h.Status = "known" := by
  induction hosts with
  | nil => intro h hm; cases hm
  | cons chost rest ih =>
    intro h hm
    unfold refreshAllHosts at hok
    split at hok
    · cases hok
    · rename_i hknown
      split at hok
      · cases hok
      · rcases List.mem_cons.mp hm with heq | hmem
        · rw [heq]
          simpa [Monitor.HostStatusKnown] using hknown
        · exact ih hok h hmem

theorem refreshAllHosts_not_known (env : InstallClusterEnv)
    (hrefresh : ∀ h, env.RefreshHostStatus h = none) (hosts : List Host)
    (hsome : ∃ h ∈ hosts, h.Status ≠ "known") :
    ∃ msg, (refreshAllHosts env hosts).2 = some (.api StatusBadRequest msg) := by
  induction hosts with
  | nil =>
    obtain ⟨h, hm, _⟩ := hsome
    cases hm
  | cons chost rest ih =>
    unfold refreshAllHosts
    by_cases hknown : chost.Status = "known"
    · have hk : ¬ chost.Status ≠ Monitor.HostStatusKnown := by
        simpa [Monitor.HostStatusKnown] using hknown
      rw [if_neg hk, hrefresh]
      obtain ⟨h, hm, hne⟩ := hsome
      rcases List.mem_cons.mp hm with heq | hmem
      · exact absurd (heq ▸ hknown) hne
      · exact ih ⟨h, hmem, hne⟩
    · have hk : chost.Status ≠ Monitor.HostStatusKnown := by
        simpa [Monitor.HostStatusKnown] using hknown
      rw [if_pos hk]
      exact ⟨_, rfl⟩

theorem refreshAllHosts_all_known (env : InstallClusterEnv)
    (hrefresh : ∀ h, env.RefreshHostStatus h = none) (hosts : List Host)
    (hall : ∀ h ∈ hosts, h.Status = "known") :
    (refreshAllHosts env hosts).2 = none := by
  induction hosts with
  | nil => rfl
  | cons chost rest ih =>
    unfold refreshAllHosts
    have hk : ¬ chost.Status ≠ Monitor.HostStatusKnown := by
      simpa [Monitor.HostStatusKnown] using hall chost (List.mem_cons_self _ _)
    rw [if_neg hk, hrefresh]
    exact ih (fun h hm => hall h (List.mem_cons_of_mem _ hm))

theorem mem_preloadEnabledHosts (cluster : Cluster) (h : Host) :
    h ∈ (preloadEnabledHosts cluster).Hosts ↔ h ∈ cluster.Hosts ∧ h.Status ≠ "disabled" := by
  simp [preloadEnabledHosts, Monitor.HostStatusDisabled]

theorem InstallCluster_prepare_only_if (env : InstallClusterEnv) (clusterID : UUID)
    (found : Cluster) (hfind : env.findCluster clusterID = .ok found)
    (call : InstallCall) (hcall : call ∈ (InstallCluster env clusterID).1)
    (hprepare : call.isPrepare = true) :
    (refreshAllHosts env (preloadEnabledHosts found).Hosts).2 = none ∧
    ∃ reloaded, env.reloadCluster clusterID = .ok reloaded ∧
      (env.IsReadyForInstallation (preloadEnabledHosts reloaded)).1 = true := by
  have hno : ∀ c ∈ (refreshAllHosts env (preloadEnabledHosts found).Hosts).1 ++
      [InstallCall.RefreshClusterStatus (preloadEnabledHosts found).ID],
      c.isPrepare = false := by
    intro c hc
    rcases List.mem_append.mp hc with h1 | h1
    · exact refreshAllHosts_calls env _ c h1
    · rw [List.mem_singleton.mp h1]
      rfl
  have hno2 : ∀ c ∈ (refreshAllHosts env (preloadEnabledHosts found).Hosts).1,
      c.isPrepare = false := refreshAllHosts_calls env _
  unfold InstallCluster at hcall
  simp only [hfind] at hcall
  rcases href : refreshAllHosts env (preloadEnabledHosts found).Hosts with ⟨calls, _ | err⟩
  · rw [href] at hno hno2
    simp only [href] at hcall
    refine ⟨rfl, ?_⟩
    cases hrc : env.RefreshClusterStatus (preloadEnabledHosts found) with
    | some e =>
      simp only [hrc] at hcall
      rw [hno call hcall] at hprepare
      cases hprepare
    | none =>
      simp only [hrc] at hcall
      cases hrl : env.reloadCluster clusterID with
      | error e =>
        simp only [hrl] at hcall
        rw [hno call hcall] at hprepare
        cases hprepare
      | ok reloaded =>
        simp only [hrl] at hcall
        cases hready : (env.IsReadyForInstallation (preloadEnabledHosts reloaded)).1 with
        | false =>
          simp only [hready, Bool.not_false, if_true] at hcall
          rw [hno call hcall] at hprepare
          cases hprepare
        | true => exact ⟨reloaded, rfl, hready⟩
  · rw [href] at hno2
    simp only [href] at hcall
    rw [hno2 call hcall] at hprepare
    cases hprepare

/-- C23, counterexample: the host h2 of the cluster is still discovering (h4 is
disabled and does not take part); `InstallCluster` makes no PrepareForInstallation call,
but its response is 400 BadRequest, not 409 Conflict. -/
theorem InstallCluster_unknown_host_bad_request :
    InstallCluster (sampleInstallClusterEnv clusterWithDiscoveringHost true) "c1" =
      ([InstallCall.RefreshHostStatus "h1"], 400) ∧
    (InstallCluster (sampleInstallClusterEnv clusterWithDiscoveringHost true) "c1").2 ≠
      StatusConflict := by
  decide

/-- C23, amended: `InstallCluster` makes a PrepareForInstallation call, on the cluster
or on a host, only if every participating (not disabled) host is in status known and
the cluster is ready for installation.  When some participating host is not known and
the host refreshes before it succeed, the response is 400 BadRequest; when every
participating host is known, the refreshes and the reload succeed and the cluster is not
ready, the response is 409 Conflict. -/
theorem InstallCluster_prepares_only_ready (env : InstallClusterEnv) (clusterID : UUID)
    (found : Cluster) (hfind : env.findCluster clusterID = .ok found) :
    (∀ call ∈ (InstallCluster env clusterID).1, call.isPrepare = true →
      (∀ h ∈ found.Hosts, h.Status ≠ "disabled" → h.Status = "known") ∧
      ∃ reloaded, env.reloadCluster clusterID = .ok reloaded ∧
        (env.IsReadyForInstallation (preloadEnabledHosts reloaded)).1 = true) ∧
    ((∃ h ∈ found.Hosts, h.Status ≠ "disabled" ∧ h.Status ≠ "known") →
      (∀ h, env.RefreshHostStatus h = none) →
      (InstallCluster env clusterID).2 = StatusBadRequest) ∧
    ((∀ h ∈ found.Hosts, h.Status ≠ "disabled" → h.Status = "known") →
      (∀ h, env.RefreshHostStatus h = none) →
      env.RefreshClusterStatus (preloadEnabledHosts found) = none →
      ∀ reloaded, env.reloadCluster clusterID = .ok reloaded →
        (env.IsReadyForInstallation (preloadEnabledHosts reloaded)).1 = false →
        (InstallCluster env clusterID).2 = StatusConflict ∧
        ∀ call ∈ (InstallCluster env clusterID).1, call.isPrepare = false) := by
  refine ⟨?_, ?_, ?_⟩
  · intro call hcall hprepare
    obtain ⟨hok, hready⟩ := InstallCluster_prepare_only_if env clusterID found hfind call hcall
      hprepare
    refine ⟨fun h hm hen => ?_, hready⟩
    exact refreshAllHosts_ok env _ hok h ((mem_preloadEnabledHosts found h).mpr ⟨hm, hen⟩)
  · rintro ⟨h, hm, hen, hnk⟩ hrefresh
    obtain ⟨msg, hmsg⟩ := refreshAllHosts_not_known env hrefresh (preloadEnabledHosts found).Hosts
      ⟨h, (mem_preloadEnabledHosts found h).mpr ⟨hm, hen⟩, hnk⟩
    unfold InstallCluster
    simp only [hfind]
    rcases href : refreshAllHosts env (preloadEnabledHosts found).Hosts with ⟨calls, _ | err⟩
    · rw [href] at hmsg
      cases hmsg
    · rw [href] at hmsg
      simp only
      rw [Option.some.inj hmsg]
      rfl
  · intro hall hrefresh hrc reloaded hrl hready
    have hok := refreshAllHosts_all_known env hrefresh (preloadEnabledHosts found).Hosts
      (fun h hm => hall h ((mem_preloadEnabledHosts found h).mp hm).1
        ((mem_preloadEnabledHosts found h).mp hm).2)
    have hres : InstallCluster env clusterID =
        ((refreshAllHosts env (preloadEnabledHosts found).Hosts).1 ++
          [InstallCall.RefreshClusterStatus (preloadEnabledHosts found).ID],
          StatusConflict) := by
      unfold InstallCluster
      simp only [hfind]
      rcases href : refreshAllHosts env (preloadEnabledHosts found).Hosts with
        ⟨calls, _ | err⟩
      · simp only [hrc, hrl, hready, Bool.not_false, if_true]
      · rw [href] at hok
        cases hok
    rw [hres]
    refine ⟨rfl, ?_⟩
    intro call hcall
    rcases List.mem_append.mp hcall with h1 | h1
    · exact refreshAllHosts_calls env _ call h1
    · rw [List.mem_singleton.mp h1]
      rfl

theorem InstallCluster_prepares_only_ready_witness :
    (InstallCluster (sampleInstallClusterEnv clusterWithDiscoveringHost true) "c1").2 =
      StatusBadRequest ∧
    (InstallCluster (sampleInstallClusterEnv sampleCluster false) "c1").2 = StatusConflict ∧
    ∀ call ∈ (InstallCluster (sampleInstallClusterEnv sampleCluster false) "c1").1,
      call.isPrepare = false :=
  have h1 := (InstallCluster_prepares_only_ready
    (sampleInstallClusterEnv clusterWithDiscoveringHost true) "c1" clusterWithDiscoveringHost
    rfl).2.1 (by decide) (fun _ => rfl)
  have h2 := (InstallCluster_prepares_only_ready (sampleInstallClusterEnv sampleCluster false)
    "c1" sampleCluster rfl).2.2 (by decide) (fun _ => rfl) rfl sampleCluster rfl rfl
  ⟨h1, h2.1, h2.2⟩

end Bminventory

/-! ## Theorems: `updateHostsData` and `UpdateCluster` -/

namespace Bminventory

/-- C29: with no entry in hosts_roles and one entry in hosts_names that names a host
which is not in the cluster, `updateHostsData` does not return NotFound: the log
statement indexes `HostsRoles[0]` and the function panics with index out of range.  With
an entry in hosts_roles the same request returns NotFound. -/
theorem updateHostsData_index_out_of_range :
    updateHostsData sampleHostsEnv "c1" [] [{ ID := "ghost", Hostname := "node-1" }] =
      .panicked (.indexOutOfRange 0 0) ∧
    updateHostsData sampleHostsEnv "c1" [{ ID := "h1", Role := "master" }]
        [{ ID := "h2", Hostname := "node-2" }, { ID := "ghost", Hostname := "node-1" }] =
      .panicked (.indexOutOfRange 1 1) ∧
    updateHostsData sampleHostsEnv "c1" [{ ID := "h1", Role := "master" }]
        [{ ID := "ghost", Hostname := "node-1" }] =
      .returned ([HostsCall.UpdateRole "h1" "master"],
        some (.api StatusNotFound "record not found")) := by
  decide

theorem UpdateCluster_panic (env : UpdateClusterEnv) (params : UpdateClusterParams)
    (p : Panic) (hpanic : UpdateClusterBody env params = .panicked p)
    (hpull : env.ValidatePullSecret (StringValue params.ClusterUpdateParams.PullSecret) = none)
    (hname : env.ValidateClusterNameFormat (StringValue params.ClusterUpdateParams.Name) =
      none) :
    UpdateCluster env params = { rollbacks := 2, committed := false, response := none } := by
  unfold UpdateCluster
  simp only [hpull, hname, ne_eq, not_true_eq_false, and_false, if_false, hpanic]
  rfl

/-- C24: an update of the sample cluster whose hosts_names names a host that is not in
the cluster, with no hosts_roles, panics in the body of `UpdateCluster` after the
transaction was opened; the deferred closure rolls the transaction back (twice) and
recovers the panic, but the handler then returns a nil responder, not an InternalError
response. -/
theorem UpdateCluster_panic_nil_responder :
    UpdateClusterBody sampleUpdateClusterEnv
      { ClusterID := "c1", ClusterUpdateParams := emptyUpdate, HostsRoles := [],
        HostsNames := [{ ID := "ghost", Hostname := "node-1" }] } =
      .panicked (.indexOutOfRange 0 0) ∧
    UpdateCluster sampleUpdateClusterEnv
      { ClusterID := "c1", ClusterUpdateParams := emptyUpdate, HostsRoles := [],
        HostsNames := [{ ID := "ghost", Hostname := "node-1" }] } =
      { rollbacks := 2, committed := false, response := none } ∧
    (UpdateCluster sampleUpdateClusterEnv
      { ClusterID := "c1", ClusterUpdateParams := emptyUpdate, HostsRoles := [],
        HostsNames := [{ ID := "ghost", Hostname := "node-1" }] }).response ≠
      some StatusInternalServerError := by
  decide

end Bminventory

/-! ## Theorems: the order of the group list -/

namespace Network

theorem idLt_eq : (fun x y : UUID => x.toList < y.toList) = (fun x y : String => x < y) := by
  funext x y
  exact propext String.lt_iff_toList_lt.symm

theorem isLessFrom_iff (g : groupId) :
    ∀ other : groupId, g.length = other.length →
      (groupId.isLessFrom g other = true ↔
        List.Lex (fun x y : UUID => x.toList < y.toList) g other) := by
  induction g with
  | nil =>
    intro other hlen
    cases other with
    | nil =>
      simp only [groupId.isLessFrom, Bool.false_eq_true, false_iff]
      intro h
      cases h
    | cons b t => simp at hlen
  | cons a g ih =>
    intro other hlen
    cases other with
    | nil => simp at hlen
    | cons b t =>
      have hlen2 : g.length = t.length := by simpa using hlen
      unfold groupId.isLessFrom
      by_cases hab : a = b
      · subst hab
        rw [if_pos rfl, ih t hlen2]
        constructor
        · intro h
          exact List.Lex.cons h
        · intro h
          cases h with
          | cons h2 => exact h2
          | rel h2 => exact absurd h2 (lt_irrefl _)
      · rw [if_neg hab]
        constructor
        · intro h
          exact List.Lex.rel (by simpa using h)
        · intro h
          cases h with
          | cons h2 => exact absurd rfl hab
          | rel h2 => simpa using h2

theorem mem_id (G : connectivitySet) (x : UUID) : x ∈ G.id ↔ x ∈ G :=
  ascendingOrder.mem G x

theorem length_id (G : connectivitySet) : G.id.length = G.card :=
  length_toList ascendingOrder G

theorem id_injective (a b : connectivitySet) (h : a.id = b.id) : a = b := by
  ext x
  rw [← mem_id a x, ← mem_id b x, h]

theorem groupLess_iff (a b : connectivitySet) : groupLess a b = true ↔ precedes a b := by
  unfold groupLess precedes
  by_cases hc : a.card = b.card
  · have hlen : a.id.length = b.id.length := by rw [length_id, length_id, hc]
    simp only [hc, ne_eq, not_true_eq_false, if_false, gt_iff_lt, lt_self_iff_false,
      false_or, true_and]
    unfold groupId.isLess
    rw [if_neg (by simpa using hlen)]
    exact isLessFrom_iff a.id b.id hlen
  · simp only [ne_eq, hc, not_false_eq_true, if_true, false_and, or_false]
    simp

theorem precedes_trans (a b c : connectivitySet) (hab : precedes a b) (hbc : precedes b c) :
    precedes a c := by
  unfold precedes at *
  rw [idLt_eq] at *
  rcases hab with h1 | ⟨h1, l1⟩
  · rcases hbc with h2 | ⟨h2, _⟩
    · exact Or.inl (by omega)
    · exact Or.inl (by omega)
  · rcases hbc with h2 | ⟨h2, l2⟩
    · exact Or.inl (by omega)
    · exact Or.inr ⟨h1.trans h2, IsTrans.trans _ _ _ l1 l2⟩

theorem precedes_trichotomous (a b : connectivitySet) (hne : a ≠ b) :
    precedes a b ∨ precedes b a := by
  unfold precedes
  rw [idLt_eq]
  rcases Nat.lt_trichotomy a.card b.card with h | h | h
  · exact Or.inr (Or.inl h)
  · have hid : a.id ≠ b.id := fun hid => hne (id_injective a b hid)
    rcases trichotomous_of (List.Lex (fun x y : String => x < y)) a.id b.id
      with h1 | h1 | h1
    · exact Or.inl (Or.inr ⟨h, h1⟩)
    · exact absurd h1 hid
    · exact Or.inr (Or.inr ⟨h.symm, h1⟩)
  · exact Or.inl (Or.inl h)

theorem precedes_irrefl (a : connectivitySet) : ¬ precedes a a := by
  unfold precedes
  rw [idLt_eq]
  rintro (h | ⟨_, h⟩)
  · omega
  · exact IsIrrefl.irrefl _ h

theorem orderedInsert_pairwise (a : connectivitySet) (l : List connectivitySet)
    (hnot : a ∉ l) (hl : l.Pairwise precedes) :
    (l.orderedInsert (fun a b => groupLess a b = true) a).Pairwise precedes := by
  induction l with
  | nil => simp [List.orderedInsert]
  | cons b t ih =>
    have hb : a ≠ b := fun h => hnot (h ▸ List.mem_cons_self _ _)
    have ht : a ∉ t := fun h => hnot (List.mem_cons_of_mem _ h)
    rw [List.pairwise_cons] at hl
    simp only [List.orderedInsert]
    by_cases hab : groupLess a b = true
    · rw [if_pos hab]
      rw [List.pairwise_cons]
      refine ⟨?_, List.pairwise_cons.mpr hl⟩
      intro x hx
      rcases List.mem_cons.mp hx with hx | hx
      · rw [hx]
        exact (groupLess_iff a b).mp hab
      · exact precedes_trans a b x ((groupLess_iff a b).mp hab) (hl.1 x hx)
    · rw [if_neg hab]
      have hba : precedes b a := by
        rcases precedes_trichotomous a b hb with h | h
        · exact absurd ((groupLess_iff a b).mpr h) hab
        · exact h
      rw [List.pairwise_cons]
      refine ⟨?_, ih ht hl.2⟩
      intro x hx
      rcases List.mem_cons.mp ((List.perm_orderedInsert _ a t).mem_iff.mp hx) with hx | hx
      · rw [hx]
        exact hba
      · exact hl.1 x hx

theorem sortGroups_pairwise (l : List connectivitySet) (hnd : l.Nodup) :
    (sortGroups l).Pairwise precedes := by
  unfold sortGroups
  induction l with
  | nil => simp
  | cons a t ih =>
    rw [List.nodup_cons] at hnd
    simp only [List.insertionSort]
    apply orderedInsert_pairwise a _ _ (ih hnd.2)
    intro h
    exact hnd.1 ((List.perm_insertionSort _ t).mem_iff.mp h)

theorem addSet_nodup (c : connectivityGroupList) (cs : connectivitySet)
    (hnd : (c.map (fun g => g.set)).Nodup) :
    ((c.addSet cs).map (fun g => g.set)).Nodup := by
  unfold connectivityGroupList.addSet
  by_cases hc : c.containsSet cs = true
  · simp only [hc, Bool.not_true, Bool.false_eq_true, if_false]
    exact hnd
  · have hc2 : c.containsSet cs = false := by simpa using hc
    simp only [hc2, Bool.not_false, if_true, List.map_append, List.map_cons, List.map_nil]
    rw [List.nodup_append]
    refine ⟨hnd, List.nodup_singleton _, ?_⟩
    intro x hx hx2
    rw [List.mem_singleton.mp hx2] at hx
    exact hc ((containsSet_iff c cs).mpr hx)

theorem foldl_addSet_nodup (pending : List connectivitySet) :
    ∀ c : connectivityGroupList, (c.map (fun g => g.set)).Nodup →
      ((pending.foldl connectivityGroupList.addSet c).map (fun g => g.set)).Nodup := by
  induction pending with
  | nil => intro c h; exact h
  | cons p rest ih =>
    intro c h
    rw [List.foldl_cons]
    exact ih _ (addSet_nodup c p h)

theorem gathered_nodup (cands : List groupCandidate) :
    ∀ c : connectivityGroupList, (c.map (fun g => g.set)).Nodup →
      ((cands.foldl gatherCandidate c).map (fun g => g.set)).Nodup := by
  induction cands with
  | nil => intro c h; exact h
  | cons cand rest ih =>
    intro c h
    rw [List.foldl_cons]
    apply ih
    unfold gatherCandidate
    exact foldl_addSet_nodup _ c h

theorem filterMap_set_nodup (p : connectivityGroup → Bool) (l : connectivityGroupList)
    (hnd : (l.map (fun g => g.set)).Nodup) :
    (l.filterMap (fun r => if p r then some r.set else none)).Nodup := by
  induction l with
  | nil => simp
  | cons g t ih =>
    rw [List.map_cons, List.nodup_cons] at hnd
    have hmem : ∀ x, x ∈ t.filterMap (fun r => if p r then some r.set else none) →
        x ∈ t.map (fun g => g.set) := by
      intro x hx
      obtain ⟨r, hr, hrx⟩ := List.mem_filterMap.mp hx
      split at hrx
      · cases hrx
        exact List.mem_map.mpr ⟨r, hr, rfl⟩
      · cases hrx
    by_cases hp : p g = true
    · simp only [List.filterMap_cons, hp, if_true]
      exact List.nodup_cons.mpr ⟨fun h => hnd.1 (hmem _ h), ih hnd.2⟩
    · simp only [List.filterMap_cons, hp, if_false]
      exact ih hnd.2

theorem createConnectivityGroups_nodup (cands : List groupCandidate) :
    (createConnectivityGroups cands).Nodup ∧
    (createConnectivityGroups cands).Pairwise precedes := by
  have hg := gathered_nodup cands [] List.nodup_nil
  have hcounted : ((cands.foldl countCandidate (cands.foldl gatherCandidate [])).map
      (fun g => g.set)).Nodup := by
    rw [foldl_countCandidate, List.map_map]
    exact hg
  have hret := filterMap_set_nodup (fun r => decide (r.set.card = r.count)) _ hcounted
  have hret2 : ((cands.foldl countCandidate (cands.foldl gatherCandidate [])).filterMap
      (fun r => if r.set.card = r.count then some r.set else none)).Nodup := by
    simpa using hret
  unfold createConnectivityGroups
  exact ⟨(sortGroups_perm _).nodup_iff.mpr hret2, sortGroups_pairwise _ hret2⟩

/-- C27: for every list of group candidates the list that `createConnectivityGroups`
returns has no duplicates, holds exactly the gathered sets whose count of supporting
candidates equals their size (with distinct candidate owners: every member owns a
candidate that contains the whole set), and is ordered by descending size and, for one
size, by ascending lexicographic order of the sorted member ids; `CreateMajorityGroup`
returns the members of the first set of that list, or the empty list when there is
none. -/
theorem createConnectivityGroups_sorted_unique (cands : List groupCandidate) :
    (createConnectivityGroups cands).Nodup ∧
    (createConnectivityGroups cands).Pairwise precedes ∧
    (∀ G, G ∈ createConnectivityGroups cands ↔
      (G ∈ (cands.foldl gatherCandidate []).map (fun g => g.set) ∧
        G.card = cands.countP (fun cand =>
          cand.set.isSupersetOf G && G.containsElement cand.me))) ∧
    ((cands.map (fun c => c.me)).Nodup → ∀ G ∈ createConnectivityGroups cands,
      ∀ g ∈ G, ∃ c ∈ cands, c.me = g ∧ G ⊆ c.set) ∧
    (∀ (order : RangeOrder) (cidr : String) (hosts : List Host) (cMap : connectivityMap),
      createMachineCidrConnectivityMap cidr hosts = .ok cMap →
      cands = majorityCandidates hosts cMap →
      CreateMajorityGroup order cidr hosts =
        .ok (match (createConnectivityGroups cands).head? with
          | some g => g.toList order
          | none => [])) := by
  refine ⟨(createConnectivityGroups_nodup cands).1, (createConnectivityGroups_nodup cands).2,
    mem_createConnectivityGroups cands, fun hnd G hG => group_members_own_supersets cands hnd G hG,
    ?_⟩
  intro order cidr hosts cMap hmap hcands
  rw [CreateMajorityGroup_of_map order cidr hosts cMap hmap, hcands]
  cases createConnectivityGroups (majorityCandidates hosts cMap) with
  | nil => rfl
  | cons g rest => rfl

theorem createConnectivityGroups_sorted_unique_witness :
    ∃ cMap, createMachineCidrConnectivityMap "192.168.1.0/24" fiveHosts = .ok cMap ∧
      (createConnectivityGroups (majorityCandidates fiveHosts cMap)).Nodup ∧
      (createConnectivityGroups (majorityCandidates fiveHosts cMap)).Pairwise precedes ∧
      CreateMajorityGroup ascendingOrder "192.168.1.0/24" fiveHosts =
        .ok (match (createConnectivityGroups (majorityCandidates fiveHosts cMap)).head? with
          | some g => g.toList ascendingOrder
          | none => []) :=
  (createMap_ok "192.168.1.0/24" fiveHosts (GoNet.IPv4 192 168 1 0) sampleNet (by decide)
    (by decide)).elim (fun cMap hmap =>
      ⟨cMap, hmap,
        (createConnectivityGroups_sorted_unique (majorityCandidates fiveHosts cMap)).1,
        (createConnectivityGroups_sorted_unique (majorityCandidates fiveHosts cMap)).2.1,
        (createConnectivityGroups_sorted_unique (majorityCandidates fiveHosts cMap)).2.2.2.2
          ascendingOrder "192.168.1.0/24" fiveHosts cMap hmap rfl⟩)

end Network

/-! ## Theorems: overlap and address ranges -/

namespace Network

open GoNet

theorem zipWith_land_assoc (x : List Nat) :
    ∀ m1 m2 : List Nat,
      List.zipWith (fun a b => a &&& b) (List.zipWith (fun a b => a &&& b) x m1) m2 =
        List.zipWith (fun a b => a &&& b) x (List.zipWith (fun a b => a &&& b) m1 m2) := by
  induction x with
  | nil => intro m1 m2; simp
  | cons a t ih =>
    intro m1 m2
    cases m1 with
    | nil => simp
    | cons b1 t1 =>
      cases m2 with
      | nil => simp
      | cons b2 t2 =>
        simp only [List.zipWith_cons_cons, ih, Nat.land_assoc]

theorem zipWith_land_comm (m1 : List Nat) :
    ∀ m2 : List Nat,
      List.zipWith (fun a b => a &&& b) m1 m2 = List.zipWith (fun a b => a &&& b) m2 m1 := by
  induction m1 with
  | nil => intro m2; cases m2 <;> simp
  | cons a t ih =>
    intro m2
    cases m2 with
    | nil => simp
    | cons b t2 =>
      simp only [List.zipWith_cons_cons, ih t2, Nat.land_comm a b]

theorem zipWith_land_idem (x m : List Nat) :
    List.zipWith (fun a b => a &&& b) (List.zipWith (fun a b => a &&& b) x m) m =
      List.zipWith (fun a b => a &&& b) x m := by
  rw [zipWith_land_assoc]
  congr 1
  induction m with
  | nil => rfl
  | cons b t ih => simp only [List.zipWith_cons_cons, ih, Nat.and_self]

theorem cidrMaskLoop_length (l : Nat) : ∀ n, (cidrMaskLoop l n).length = l := by
  induction l with
  | zero => intro n; rfl
  | succ l ih =>
    intro n
    unfold cidrMaskLoop
    split <;> simp [ih]

theorem maskByte_lt : ∀ k : Fin 8, 0xff - (0xff >>> k.val) < 256 := by decide

theorem maskByte_nested :
    ∀ j k : Fin 8, j.val ≤ k.val →
      (0xff - (0xff >>> j.val)) &&& (0xff - (0xff >>> k.val)) = 0xff - (0xff >>> j.val) := by
  decide

theorem maskByte_ff : ∀ j : Fin 8, (0xff - (0xff >>> j.val)) &&& 0xff = 0xff - (0xff >>> j.val) := by
  decide

theorem cidrMaskLoop_byte (l : Nat) : ∀ n, ∀ b ∈ cidrMaskLoop l n, b < 256 := by
  induction l with
  | zero => intro n b hb; cases hb
  | succ l ih =>
    intro n b hb
    unfold cidrMaskLoop at hb
    split at hb
    · rcases List.mem_cons.mp hb with h | h
      · rw [h]
        decide
      · exact ih _ b h
    · rename_i hn
      rcases List.mem_cons.mp hb with h | h
      · rw [h]
        exact maskByte_lt ⟨n, by omega⟩
      · exact ih _ b h

theorem cidrMaskLoop_nested (l : Nat) :
    ∀ na nb, na ≤ nb →
      List.zipWith (fun a b => a &&& b) (cidrMaskLoop l na) (cidrMaskLoop l nb) =
        cidrMaskLoop l na := by
  induction l with
  | zero => intro na nb _; rfl
  | succ l ih =>
    intro na nb hle
    by_cases ha : na ≥ 8
    · have hb : nb ≥ 8 := by omega
      rw [show cidrMaskLoop (l + 1) na = 0xff :: cidrMaskLoop l (na - 8) by
        simp [cidrMaskLoop, ha]]
      rw [show cidrMaskLoop (l + 1) nb = 0xff :: cidrMaskLoop l (nb - 8) by
        simp [cidrMaskLoop, hb]]
      rw [List.zipWith_cons_cons, ih _ _ (by omega)]
      rfl
    · rw [show cidrMaskLoop (l + 1) na = (0xff - (0xff >>> na)) :: cidrMaskLoop l 0 by
        simp [cidrMaskLoop, ha]]
      by_cases hb : nb ≥ 8
      · rw [show cidrMaskLoop (l + 1) nb = 0xff :: cidrMaskLoop l (nb - 8) by
          simp [cidrMaskLoop, hb]]
        rw [List.zipWith_cons_cons, ih _ _ (by omega)]
        congr 1
        exact maskByte_ff ⟨na, by omega⟩
      · rw [show cidrMaskLoop (l + 1) nb = (0xff - (0xff >>> nb)) :: cidrMaskLoop l 0 by
          simp [cidrMaskLoop, hb]]
        rw [List.zipWith_cons_cons, ih _ _ (le_refl 0)]
        congr 1
        exact maskByte_nested ⟨na, by omega⟩ ⟨nb, by omega⟩ hle

theorem getD_land_iff (nn : List Nat) :
    ∀ x m : List Nat, x.length = nn.length → m.length = nn.length →
      ((∀ i, i < x.length → nn.getD i 0 &&& m.getD i 0 = x.getD i 0 &&& m.getD i 0) ↔
        List.zipWith (fun a b => a &&& b) nn m = List.zipWith (fun a b => a &&& b) x m) := by
  induction nn with
  | nil =>
    intro x m h1 h2
    have hx : x = [] := List.length_eq_zero.mp h1
    subst hx
    simp
  | cons a t ih =>
    intro x m h1 h2
    cases x with
    | nil => simp at h1
    | cons b xt =>
      cases m with
      | nil => simp at h2
      | cons c mt =>
        have h1t : xt.length = t.length := by simpa using h1
        have h2t : mt.length = t.length := by simpa using h2
        rw [List.zipWith_cons_cons, List.zipWith_cons_cons, List.cons.injEq, ← ih xt mt h1t h2t]
        constructor
        · intro h
          refine ⟨?_, fun i hi => ?_⟩
          · simpa using h 0 (by simp)
          · simpa using h (i + 1) (by simpa using hi)
        · rintro ⟨h0, ht⟩ i hi
          cases i with
          | zero => simpa using h0
          | succ j => simpa using ht j (by simpa using hi)

theorem contains_all_iff (nn x m : List Nat) (h1 : x.length = nn.length)
    (h2 : m.length = nn.length) :
    (List.range x.length).all
        (fun i => decide (nn.getD i 0 &&& m.getD i 0 = x.getD i 0 &&& m.getD i 0)) = true ↔
      List.zipWith (fun a b => a &&& b) nn m = List.zipWith (fun a b => a &&& b) x m := by
  rw [← getD_land_iff nn x m h1 h2, List.all_eq_true]
  constructor
  · intro h i hi
    simpa using h i (List.mem_range.mpr hi)
  · intro h i hi
    simpa using h i (List.mem_range.mp hi)

theorem CIDRMask_32 (n : Nat) (h : n ≤ 32) : CIDRMask n 32 = cidrMaskLoop 4 n := by
  have key : ∀ k : Fin 33, CIDRMask (k.val : Int) 32 = cidrMaskLoop 4 k.val := by decide
  exact key ⟨n, by omega⟩

theorem CIDRMask_128 (n : Nat) (h : n ≤ 128) : CIDRMask n 128 = cidrMaskLoop 16 n := by
  have key : ∀ k : Fin 129, CIDRMask (k.val : Int) 128 = cidrMaskLoop 16 k.val := by decide
  exact key ⟨n, by omega⟩

theorem Mask_IPv4 (a b c d : Nat) (m : IPMask) (hm : m.length = 4) :
    Mask (IPv4 a b c d) m = List.zipWith (fun a b => a &&& b) [a, b, c, d] m := by
  simp [Mask, IPv4, v4InV6Prefix, hm, IPv4len, IPv6len]

theorem Mask_IPv6 (ip : IP) (m : IPMask) (hip : ip.length = 16) (hm : m.length = 16) :
    Mask ip m = List.zipWith (fun a b => a &&& b) ip m := by
  simp [Mask, hip, hm, IPv4len, IPv6len]

/-- The network of a parsed CIDR: its mask is a prefix mask of 4 or of 16 bytes, and its
address is an address of that length under the mask. -/
theorem ParseCIDR_masked (s : String) (ip : IP) (cidr : IPNet)
    (h : ParseCIDR s = some (ip, cidr)) :
    ∃ (L n : Nat) (ipx : IP), (L = 4 ∨ L = 16) ∧ cidr.Mask = cidrMaskLoop L n ∧
      ipx.length = L ∧ cidr.IP = List.zipWith (fun a b => a &&& b) ipx (cidrMaskLoop L n) := by
  obtain ⟨n, hip, hcase⟩ := ParseCIDR_shape s ip cidr h
  rcases hcase with ⟨hn, hm, a, b, c, d, hform⟩ | ⟨hn, hm, hlen⟩
  · refine ⟨4, n, [a, b, c, d], Or.inl rfl, ?_, rfl, ?_⟩
    · rw [hm, CIDRMask_32 n hn]
    · rw [hip, hm, CIDRMask_32 n hn, hform, Mask_IPv4 a b c d _ (cidrMaskLoop_length 4 n)]
  · refine ⟨16, n, ip, Or.inr rfl, ?_, hlen, ?_⟩
    · rw [hm, CIDRMask_128 n hn]
    · rw [hip, hm, CIDRMask_128 n hn, Mask_IPv6 ip _ hlen (cidrMaskLoop_length 16 n)]

theorem To4_of_length_four (y : IP) (h : y.length = 4) : To4 y = y := by
  simp [To4, h, IPv4len]

theorem networkNumberAndMask_plain (n : IPNet) (L : Nat) (hL : L = 4 ∨ L = 16)
    (hip : n.IP.length = L) (hm : n.Mask.length = L) (hmapped : isMapped n = false) :
    networkNumberAndMask n = (n.IP, n.Mask) := by
  rcases hL with hL | hL
  · subst hL
    simp [networkNumberAndMask, To4_of_length_four n.IP hip, hip, hm, IPv4len, IPv6len]
  · subst hL
    have h0 : (To4 n.IP).length = 0 := by
      simpa [isMapped, hip, IPv6len] using hmapped
    simp [networkNumberAndMask, h0, hip, hm, IPv4len, IPv6len]

theorem Contains_plain (n : IPNet) (y : IP) (L : Nat) (hL : L = 4 ∨ L = 16)
    (hip : n.IP.length = L) (hm : n.Mask.length = L) (hmapped : isMapped n = false)
    (hy : y.length = L) (hy4 : L = 16 → (To4 y).length = 0) :
    Contains n y = true ↔
      List.zipWith (fun a b => a &&& b) n.IP n.Mask =
        List.zipWith (fun a b => a &&& b) y n.Mask := by
  have hnorm : (if (To4 y).length ≠ 0 then To4 y else y) = y := by
    rcases hL with hL | hL
    · subst hL
      rw [To4_of_length_four y hy]
      simp
    · rw [if_neg (by simp [hy4 hL])]
  unfold Contains
  rw [networkNumberAndMask_plain n L hL hip hm hmapped]
  simp only [hnorm]
  rw [if_neg (by simp [hy, hip])]
  exact contains_all_iff n.IP y n.Mask (by rw [hy, hip]) (by rw [hm, hip])

theorem zipWith_land_lt (x : List Nat) :
    ∀ m : List Nat, (∀ b ∈ m, b < 256) →
      ∀ b ∈ List.zipWith (fun a b => a &&& b) x m, b < 256 := by
  induction x with
  | nil => intro m _ b hb; simp at hb
  | cons a t ih =>
    intro m hm b hb
    cases m with
    | nil => simp at hb
    | cons c mt =>
      rw [List.zipWith_cons_cons] at hb
      rcases List.mem_cons.mp hb with h | h
      · rw [h]
        exact lt_of_le_of_lt Nat.and_le_right (hm c (List.mem_cons_self _ _))
      · exact ih mt (fun b hb2 => hm b (List.mem_cons_of_mem _ hb2)) b h

/-- Under a mask `ma` that the mask `mb` refines, masking with `mb` first changes
nothing. -/
theorem land_refine (ma mb x : List Nat)
    (hnest : List.zipWith (fun a b => a &&& b) mb ma = ma) :
    List.zipWith (fun a b => a &&& b) (List.zipWith (fun a b => a &&& b) x mb) ma =
      List.zipWith (fun a b => a &&& b) x ma := by
  rw [zipWith_land_assoc, hnest]

theorem PlainNet_of_ParseCIDR (s : String) (ip : IP) (cidr : IPNet)
    (h : ParseCIDR s = some (ip, cidr)) (hmapped : isMapped cidr = false) :
    ∃ L ones, PlainNet cidr L ones := by
  obtain ⟨L, n, ipx, hL, hm, hlen, hip⟩ := ParseCIDR_masked s ip cidr h
  refine ⟨L, n, hL, hm, ?_, ?_, ?_, hmapped⟩
  · rw [hip, List.length_zipWith, hlen, cidrMaskLoop_length]
    simp
  · rw [hm]
    conv_lhs => rw [hip]
    rw [zipWith_land_idem, ← hip]
  · rw [hip]
    exact zipWith_land_lt ipx _ (cidrMaskLoop_byte L n)

theorem PlainNet.self_mem {n : IPNet} {L ones : Nat} (h : PlainNet n L ones) :
    inRange n n.IP :=
  ⟨rfl, h.bytes, h.masked⟩

theorem PlainNet.contains_iff {a b : IPNet} {L na nb : Nat} (ha : PlainNet a L na)
    (hb : PlainNet b L nb) : Contains a b.IP = true ↔ inRange a b.IP := by
  have hy4 : L = 16 → (To4 b.IP).length = 0 := by
    intro hL
    have := hb.plain
    simpa [isMapped, hb.length, hL, IPv6len] using this
  rw [Contains_plain a b.IP L ha.family ha.length
    (by rw [ha.mask, cidrMaskLoop_length]) ha.plain hb.length hy4, ha.masked]
  unfold inRange
  constructor
  · intro h
    exact ⟨by rw [ha.length, hb.length], hb.bytes, h.symm⟩
  · intro h
    exact h.2.2.symm

/-- The two networks in the order of their prefixes: `a` has the shorter one. -/
theorem PlainNet.ordered {a b : IPNet} {L na nb : Nat} (ha : PlainNet a L na)
    (hb : PlainNet b L nb) (hle : na ≤ nb) :
    ((inRange a b.IP ∨ inRange b a.IP) → ∀ x, inRange b x → inRange a x) ∧
    ((∃ x, inRange a x ∧ inRange b x) → inRange a b.IP) := by
  have hnest : List.zipWith (fun a b => a &&& b) b.Mask a.Mask = a.Mask := by
    rw [ha.mask, hb.mask, zipWith_land_comm]
    exact cidrMaskLoop_nested L na nb hle
  have hBA : (∃ x, inRange a x ∧ inRange b x) → inRange a b.IP := by
    rintro ⟨x, hxa, hxb⟩
    refine ⟨by rw [ha.length, hb.length], hb.bytes, ?_⟩
    rw [← hxb.2.2, land_refine a.Mask b.Mask x hnest]
    exact hxa.2.2
  refine ⟨?_, hBA⟩
  intro hP x hx
  have hab : inRange a b.IP := by
    rcases hP with h | h
    · exact h
    · exact hBA ⟨a.IP, ha.self_mem, h⟩
  refine ⟨by rw [hx.1, ha.length, hb.length], hx.2.1, ?_⟩
  rw [← land_refine a.Mask b.Mask x hnest, hx.2.2]
  exact hab.2.2

/-- C26: `verifyCIDRsNotOverlap` misses an overlap when one of two IPv6 CIDRs lies in the
IPv4-mapped block.  "::/0" and "::ffff:0:0/96" are valid IPv6 CIDRs, every address of the
second lies in the range of the first, and yet no overlap is reported; the same holds
for "::8000:0:0/81" and "::ffff:10.0.0.0/104", which both pass `VerifySubnetCIDR`, in
either order of the arguments.  `Contains` takes an IPv4-mapped address for an IPv4
address and answers false when the lengths then differ. -/
theorem verifyCIDRsNotOverlap_misses_mapped :
    ParseCIDR "::/0" = some (List.replicate 16 0, netAll6) ∧
    ParseCIDR "::ffff:0:0/96" = some (netMapped.IP, netMapped) ∧
    netAll6.IP.length = netMapped.IP.length ∧
    (∀ x, inRange netMapped x → inRange netAll6 x) ∧
    (inRange netAll6 netMapped.IP ∧ inRange netMapped netMapped.IP) ∧
    failed (verifyCIDRsNotOverlap netAll6 netMapped) = false ∧
    failed (VerifyCIDRsNotOverlap "::/0" "::ffff:0:0/96") = false ∧
    ParseCIDR "::8000:0:0/81" = some (netHigh.IP, netHigh) ∧
    ParseCIDR "::ffff:10.0.0.0/104" = some (netMappedTen.IP, netMappedTen) ∧
    failed (VerifySubnetCIDR "::8000:0:0/81") = false ∧
    failed (VerifySubnetCIDR "::ffff:10.0.0.0/104") = false ∧
    (∀ x, inRange netMappedTen x → inRange netHigh x) ∧
    (inRange netHigh netMappedTen.IP ∧ inRange netMappedTen netMappedTen.IP) ∧
    failed (verifyCIDRsNotOverlap netHigh netMappedTen) = false ∧
    failed (VerifyCIDRsNotOverlap "::8000:0:0/81" "::ffff:10.0.0.0/104") = false ∧
    failed (VerifyCIDRsNotOverlap "::ffff:10.0.0.0/104" "::8000:0:0/81") = false := by
  refine ⟨by decide, by decide, by decide, ?_, by decide, by decide, by decide, by decide,
    by decide, by decide, by decide, ?_, by decide, by decide, by decide, by decide⟩
  · intro x hx
    have hlen : x.length = 16 := hx.1
    exact ⟨hlen, hx.2.1, zipWith_land_zero x 16 hlen⟩
  · intro x hx
    refine ⟨hx.1, hx.2.1, ?_⟩
    rw [← land_refine netHigh.Mask netMappedTen.Mask x (by decide), hx.2.2]
    decide

/-- Where the check is right: for two valid CIDRs of one address family (both dotted
IPv4, or both IPv6) neither of whose network addresses is an IPv4-mapped IPv6 address,
`verifyCIDRsNotOverlap` reports an overlap exactly when the address range of one is a
subset of the range of the other, which is exactly when the two ranges share an
address. -/
theorem verifyCIDRsNotOverlap_iff_ranges (sa sb : String) (ipa ipb : IP) (a b : IPNet)
    (ha : ParseCIDR sa = some (ipa, a)) (hb : ParseCIDR sb = some (ipb, b))
    (hfamily : a.IP.length = b.IP.length)
    (hma : isMapped a = false) (hmb : isMapped b = false) :
    (failed (verifyCIDRsNotOverlap a b) = true ↔
      ((∀ x, inRange b x → inRange a x) ∨ (∀ x, inRange a x → inRange b x))) ∧
    (((∀ x, inRange b x → inRange a x) ∨ (∀ x, inRange a x → inRange b x)) ↔
      ∃ x, inRange a x ∧ inRange b x) ∧
    failed (VerifyCIDRsNotOverlap sa sb) = failed (verifyCIDRsNotOverlap a b) := by
  obtain ⟨La, na, pa⟩ := PlainNet_of_ParseCIDR sa ipa a ha hma
  obtain ⟨Lb, nb, pb⟩ := PlainNet_of_ParseCIDR sb ipb b hb hmb
  have hL : La = Lb := by rw [← pa.length, ← pb.length, hfamily]
  subst hL
  have hreported : failed (verifyCIDRsNotOverlap a b) = true ↔
      (inRange a b.IP ∨ inRange b a.IP) := by
    rw [failed_verifyCIDRsNotOverlap, Bool.or_eq_true, pa.contains_iff pb, pb.contains_iff pa]
  have hnested : (inRange a b.IP ∨ inRange b a.IP) →
      ((∀ x, inRange b x → inRange a x) ∨ (∀ x, inRange a x → inRange b x)) := by
    intro hP
    rcases le_total na nb with hle | hle
    · exact Or.inl ((pa.ordered pb hle).1 hP)
    · exact Or.inr ((pb.ordered pa hle).1 hP.symm)
  have hshare : ((∀ x, inRange b x → inRange a x) ∨ (∀ x, inRange a x → inRange b x)) →
      ∃ x, inRange a x ∧ inRange b x := by
    rintro (h | h)
    · exact ⟨b.IP, h b.IP pb.self_mem, pb.self_mem⟩
    · exact ⟨a.IP, pa.self_mem, h a.IP pa.self_mem⟩
  have hback : (∃ x, inRange a x ∧ inRange b x) → (inRange a b.IP ∨ inRange b a.IP) := by
    rintro ⟨x, hxa, hxb⟩
    rcases le_total na nb with hle | hle
    · exact Or.inl ((pa.ordered pb hle).2 ⟨x, hxa, hxb⟩)
    · exact Or.inr ((pb.ordered pa hle).2 ⟨x, hxb, hxa⟩)
  refine ⟨⟨fun h => hnested (hreported.mp h), fun h => hreported.mpr (hback (hshare h))⟩,
    ⟨hshare, fun h => hnested (hback h)⟩, ?_⟩
  have hnone : ParseCIDR "" = none := by decide
  have hsa : sa ≠ "" := by
    intro h0
    rw [h0, hnone] at ha
    cases ha
  have hsb : sb ≠ "" := by
    intro h0
    rw [h0, hnone] at hb
    cases hb
  simp only [VerifyCIDRsNotOverlap, hsa, hsb, or_self, if_false, ha, hb]

theorem verifyCIDRsNotOverlap_iff_ranges_witness :
    failed (verifyCIDRsNotOverlap { IP := [10, 0, 0, 0], Mask := [0xff, 0, 0, 0] }
      { IP := [10, 128, 0, 0], Mask := [0xff, 0xfc, 0, 0] }) = true ∧
    ((∀ x, inRange { IP := [10, 128, 0, 0], Mask := [0xff, 0xfc, 0, 0] } x →
        inRange { IP := [10, 0, 0, 0], Mask := [0xff, 0, 0, 0] } x) ∨
      (∀ x, inRange { IP := [10, 0, 0, 0], Mask := [0xff, 0, 0, 0] } x →
        inRange { IP := [10, 128, 0, 0], Mask := [0xff, 0xfc, 0, 0] } x)) :=
  have h := verifyCIDRsNotOverlap_iff_ranges "10.0.0.0/8" "10.128.0.0/14" (IPv4 10 0 0 0)
    (IPv4 10 128 0 0) { IP := [10, 0, 0, 0], Mask := [0xff, 0, 0, 0] }
    { IP := [10, 128, 0, 0], Mask := [0xff, 0xfc, 0, 0] } (by decide) (by decide) (by decide)
    (by decide) (by decide)
  ⟨by decide, h.1.mp (by decide)⟩

end Network
